import Mathlib

/-!
# Verification development for the O² control core

Shallow embedding of

* `configuration/componentcfg/query.go`: the configuration keys (`NewQuery`, `Path`, `Raw`);
* `core/environment/manager.go`: the environment manager (the partition of the user
  variables, `TeardownEnvironment`, the event demultiplexer and `handleDeviceEvent`).

Go strings are lists of characters or Lean strings, Go maps are association lists with
unique keys, pointers are natural numbers (`nil` is `none`), and a Go function that may
panic or block returns an explicit outcome. The manager is embedded as a sequential
machine: an operation is a function of the manager and of what it receives from outside
(the events delivered to it), and it yields the manager afterwards, the trace of its
effects, and how the call ended. Interleavings of several goroutines are not modelled.

The first part holds the definitions, the second part the theorems.
-/

set_option autoImplicit false

/-! # Part I: definitions -/

namespace componentcfg

/-- Go `string`, as the list of its characters. -/
abbrev Str := List Char

/-- Go `strings.Contains(s, sep)` for a one-character `sep`. -/
def Contains (s : Str) (sep : Char) : Bool :=
  match s with
  | [] => false
  | c :: cs => if c = sep then true else Contains cs sep

/-- Go `strings.Replace(s, old, new, 1)` for one-character `old` and `new`:
only the first occurrence is replaced. -/
def Replace1 (s : Str) (old new : Char) : Str :=
  match s with
  | [] => []
  | c :: cs => if c = old then new :: cs else c :: Replace1 cs old new

/-- Go `strings.Split(s, sep)` for a one-character `sep`: all the substrings between
separators; a string without separator yields itself, alone. -/
def Split (s : Str) (sep : Char) : List Str :=
  match s with
  | [] => [[]]
  | c :: cs =>
    if c = sep then [] :: Split cs sep
    else
      match Split cs sep with
      | [] => [[c]]
      | p :: ps => (c :: p) :: ps

/-- Modelled from the spec: the constant `SEPARATOR` is not in the sources; the key
format `<component>/<RUNTYPE>/<rolename>/<entry>` separates segments with a slash. -/
def SEPARATOR : Char := '/'

/-- The characters of a range `lo-hi` of a character class. -/
def charRange (lo hi : Char) : List Char :=
  (List.range (hi.toNat + 1 - lo.toNat)).map fun i => Char.ofNat (lo.toNat + i)

/-- A character class `[...]`: any one of the listed characters. -/
def charClass (cs : List Char) : RegularExpression Char :=
  cs.foldr (fun c r => RegularExpression.char c + r) 0

/-- Repetition `r+`. -/
def oneOrMore (r : RegularExpression Char) : RegularExpression Char := r * r.star

/-- Option `r?`. -/
def optional (r : RegularExpression Char) : RegularExpression Char := r + 1

/-- Counted repetition `r{1}`. -/
def once (r : RegularExpression Char) : RegularExpression Char := r ^ 1

/-- Class `[a-zA-Z0-9-_]` of `inputFullRegex`. -/
def clsComponent : List Char :=
  charRange 'a' 'z' ++ charRange 'A' 'Z' ++ charRange '0' '9' ++ ['-', '_']

/-- Class `[A-Z0-9-_]` of `inputFullRegex`. -/
def clsRunType : List Char :=
  charRange 'A' 'Z' ++ charRange '0' '9' ++ ['-', '_']

/-- Class `[a-z-A-Z0-9-_]` of `inputFullRegex`. -/
def clsRole : List Char :=
  charRange 'a' 'z' ++ ['-'] ++ charRange 'A' 'Z' ++ charRange '0' '9' ++ ['-', '_']

/-- Class `[0-9]`. -/
def clsDigit : List Char := charRange '0' '9'

/-- The regular expression of `query.go`,
`^([a-zA-Z0-9-_]+)(\/[A-Z0-9-_]+){1}(\/[a-z-A-Z0-9-_]+){1}(\/[a-z-A-Z0-9-_]+){1}(\@[0-9]+)?$`,
matched against the whole string. -/
def inputFullRegex : RegularExpression Char :=
  oneOrMore (charClass clsComponent)
    * once (RegularExpression.char '/' * oneOrMore (charClass clsRunType))
    * once (RegularExpression.char '/' * oneOrMore (charClass clsRole))
    * once (RegularExpression.char '/' * oneOrMore (charClass clsRole))
    * optional (RegularExpression.char '@' * oneOrMore (charClass clsDigit))

/-- Class `[A-Za-z0-9_-]` of the specification. -/
def specWord : List Char :=
  charRange 'A' 'Z' ++ charRange 'a' 'z' ++ charRange '0' '9' ++ ['_', '-']

/-- Class `[A-Z0-9_-]` of the specification. -/
def specUpper : List Char :=
  charRange 'A' 'Z' ++ charRange '0' '9' ++ ['_', '-']

/-- The regular expression of the specification,
`^([A-Za-z0-9_-]+)/([A-Z0-9_-]+)/([A-Za-z0-9_-]+)/([A-Za-z0-9_-]+)(@[0-9]+)?$`. -/
def specKeyRegex : RegularExpression Char :=
  oneOrMore (charClass specWord)
    * RegularExpression.char '/' * oneOrMore (charClass specUpper)
    * RegularExpression.char '/' * oneOrMore (charClass specWord)
    * RegularExpression.char '/' * oneOrMore (charClass specWord)
    * optional (RegularExpression.char '@' * oneOrMore (charClass clsDigit))

/-- Modelled from the spec: `IsInputCompEntryTsValid` is not in the sources; a key is
valid when it has the format of the key grammar, which `query.go` compiles as
`inputFullRegex`. -/
def IsInputCompEntryTsValid (input : Str) : Bool := inputFullRegex.rmatch input

/-- The generated protobuf tables for `apricotpb.RunType`, which are not in the
sources: the null value and the two maps between names and numbers. -/
structure RunTypes where
  RunType_NULL : Int
  RunType_value : Str → Option Int
  RunType_name : Int → Option Str

/-- The struct `Query` of `query.go`; `Flavor` is the number of an `apricotpb.RunType`. -/
structure Query where
  Component : Str
  Flavor : Int
  Rolename : Str
  EntryKey : Str
  Timestamp : Str
deriving DecidableEq

/-- The errors of `query.go`. -/
inductive QueryError where
  | E_BAD_KEY
deriving DecidableEq

/-- Function `NewQuery`: the returned pair `(p, err)`, or `none` when an index is out of range
(a run-time panic). -/
def NewQuery (pb : RunTypes) (path : Str) : Option (Query × Option QueryError) :=
  let p : Query :=
    { Component := [], Flavor := pb.RunType_NULL, Rolename := [], EntryKey := [],
      Timestamp := [] }
  if IsInputCompEntryTsValid path then
    if Contains path '@' then
      let arg := Replace1 path '@' SEPARATOR
      let params := Split arg SEPARATOR
      match params[0]? with
      | none => none
      | some p0 =>
        let p := { p with Component := p0 }
        match params[1]? with
        | none => none
        | some p1 =>
          match pb.RunType_value p1 with
          | none => some (p, some QueryError.E_BAD_KEY)
          | some typedFlavor =>
            let p := { p with Flavor := typedFlavor }
            match params[2]? with
            | none => none
            | some p2 =>
              let p := { p with Rolename := p2 }
              match params[3]? with
              | none => none
              | some p3 =>
                let p := { p with EntryKey := p3 }
                match params[4]? with
                | none => none
                | some p4 => some ({ p with Timestamp := p4 }, none)
    else if Contains path SEPARATOR then
      let params := Split path SEPARATOR
      match params[0]? with
      | none => none
      | some p0 =>
        let p := { p with Component := p0 }
        match params[1]? with
        | none => none
        | some p1 =>
          match pb.RunType_value p1 with
          | none => some (p, some QueryError.E_BAD_KEY)
          | some typedFlavor =>
            let p := { p with Flavor := typedFlavor }
            match params[2]? with
            | none => none
            | some p2 =>
              let p := { p with Rolename := p2 }
              match params[3]? with
              | none => none
              | some p3 =>
                let p := { p with EntryKey := p3 }
                if params.length > 4 ∧ ((params[4]?).getD []).length > 0 then
                  some ({ p with Timestamp := (params[4]?).getD [] }, none)
                else some (p, none)
    else some (p, none)
  else some (p, some QueryError.E_BAD_KEY)

/-- Method `Query.WithoutTimestamp`; a number missing from `RunType_name` reads as the empty
string. -/
def Query.WithoutTimestamp (pb : RunTypes) (p : Query) : Str :=
  p.Component ++ [SEPARATOR] ++ (pb.RunType_name p.Flavor).getD [] ++ [SEPARATOR]
    ++ p.Rolename ++ [SEPARATOR] ++ p.EntryKey

/-- Method `Query.Path`: the canonical rendering. -/
def Query.Path (pb : RunTypes) (p : Query) : Str :=
  let path := p.WithoutTimestamp pb
  if p.Timestamp.length > 0 then path ++ ['@'] ++ p.Timestamp else path

/-- Method `Query.Raw`: the raw rendering. -/
def Query.Raw (pb : RunTypes) (p : Query) : Str :=
  let path := p.WithoutTimestamp pb
  if p.Timestamp.length > 0 then path ++ [SEPARATOR] ++ p.Timestamp else path

/-- The second slash-separated segment of a key, where the grammar has `RUNTYPE`. -/
def runTypeSegment (key : Str) : Option Str := (Split key '/')[1]?

/-- A sample run-type table, with the run types the specification names. -/
def sampleRunTypes : RunTypes where
  RunType_NULL := 0
  RunType_value := fun n =>
    if n = "PHYSICS".toList then some 1
    else if n = "TECHNICAL".toList then some 2
    else if n = "COSMICS".toList then some 3
    else if n = "NULL".toList then some 0
    else none
  RunType_name := fun v =>
    if v = 0 then some "NULL".toList
    else if v = 1 then some "PHYSICS".toList
    else if v = 2 then some "TECHNICAL".toList
    else if v = 3 then some "COSMICS".toList
    else none

/-- A segment of a key: a non-empty string over a character class. -/
abbrev Seg (cls : List Char) (s : Str) : Prop := s ≠ [] ∧ ∀ x ∈ s, x ∈ cls

/-- The timestamp suffix of a key: nothing, or `@` and digits. -/
def TsSuffix (ts : Str) : Prop := ts = [] ∨ ∃ t, Seg clsDigit t ∧ ts = '@' :: t

/-- The shape of a key: four segments over the given classes and a timestamp suffix. -/
def KeyShape (w1 rt w2 w3 : List Char) (s : Str) : Prop :=
  ∃ c R r e ts, Seg w1 c ∧ Seg rt R ∧ Seg w2 r ∧ Seg w3 e ∧ TsSuffix ts ∧
    s = c ++ '/' :: (R ++ '/' :: (r ++ '/' :: (e ++ ts)))

/-- The key `c/R/r/e`. -/
def plainKey (c R r e : Str) : Str := c ++ '/' :: (R ++ '/' :: (r ++ '/' :: e))

/-- The key `c/R/r/e@t`. -/
def stampedKey (c R r e t : Str) : Str := plainKey c R r e ++ '@' :: t

/-- The string `c/R/r/e/t`. -/
def rawKey (c R r e t : Str) : Str := plainKey c R r e ++ '/' :: t

/-- What `NewQuery` returns for a run-type segment `R` and the other segments. -/
def parsed (pb : RunTypes) (c R r e t : Str) : Query × Option QueryError :=
  match pb.RunType_value R with
  | none =>
    ({ Component := c, Flavor := pb.RunType_NULL, Rolename := [], EntryKey := [],
       Timestamp := [] }, some QueryError.E_BAD_KEY)
  | some v =>
    ({ Component := c, Flavor := v, Rolename := r, EntryKey := e, Timestamp := t }, none)

end componentcfg

namespace environment

/-- Go `map[κ]ν`, as an association list with unique keys. -/
abbrev GoMap (κ ν : Type) := List (κ × ν)

/-- The lookup `m[k]`, `none` when the key is absent. -/
def GoMap.get {κ ν : Type} [DecidableEq κ] (m : GoMap κ ν) (k : κ) : Option ν :=
  match m with
  | [] => none
  | (k', v) :: rest => if k' = k then some v else GoMap.get rest k

/-- The assignment `m[k] = v`. -/
def GoMap.set {κ ν : Type} [DecidableEq κ] (m : GoMap κ ν) (k : κ) (v : ν) : GoMap κ ν :=
  match m with
  | [] => [(k, v)]
  | (k', v') :: rest => if k' = k then (k, v) :: rest else (k', v') :: GoMap.set rest k v

/-- The removal `delete(m, k)`. -/
def GoMap.delete {κ ν : Type} [DecidableEq κ] (m : GoMap κ ν) (k : κ) : GoMap κ ν :=
  m.filter fun e => decide (e.1 ≠ k)

/-- The keys of a map. -/
def GoMap.keys {κ ν : Type} (m : GoMap κ ν) : List κ := m.map Prod.fst

/-- Modelled from the spec: `task.TARGET_SEPARATOR_RUNE` is not in the sources; the
role-target separator character is the one that the comment of `CreateEnvironment`
writes out: "If the key contains a ':' ...". -/
def TARGET_SEPARATOR_RUNE : Char := ':'

/-- Go `strings.ContainsRune(s, r)`. -/
def ContainsRune (s : String) (r : Char) : Bool := s.toList.contains r

/-- The two maps that the loop at the start of `CreateEnvironment` fills. -/
structure UserVarSplit where
  envUserVars : GoMap String String
  workflowUserVars : GoMap String String
deriving DecidableEq

/-- The loop `for k, v := range userVars` of `CreateEnvironment`, over the entries of
`userVars` in the order the iteration visits them. -/
def CreateEnvironment_split (userVars : GoMap String String) : UserVarSplit :=
  userVars.foldl
    (fun acc kv =>
      if ContainsRune kv.1 TARGET_SEPARATOR_RUNE then
        { acc with workflowUserVars := acc.workflowUserVars.set kv.1 kv.2 }
      else
        { acc with envUserVars := acc.envUserVars.set kv.1 kv.2 })
    { envUserVars := [], workflowUserVars := [] }

/-- The loop `for k, v := range userVars` of `CreateAutoEnvironment`. -/
def CreateAutoEnvironment_split (userVars : GoMap String String) : UserVarSplit :=
  userVars.foldl
    (fun acc kv =>
      if ContainsRune kv.1 TARGET_SEPARATOR_RUNE then
        { acc with workflowUserVars := acc.workflowUserVars.set kv.1 kv.2 }
      else
        { acc with envUserVars := acc.envUserVars.set kv.1 kv.2 })
    { envUserVars := [], workflowUserVars := [] }

/-- The type `uid.ID`, a string. -/
abbrev ID := String

/-- A channel, by its identity. -/
abbrev Chan := Nat

/-- A `*task.Task`, by its address. -/
abbrev TaskRef := Nat

/-- A call hook, by its address. -/
abbrev CallRef := Nat

/-- A hook of the workflow: a task or an in-process call. -/
inductive Hook where
  | task (t : TaskRef)
  | call (c : CallRef)
deriving DecidableEq

/-- Modelled from the spec: `FilterCalls` is not in the sources; it filters a hook set
into its call-kind subset. -/
def FilterCalls (hooks : List Hook) : List CallRef :=
  hooks.filterMap fun h => match h with
    | Hook.call c => some c
    | Hook.task _ => none

/-- Modelled from the spec: `FilterTasks` is not in the sources; it filters a hook set
into its task-kind subset. -/
def FilterTasks (hooks : List Hook) : List TaskRef :=
  hooks.filterMap fun h => match h with
    | Hook.task t => some t
    | Hook.call _ => none

/-- What the workflow of an environment answers: `GetTasks()`, `GetHooksForTrigger(t)`,
and whether the parent role of a call hook is a `workflow.PublicUpdatable`. -/
structure Workflow where
  GetTasks : List TaskRef
  GetHooksForTrigger : String → List Hook
  parentIsPublicUpdatable : CallRef → Bool

/-- The fields of `Environment` that the manager reads. -/
structure Environment where
  id : ID
  currentState : String
  workflow : Workflow
  stateChangedCh : Chan
  UserVars : GoMap String String

/-- The package `controlmode`: only `HOOK` is told apart. -/
inductive ControlMode where
  | HOOK
  | other
deriving DecidableEq

/-- The fields of `task.Task` that `handleDeviceEvent` reads and writes; `parentIsRole`
is the outcome of `t.GetParentRole().(workflow.Role)`. -/
structure Task where
  environmentId : ID
  controlMode : ControlMode
  parentIsRole : Bool
  safeToStop : Bool
deriving DecidableEq

/-- The struct `Manager` of `manager.go`; `taskman` holds the tasks that `taskman.GetTask` finds
by id, and `nextChan` is the identity of the next channel that `make` returns. -/
structure Manager where
  m : GoMap ID Environment
  taskman : GoMap String Task
  pendingTeardownsCh : GoMap ID Chan
  pendingStateChangeCh : GoMap ID Chan
  nextChan : Chan

/-- The type `event.TasksReleasedEvent`: the environment id and the map of task release errors. -/
structure TasksReleasedEvent where
  envId : ID
  taskReleaseErrors : GoMap String String
deriving DecidableEq

/-- The type `event.TasksStateChangedEvent`: only its environment id matters for routing. -/
structure TasksStateChangedEvent where
  envId : ID
deriving DecidableEq

/-- The enumeration `pb.DeviceEventType`. -/
inductive DeviceEventType where
  | NULL_DEVICE_EVENT
  | END_OF_STREAM
  | BASIC_TASK_TERMINATED
deriving DecidableEq

/-- A non-nil `event.DeviceEvent`: its type, whether it is a `*event.BasicTaskTerminated`,
and the id of the task it comes from. -/
structure DeviceEvent where
  type : DeviceEventType
  isBasicTaskTerminated : Bool
  taskId : String
deriving DecidableEq

/-- An event of the incoming stream. -/
inductive Event where
  | device (evt : Option DeviceEvent)
  | tasksReleased (ev : TasksReleasedEvent)
  | tasksStateChanged (ev : TasksStateChangedEvent)
  | other
deriving DecidableEq

/-- The package `taskop`: only the release of tasks is dispatched by the code embedded here. -/
inductive MessageType where
  | ReleaseTasks
deriving DecidableEq

/-- The message that `task.NewEnvironmentMessage` builds. -/
structure EnvironmentMessage where
  op : MessageType
  envId : ID
  tasks : List TaskRef
deriving DecidableEq

/-- Modelled from the spec: `task.NewEnvironmentMessage` is not in the sources; the
message to the task manager is made of the operation, the environment id and the
affected task set. -/
def NewEnvironmentMessage (op : MessageType) (envId : ID) (tasks : List TaskRef) :
    EnvironmentMessage :=
  { op := op, envId := envId, tasks := tasks }

/-- The errors that the manager builds, by their format, and the error that
`taskman.TriggerHooks` may return. -/
inductive Error where
  | invalidId (id : ID)
  | noEnvironment (id : ID)
  | cannotTeardown (state : String)
  | tasksFailedToRelease (n : Nat) (id : ID)
  | triggerHooks (msg : String)
deriving DecidableEq

/-- What the manager does to the outside, in order. A channel send is recorded when it
completes, that is when its value is received. -/
inductive Effect where
  | close (ch : Chan)
  | make (ch : Chan)
  | goUpdateStatusInactive (c : CallRef)
  | sendTaskman (msg : EnvironmentMessage)
  | deliverTasksReleased (ch : Chan) (ev : TasksReleasedEvent)
  | deliverTasksStateChanged (ch : Chan) (ev : TasksStateChangedEvent)
  | log (msg : String)
  | CallAll (calls : List CallRef)
  | TriggerHooks (tasks : List TaskRef)
  | sendEnvironmentEvent (id : ID) (state : String)
  | unsubscribeFromWfState (id : ID)
  | taskSendEvent (taskId : String)
  | SetRuntimeVars (taskId : String)
  | NotifyEvent (id : ID) (evt : DeviceEvent)
  | goStopIfSafeToStop (id : ID)
  | TryTransition (id : ID) (transition : String)
  | subscribeToWfState (id : ID)
  | KillTasks (tasks : List TaskRef)
  | addSubscription (id : ID)
  | closeStream (id : ID)
  | sendEnvironmentError (id : ID)
deriving DecidableEq

/-- How a call ends: it returns, it panics, or it waits for ever. -/
inductive Ret (α : Type) where
  | returned (a : α)
  | panicked
  | blocked
deriving DecidableEq

/-- A run of an operation of the manager: the manager afterwards, the effects in order,
and how the call ended. -/
structure Run (α : Type) where
  envs : Manager
  trace : List Effect
  ret : Ret α

/-- Method `Manager.environment`: the pair `(env, err)`. -/
def Manager.environment (envs : Manager) (environmentId : ID) :
    Option Environment × Option Error :=
  if environmentId.length = 0 then (none, some (Error.invalidId environmentId))
  else
    match envs.m.get environmentId with
    | some env => (some env, none)
    | none => (none, some (Error.noEnvironment environmentId))

/-- The inner loop of the hook subtraction, entered with `n = i + 1`:
`for ; i >= 0; i-- { if hook == tasks[i] { tasks = append(tasks[:i], tasks[i+1:]...) } }`;
`none` is an index out of range. -/
def removeHookFrom (hook : Hook) (n : Nat) (tasks : List TaskRef) : Option (List TaskRef) :=
  match n with
  | 0 => some tasks
  | i + 1 =>
    match tasks[i]? with
    | none => none
    | some t =>
      if hook = Hook.task t then removeHookFrom hook i (tasks.eraseIdx i)
      else removeHookFrom hook i tasks

/-- The outer loop `for _, hook := range destroyHooks`. -/
def removeHooks (destroyHooks : List Hook) (tasks : List TaskRef) : Option (List TaskRef) :=
  match destroyHooks with
  | [] => some tasks
  | hook :: rest =>
    match removeHookFrom hook tasks.length tasks with
    | none => none
    | some tasks' => removeHooks rest tasks'

/-- The `*event.TasksReleasedEvent` case of the demultiplexer. -/
def Manager.routeTasksReleased (envs : Manager) (typedEvent : TasksReleasedEvent) :
    Manager × List Effect :=
  match envs.pendingTeardownsCh.get typedEvent.envId with
  | some thisEnvCh =>
    ({ envs with pendingTeardownsCh := envs.pendingTeardownsCh.delete typedEvent.envId },
      [Effect.deliverTasksReleased thisEnvCh typedEvent, Effect.close thisEnvCh])
  | none => (envs, [])

/-- The `*event.TasksStateChangedEvent` case of the demultiplexer. -/
def Manager.routeTasksStateChanged (envs : Manager) (typedEvent : TasksStateChangedEvent) :
    Manager × List Effect :=
  match envs.pendingStateChangeCh.get typedEvent.envId with
  | some thisEnvCh => (envs, [Effect.deliverTasksStateChanged thisEnvCh typedEvent])
  | none => (envs, [])

/-- The receive `incomingEv := <- pendingCh`: the event is the one that the
demultiplexer delivers on `pendingCh`, if any; the demultiplexer then closes the channel
and removes it from the map. `none` when nothing is ever delivered. -/
def Manager.awaitTasksReleased (envs : Manager) (pendingCh : Chan)
    (delivered : Option TasksReleasedEvent) :
    Option (Manager × List Effect × TasksReleasedEvent) :=
  match delivered with
  | none => none
  | some ev =>
    if envs.pendingTeardownsCh.get ev.envId = some pendingCh then
      some ((envs.routeTasksReleased ev).1, (envs.routeTasksReleased ev).2, ev)
    else none

/-- What a teardown receives from outside: the events delivered for the two releases,
and the result of `taskman.TriggerHooks`. -/
structure TeardownInputs where
  firstReleased : Option TasksReleasedEvent
  hooksError : Option Error
  secondReleased : Option TasksReleasedEvent
deriving DecidableEq

/-- The log lines of the loop over `taskReleaseErrors`. -/
def logReleaseErrors (taskReleaseErrors : GoMap String String) : List Effect :=
  taskReleaseErrors.map fun _ => Effect.log "task failed to release"

/-- The second half of `TeardownEnvironment`, after the first release went without
error: the cleanup hooks, their release, and the removal from the registry. -/
def Manager.teardownHooks (envs : Manager) (env : Environment) (environmentId : ID)
    (destroyHooks : List Hook) (inp : TeardownInputs) (trace : List Effect) :
    Run (Option Error) :=
  let cleanupTaskHooks := FilterTasks destroyHooks
  let err := inp.hooksError
  let trace := trace ++ [Effect.CallAll (FilterCalls destroyHooks),
    Effect.TriggerHooks cleanupTaskHooks]
    ++ (if err ≠ none then [Effect.log "environment post-destroy hooks failed"] else [])
  let taskmanMessage :=
    NewEnvironmentMessage MessageType.ReleaseTasks environmentId cleanupTaskHooks
  let pendingCh := envs.nextChan
  let envs := { envs with
    nextChan := envs.nextChan + 1
    pendingTeardownsCh := envs.pendingTeardownsCh.set environmentId pendingCh }
  let trace := trace ++ [Effect.make pendingCh, Effect.sendTaskman taskmanMessage]
  match envs.awaitTasksReleased pendingCh inp.secondReleased with
  | none => { envs := envs, trace := trace, ret := Ret.blocked }
  | some (envs, delivery, incomingEv) =>
    let trace := trace ++ delivery
    let taskReleaseErrors := incomingEv.taskReleaseErrors
    if taskReleaseErrors.length > 0 then
      { envs := envs, trace := trace ++ logReleaseErrors taskReleaseErrors,
        ret := Ret.returned
          (some (Error.tasksFailedToRelease taskReleaseErrors.length environmentId)) }
    else
      { envs := { envs with m := envs.m.delete environmentId },
        trace := trace ++ [Effect.sendEnvironmentEvent env.id "DONE",
          Effect.unsubscribeFromWfState env.id],
        ret := Ret.returned err }

/-- Method `Manager.TeardownEnvironment`, on a manager, an id, the force flag, and what
the call receives from outside. -/
def Manager.TeardownEnvironment (envs : Manager) (environmentId : ID) (force : Bool)
    (inp : TeardownInputs) : Run (Option Error) :=
  match envs.environment environmentId with
  | (_, some err) => { envs := envs, trace := [], ret := Ret.returned (some err) }
  | (none, none) => { envs := envs, trace := [], ret := Ret.panicked }
  | (some env, none) =>
    if env.currentState ≠ "STANDBY" ∧ ¬ force then
      { envs := envs, trace := [],
        ret := Ret.returned (some (Error.cannotTeardown env.currentState)) }
    else
      let tasksToRelease := env.workflow.GetTasks
      let destroyHooks := env.workflow.GetHooksForTrigger "DESTROY"
        ++ env.workflow.GetHooksForTrigger "after_DESTROY"
      match removeHooks destroyHooks tasksToRelease with
      | none => { envs := envs, trace := [], ret := Ret.panicked }
      | some tasksToRelease =>
        let taskmanMessage :=
          NewEnvironmentMessage MessageType.ReleaseTasks environmentId tasksToRelease
        let trace : List Effect :=
          match envs.pendingStateChangeCh.get environmentId with
          | some ch => [Effect.close ch]
          | none => []
        let envs := { envs with
          pendingStateChangeCh := envs.pendingStateChangeCh.delete environmentId }
        let allHooks := env.workflow.GetHooksForTrigger ""
        let callHooks := FilterCalls allHooks
        let trace := trace ++
          (callHooks.filter env.workflow.parentIsPublicUpdatable).map
            Effect.goUpdateStatusInactive
        let pendingCh := envs.nextChan
        let envs := { envs with
          nextChan := envs.nextChan + 1
          pendingTeardownsCh := envs.pendingTeardownsCh.set environmentId pendingCh }
        let trace := trace ++ [Effect.make pendingCh, Effect.sendTaskman taskmanMessage]
        match envs.awaitTasksReleased pendingCh inp.firstReleased with
        | none => { envs := envs, trace := trace, ret := Ret.blocked }
        | some (envs, delivery, incomingEv) =>
          let trace := trace ++ delivery
          let taskReleaseErrors := incomingEv.taskReleaseErrors
          if taskReleaseErrors.length > 0 then
            { envs := envs, trace := trace ++ logReleaseErrors taskReleaseErrors,
              ret := Ret.returned
                (some (Error.tasksFailedToRelease taskReleaseErrors.length environmentId)) }
          else
            envs.teardownHooks env environmentId destroyHooks inp trace

/-- Modelled from the spec: `Environment.NotifyEvent` is not in the sources; it forwards
the event to the per-environment notify channel of its receiver. With a nil receiver
there is no channel to read: `none`, a nil dereference. -/
def NotifyEvent (env : Option Environment) (evt : DeviceEvent) : Option (List Effect) :=
  match env with
  | none => none
  | some env => some [Effect.NotifyEvent env.id evt]

/-- Modelled from the spec: `Environment.CurrentState` is not in the sources; the
current state is an attribute of the environment. With a nil receiver there is no
attribute to read: `none`, a nil dereference. -/
def CurrentState (env : Option Environment) : Option String :=
  match env with
  | none => none
  | some env => some env.currentState

/-- The log line after a failed lookup of the environment of a task. -/
def logCannotFind (err : Option Error) : List Effect :=
  if err ≠ none then [Effect.log "cannot find environment for DeviceEvent"] else []

/-- The `END_OF_STREAM` case of `handleDeviceEvent`, which the `BASIC_TASK_TERMINATED`
case of a task that is not a hook falls through to. -/
def Manager.handleEndOfStream (envs : Manager) (evt : DeviceEvent) (trace : List Effect) :
    Run Unit :=
  match envs.taskman.get evt.taskId with
  | none =>
    { envs := envs,
      trace := trace ++ [Effect.log "cannot find task for DeviceEvent BASIC_TASK_TERMINATED"],
      ret := Ret.returned () }
  | some t =>
    let found := envs.environment t.environmentId
    let trace := trace ++ logCannotFind found.2
    match CurrentState found.1, found.1 with
    | some state, some env =>
      if state = "RUNNING" then
        { envs := { envs with
            taskman := envs.taskman.set evt.taskId { t with safeToStop := true } },
          trace := trace ++ [Effect.goStopIfSafeToStop env.id],
          ret := Ret.returned () }
      else { envs := envs, trace := trace, ret := Ret.returned () }
    | _, _ => { envs := envs, trace := trace, ret := Ret.panicked }

/-- Method `Manager.handleDeviceEvent`; a nil event is `none`. -/
def Manager.handleDeviceEvent (envs : Manager) (evt : Option DeviceEvent) : Run Unit :=
  match evt with
  | none =>
    { envs := envs, trace := [Effect.log "cannot handle null DeviceEvent"],
      ret := Ret.returned () }
  | some evt =>
    match evt.type with
    | DeviceEventType.BASIC_TASK_TERMINATED =>
      if evt.isBasicTaskTerminated then
        let trace := [Effect.log "basic task terminated"]
        match envs.taskman.get evt.taskId with
        | some t =>
          let trace := trace ++ [Effect.taskSendEvent evt.taskId]
          if t.parentIsRole then
            let trace := trace ++ [Effect.SetRuntimeVars evt.taskId]
            if t.controlMode = ControlMode.HOOK then
              let found := envs.environment t.environmentId
              let trace := trace ++ logCannotFind found.2
              match NotifyEvent found.1 evt with
              | none => { envs := envs, trace := trace, ret := Ret.panicked }
              | some notified =>
                { envs := envs, trace := trace ++ notified, ret := Ret.returned () }
            else envs.handleEndOfStream evt trace
          else
            envs.handleEndOfStream evt (trace ++ [Effect.log
              "DeviceEvent BASIC_TASK_TERMINATED received for task with no parent role"])
        | none =>
          envs.handleEndOfStream evt (trace ++ [Effect.log
            "cannot find task for DeviceEvent BASIC_TASK_TERMINATED"])
      else { envs := envs, trace := [], ret := Ret.returned () }
    | DeviceEventType.END_OF_STREAM => envs.handleEndOfStream evt []
    | DeviceEventType.NULL_DEVICE_EVENT => { envs := envs, trace := [], ret := Ret.returned () }

/-- One turn of the loop of the demultiplexer of `NewEnvManager`, on one incoming
event. -/
def Manager.demuxStep (envs : Manager) (incomingEvent : Event) : Run Unit :=
  match incomingEvent with
  | Event.device typedEvent => envs.handleDeviceEvent typedEvent
  | Event.tasksReleased typedEvent =>
    { envs := (envs.routeTasksReleased typedEvent).1,
      trace := (envs.routeTasksReleased typedEvent).2, ret := Ret.returned () }
  | Event.tasksStateChanged typedEvent =>
    { envs := (envs.routeTasksStateChanged typedEvent).1,
      trace := (envs.routeTasksStateChanged typedEvent).2, ret := Ret.returned () }
  | Event.other => { envs := envs, trace := [], ret := Ret.returned () }

/-- The loop of the demultiplexer over the events that arrive, one after the other; a
panic ends the loop. -/
def Manager.demux (envs : Manager) (events : List Event) : Run Unit :=
  match events with
  | [] => { envs := envs, trace := [], ret := Ret.returned () }
  | ev :: rest =>
    match (envs.demuxStep ev).ret with
    | Ret.returned _ =>
      { envs := ((envs.demuxStep ev).envs.demux rest).envs,
        trace := (envs.demuxStep ev).trace ++ ((envs.demuxStep ev).envs.demux rest).trace,
        ret := ((envs.demuxStep ev).envs.demux rest).ret }
    | Ret.panicked => envs.demuxStep ev
    | Ret.blocked => envs.demuxStep ev

/-- The cleanup hooks of a teardown: the `DESTROY` hooks followed by the `after_DESTROY`
hooks. -/
def destroyHooksOf (env : Environment) : List Hook :=
  env.workflow.GetHooksForTrigger "DESTROY" ++ env.workflow.GetHooksForTrigger "after_DESTROY"

/-- The tasks of the workflow without those that occur among the cleanup hooks, in
their original order. -/
def releaseSet (env : Environment) : List TaskRef :=
  env.workflow.GetTasks.filter fun t => decide (Hook.task t ∉ destroyHooksOf env)

/-- The release messages of a trace, in order. -/
def releases (trace : List Effect) : List EnvironmentMessage :=
  trace.filterMap fun e => match e with
    | Effect.sendTaskman msg => some msg
    | _ => none

/-- Whether an effect invokes cleanup hooks: `CallAll` on the call hooks or
`TriggerHooks` on the task hooks. -/
def isHookInvocation (e : Effect) : Bool :=
  match e with
  | Effect.CallAll _ => true
  | Effect.TriggerHooks _ => true
  | _ => false

/-- The effects of `TeardownEnvironment` before it makes the first pending channel: the
state channel is closed and the call hooks are set inactive. -/
def teardownPrelude (envs : Manager) (env : Environment) (environmentId : ID) : List Effect :=
  (match envs.pendingStateChangeCh.get environmentId with
    | some ch => [Effect.close ch]
    | none => [])
  ++ ((FilterCalls (env.workflow.GetHooksForTrigger "")).filter
        env.workflow.parentIsPublicUpdatable).map Effect.goUpdateStatusInactive

/-- The manager when `TeardownEnvironment` waits for the first release. -/
def awaitingFirst (envs : Manager) (environmentId : ID) : Manager :=
  { envs with
    pendingStateChangeCh := envs.pendingStateChangeCh.delete environmentId
    nextChan := envs.nextChan + 1
    pendingTeardownsCh := envs.pendingTeardownsCh.set environmentId envs.nextChan }

/-- The trace when `TeardownEnvironment` waits for the first release. -/
def traceToFirst (envs : Manager) (env : Environment) (environmentId : ID) : List Effect :=
  teardownPrelude envs env environmentId ++
    [Effect.make envs.nextChan,
      Effect.sendTaskman
        (NewEnvironmentMessage MessageType.ReleaseTasks environmentId (releaseSet env))]

/-- The hook part of the trace of `teardownHooks`, up to the wait for the second
release. -/
def traceToSecond (envs : Manager) (environmentId : ID) (destroyHooks : List Hook)
    (inp : TeardownInputs) : List Effect :=
  [Effect.CallAll (FilterCalls destroyHooks), Effect.TriggerHooks (FilterTasks destroyHooks)]
    ++ (if inp.hooksError ≠ none then [Effect.log "environment post-destroy hooks failed"]
        else [])
    ++ [Effect.make envs.nextChan,
      Effect.sendTaskman
        (NewEnvironmentMessage MessageType.ReleaseTasks environmentId
          (FilterTasks destroyHooks))]

/-- A workflow of four tasks, two of them cleanup hooks, and two call hooks. -/
def sampleWorkflow : Workflow where
  GetTasks := [1, 2, 3, 4]
  GetHooksForTrigger := fun trigger =>
    if trigger = "DESTROY" then [Hook.call 10, Hook.task 3]
    else if trigger = "after_DESTROY" then [Hook.task 4]
    else if trigger = "" then [Hook.call 10, Hook.task 3, Hook.task 4, Hook.call 11]
    else []
  parentIsPublicUpdatable := fun _ => true

/-- A running environment. -/
def sampleEnvironment : Environment where
  id := "env1"
  currentState := "RUNNING"
  workflow := sampleWorkflow
  stateChangedCh := 0
  UserVars := [("environment_id", "env1")]

/-- A hook task of the registered environment. -/
def sampleHookTask : Task where
  environmentId := "env1"
  controlMode := ControlMode.HOOK
  parentIsRole := true
  safeToStop := false

/-- A hook task whose environment `env0` is not registered. -/
def sampleOrphanTask : Task where
  environmentId := "env0"
  controlMode := ControlMode.HOOK
  parentIsRole := true
  safeToStop := false

/-- A manager with the running environment registered, and a task manager that also
knows a hook task of an environment that is not registered. -/
def sampleManager : Manager where
  m := [("env1", sampleEnvironment)]
  taskman := [("task3", sampleHookTask), ("task9", sampleOrphanTask)]
  pendingTeardownsCh := []
  pendingStateChangeCh := [("env1", 0)]
  nextChan := 1

/-- A teardown whose first release reports one task release error. -/
def sampleFailedRelease : TeardownInputs where
  firstReleased := some { envId := "env1", taskReleaseErrors := [("task1", "not released")] }
  hooksError := none
  secondReleased := some { envId := "env1", taskReleaseErrors := [] }

/-- A teardown whose two releases report no error. -/
def sampleCleanRelease : TeardownInputs where
  firstReleased := some { envId := "env1", taskReleaseErrors := [] }
  hooksError := none
  secondReleased := some { envId := "env1", taskReleaseErrors := [] }

/-- The `BASIC_TASK_TERMINATED` event of the hook task `task9`, whose environment is not
registered. -/
def sampleOrphanEvent : Event :=
  Event.device (some { type := DeviceEventType.BASIC_TASK_TERMINATED,
                       isBasicTaskTerminated := true, taskId := "task9" })

/-- The errors that `CreateEnvironment` returns: the error of `newEnvironment`, the
wrapped error of the workflow loader ("cannot load workflow template: ..."), and the
error of a transition. -/
inductive CreateError where
  | newEnvironment (msg : String)
  | cannotLoadWorkflow (cause : String)
  | transition (msg : String)
deriving DecidableEq

/-- What `env.TryTransition` answers: the error, if any, and the state of the
environment afterwards. -/
structure TransitionResult where
  err : Option String
  state : String
deriving DecidableEq

/-- What a creation receives from outside: the id that `newEnvironment` mints and its
error, what `workflow.Load` answers, the outcome of the `CONFIGURE` transition, and, for
the cleanup after a failed configuration, the inputs of the teardown and the error of
`taskman.KillTasks`. -/
structure CreateInputs where
  newId : ID
  newEnvironmentError : Option String
  loaded : Except String Workflow
  configure : TransitionResult
  teardown : TeardownInputs
  killError : Option String

/-- What `CreateAutoEnvironment` receives besides: whether the start transition is nil,
the outcome of the start transition, the states that the successive calls of
`CurrentState` in the loop see, the outcome of the reset transition, and the inputs of
the final teardown and kill. -/
structure CreateAutoInputs where
  create : CreateInputs
  startIsNil : Bool
  start : TransitionResult
  polled : List String
  reset : TransitionResult
  finalTeardown : TeardownInputs
  finalKillError : Option String

/-- The workflow of an environment before one is loaded. -/
def noWorkflow : Workflow where
  GetTasks := []
  GetHooksForTrigger := fun _ => []
  parentIsPublicUpdatable := fun _ => false

/-- Modelled from the spec: `newEnvironment` is not in the sources; it builds an
environment in the initial state `STANDBY`, with the id it mints, its own inbound
channel, and the environment-global variables injected into its user-variable map. -/
def newEnvironment (userVars : GoMap String String) (id : ID) (stateChangedCh : Chan) :
    Environment where
  id := id
  currentState := "STANDBY"
  workflow := noWorkflow
  stateChangedCh := stateChangedCh
  UserVars := userVars

/-- Whether `s` starts with `sub`. -/
def startsWith (s sub : List Char) : Bool :=
  match sub, s with
  | [], _ => true
  | _ :: _, [] => false
  | a :: as, b :: bs => decide (a = b) && startsWith bs as

/-- Go `strings.Contains(s, substr)`. -/
def containsString (s substr : List Char) : Bool :=
  match s with
  | [] => startsWith [] substr
  | c :: cs => startsWith (c :: cs) substr || containsString cs substr

/-- Method `Manager.loadWorkflow`; `loaded` is what `workflow.Load` answers. -/
def loadWorkflow (workflowPath : String) (loaded : Except String Workflow) :
    Except String Workflow :=
  if containsString workflowPath.toList "://".toList then
    Except.error "workflow loading from file not implemented yet"
  else loaded

/-- The two assignments `envs.m[env.id] = env` and
`envs.pendingStateChangeCh[env.id] = env.stateChangedCh`, which `CreateEnvironment` and
`CreateAutoEnvironment` make under the lock. -/
def Manager.register (envs : Manager) (env : Environment) : Manager :=
  { envs with
    m := envs.m.set env.id env
    pendingStateChangeCh := envs.pendingStateChangeCh.set env.id env.stateChangedCh }

/-- A change of state of the environment object `id`: the registry holds a pointer to
the object, so it shows the new state as long as it holds the object. -/
def Manager.setState (envs : Manager) (id : ID) (state : String) : Manager :=
  match envs.m.get id with
  | some env => { envs with m := envs.m.set id { env with currentState := state } }
  | none => envs

/-- The log line of `KillTasks` when it returns an error. -/
def logKillError (err : Option String) : List Effect :=
  if err ≠ none then [Effect.log "task teardown error"] else []

/-- Method `Manager.CreateEnvironment`: the returned pair `(id, err)`. -/
def Manager.CreateEnvironment (envs : Manager) (workflowPath : String)
    (userVars : GoMap String String) (inp : CreateInputs) : Run (ID × Option CreateError) :=
  let envUserVars := (CreateEnvironment_split userVars).envUserVars
  match inp.newEnvironmentError with
  | some err =>
    { envs := envs, trace := [], ret := Ret.returned ("", some (CreateError.newEnvironment err)) }
  | none =>
    let env := newEnvironment envUserVars inp.newId envs.nextChan
    let envs := { envs with nextChan := envs.nextChan + 1 }
    let trace := [Effect.make env.stateChangedCh]
    let env := { env with UserVars := env.UserVars.set "environment_id" env.id }
    match loadWorkflow workflowPath inp.loaded with
    | Except.error cause =>
      { envs := envs, trace := trace,
        ret := Ret.returned (env.id, some (CreateError.cannotLoadWorkflow cause)) }
    | Except.ok workflow =>
      let env := { env with workflow := workflow }
      let envs := envs.register env
      let trace := trace ++ [Effect.TryTransition env.id "CONFIGURE"]
      let envs := envs.setState env.id inp.configure.state
      match inp.configure.err with
      | none =>
        { envs := envs, trace := trace ++ [Effect.subscribeToWfState env.id],
          ret := Ret.returned (env.id, none) }
      | some err =>
        let trace := trace ++ [Effect.log
          "environment deployment and configuration failed, cleanup in progress"]
        let envTasks := env.workflow.GetTasks
        let torn := envs.TeardownEnvironment env.id true inp.teardown
        match torn.ret with
        | Ret.returned _ =>
          { envs := torn.envs,
            trace := trace ++ torn.trace ++ [Effect.KillTasks envTasks]
              ++ logKillError inp.killError
              ++ [Effect.log "environment deployment failed, tasks were cleaned up"],
            ret := Ret.returned (env.id, some (CreateError.transition err)) }
        | Ret.panicked =>
          { envs := torn.envs, trace := trace ++ torn.trace, ret := Ret.panicked }
        | Ret.blocked =>
          { envs := torn.envs, trace := trace ++ torn.trace, ret := Ret.blocked }

/-- The deferred calls of `CreateAutoEnvironment` once it has subscribed to the state of
the workflow: `unsubscribeFromWfState`, then `closeStream`. -/
def autoDeferred (id : ID) : List Effect :=
  [Effect.unsubscribeFromWfState id, Effect.closeStream id]

/-- The loop `for { envState := env.CurrentState(); switch envState ... }` of
`CreateAutoEnvironment`, over the states that the successive turns see; the loop never
ends when none of them is one of its cases. -/
def Manager.autoLoop (envs : Manager) (env : Environment) (inp : CreateAutoInputs)
    (polled : List String) (trace : List Effect) : Run Unit :=
  match polled with
  | [] => { envs := envs, trace := trace, ret := Ret.blocked }
  | envState :: rest =>
    let envs := envs.setState env.id envState
    if envState = "CONFIGURED" then
      let trace := trace ++ [Effect.TryTransition env.id "RESET"]
      let envs := envs.setState env.id inp.reset.state
      match inp.reset.err with
      | some _ =>
        { envs := envs,
          trace := trace ++ [Effect.sendEnvironmentError env.id] ++ autoDeferred env.id,
          ret := Ret.returned () }
      | none =>
        let torn := envs.TeardownEnvironment env.id false inp.finalTeardown
        match torn.ret with
        | Ret.returned (some _) =>
          { envs := torn.envs,
            trace := trace ++ torn.trace ++ [Effect.sendEnvironmentError env.id]
              ++ autoDeferred env.id,
            ret := Ret.returned () }
        | Ret.returned none =>
          { envs := torn.envs,
            trace := trace ++ torn.trace ++ [Effect.KillTasks env.workflow.GetTasks]
              ++ (if inp.finalKillError ≠ none then [Effect.sendEnvironmentError env.id]
                  else [])
              ++ autoDeferred env.id,
            ret := Ret.returned () }
        | Ret.panicked =>
          { envs := torn.envs, trace := trace ++ torn.trace, ret := Ret.panicked }
        | Ret.blocked =>
          { envs := torn.envs, trace := trace ++ torn.trace, ret := Ret.blocked }
    else if envState = "ERROR" ∨ envState = "MIXED" ∨ envState = "" then
      { envs := envs, trace := trace ++ autoDeferred env.id, ret := Ret.returned () }
    else Manager.autoLoop envs env inp rest trace

/-- Method `Manager.CreateAutoEnvironment`. -/
def Manager.CreateAutoEnvironment (envs : Manager) (workflowPath : String)
    (userVars : GoMap String String) (inp : CreateAutoInputs) : Run Unit :=
  let envUserVars := (CreateAutoEnvironment_split userVars).envUserVars
  match inp.create.newEnvironmentError with
  | some _ =>
    { envs := envs, trace := [Effect.sendEnvironmentError inp.create.newId],
      ret := Ret.returned () }
  | none =>
    let env := newEnvironment envUserVars inp.create.newId envs.nextChan
    let envs := { envs with nextChan := envs.nextChan + 1 }
    let trace := [Effect.make env.stateChangedCh, Effect.addSubscription env.id]
    match loadWorkflow workflowPath inp.create.loaded with
    | Except.error _ =>
      { envs := envs,
        trace := trace ++ [Effect.sendEnvironmentError env.id, Effect.closeStream env.id],
        ret := Ret.returned () }
    | Except.ok workflow =>
      let env := { env with workflow := workflow }
      let envs := envs.register env
      let trace := trace ++ [Effect.TryTransition env.id "CONFIGURE"]
      let envs := envs.setState env.id inp.create.configure.state
      match inp.create.configure.err with
      | some _ =>
        let trace := trace ++ [Effect.sendEnvironmentError env.id, Effect.log
          "environment deployment and configuration failed, cleanup in progress"]
        let envTasks := env.workflow.GetTasks
        let torn := envs.TeardownEnvironment env.id true inp.create.teardown
        match torn.ret with
        | Ret.returned err =>
          { envs := torn.envs,
            trace := trace ++ torn.trace
              ++ (if err ≠ none then [Effect.sendEnvironmentError env.id] else [])
              ++ [Effect.KillTasks envTasks] ++ logKillError inp.create.killError
              ++ [Effect.log "environment deployment failed, tasks were cleaned up",
                  Effect.closeStream env.id],
            ret := Ret.returned () }
        | Ret.panicked =>
          { envs := torn.envs, trace := trace ++ torn.trace, ret := Ret.panicked }
        | Ret.blocked =>
          { envs := torn.envs, trace := trace ++ torn.trace, ret := Ret.blocked }
      | none =>
        let trace := trace ++ [Effect.subscribeToWfState env.id]
        if inp.startIsNil then
          { envs := envs,
            trace := trace ++ [Effect.sendEnvironmentError env.id] ++ autoDeferred env.id,
            ret := Ret.returned () }
        else
          let trace := trace ++ [Effect.TryTransition env.id "START_ACTIVITY"]
          let envs := envs.setState env.id inp.start.state
          match inp.start.err with
          | some _ =>
            { envs := envs,
              trace := trace ++ [Effect.sendEnvironmentError env.id] ++ autoDeferred env.id,
              ret := Ret.returned () }
          | none => envs.autoLoop env inp inp.polled trace

/-- The `END_OF_STREAM` event of the hook task `task3` of the running environment. -/
def sampleHookEndOfStream : DeviceEvent where
  type := DeviceEventType.END_OF_STREAM
  isBasicTaskTerminated := false
  taskId := "task3"

/-- The `BASIC_TASK_TERMINATED` event of the hook task `task3` of the running
environment. -/
def sampleHookTerminated : DeviceEvent where
  type := DeviceEventType.BASIC_TASK_TERMINATED
  isBasicTaskTerminated := true
  taskId := "task3"

/-- A creation that goes well: the id `env2` is minted, the workflow loads, and the
configuration succeeds. -/
def sampleCreateInputs : CreateInputs where
  newId := "env2"
  newEnvironmentError := none
  loaded := Except.ok sampleWorkflow
  configure := { err := none, state := "CONFIGURED" }
  teardown := { firstReleased := none, hooksError := none, secondReleased := none }
  killError := none

/-- An automatic creation that goes well until the run ends in the state `ERROR`, so
that the environment stays in the registry. -/
def sampleAutoInputs : CreateAutoInputs where
  create := sampleCreateInputs
  startIsNil := false
  start := { err := none, state := "RUNNING" }
  polled := ["RUNNING", "RUNNING", "ERROR"]
  reset := { err := none, state := "STANDBY" }
  finalTeardown := { firstReleased := none, hooksError := none, secondReleased := none }
  finalKillError := none

/-- The entry `environment_id` of the user variables of the environment registered
under `id`: `none` when no environment is registered, `some none` when the entry is
missing. -/
def registeredEnvironmentId (envs : Manager) (id : ID) : Option (Option String) :=
  match envs.m.get id with
  | none => none
  | some env => some (env.UserVars.get "environment_id")

/-- The ids for which a trace dispatches a release, that is the environments on which a
teardown has started. -/
def tornDown (trace : List Effect) : List ID :=
  (releases trace).map fun msg => msg.envId

/-- The invariant of the state channels, with `started` the ids on which a teardown has
started: the map of state channels has one entry per key, and every environment of the
registry on which no teardown has started has its own `stateChangedCh` there. -/
def StateChInv (envs : Manager) (started : List ID) : Prop :=
  (GoMap.keys envs.pendingStateChangeCh).Nodup ∧
  ∀ id env, envs.m.get id = some env → id ∉ started →
    envs.pendingStateChangeCh.get id = some env.stateChangedCh

/-- What an operation that works on the environment `id` and starts the teardowns `torn`
does to the state channels: it keeps the invariant, and it leaves the entries of the
other environments as they were. -/
def Changes (envs envs2 : Manager) (id : ID) (torn : List ID) : Prop :=
  (∀ started, StateChInv envs started → StateChInv envs2 (started ++ torn)) ∧
  ∀ id2, id2 ≠ id → envs2.pendingStateChangeCh.get id2 = envs.pendingStateChangeCh.get id2

/-- Function `NewEnvManager`, as far as the struct goes: the manager it returns has empty
maps; its goroutine is the loop `Manager.demux`. No channel has been made yet. -/
def NewEnvManager (tm : GoMap String Task) : Manager where
  m := []
  taskman := tm
  pendingTeardownsCh := []
  pendingStateChangeCh := []
  nextChan := 0

/-- The channels of the routing maps as objects. In Go a channel is an object that
`make` gives, distinct from every other; in the model it is the number that `make` gave
it, and `nextChan` is the next number. This says that the channels of the two maps were
given by `make`, that no channel is in both maps, and that no two environments have the
same state channel. -/
def ChanInv (envs : Manager) : Prop :=
  (∀ id ch, envs.pendingStateChangeCh.get id = some ch → ch < envs.nextChan) ∧
  (∀ id ch, envs.pendingTeardownsCh.get id = some ch → ch < envs.nextChan) ∧
  (∀ id id2 ch, envs.pendingStateChangeCh.get id = some ch →
    envs.pendingTeardownsCh.get id2 ≠ some ch) ∧
  (∀ id id2 ch, envs.pendingStateChangeCh.get id = some ch →
    envs.pendingStateChangeCh.get id2 = some ch → id = id2)

/-- A later manager, as far as the channels go: no state channel was added, and the
teardown channels that were added were made in between. -/
def Later (envs envs2 : Manager) : Prop :=
  envs.nextChan ≤ envs2.nextChan ∧
  (∀ id ch, envs2.pendingStateChangeCh.get id = some ch →
    envs.pendingStateChangeCh.get id = some ch) ∧
  (∀ id ch, envs2.pendingTeardownsCh.get id = some ch →
    envs.pendingTeardownsCh.get id = some ch ∨ (envs.nextChan ≤ ch ∧ ch < envs2.nextChan))

/-- The environment `id` is in the registry with the state channel `ch`, and the map of
state channels has `ch` for `id`. -/
def Registered (envs : Manager) (id : ID) (ch : Chan) : Prop :=
  (∃ env, envs.m.get id = some env ∧ env.stateChangedCh = ch) ∧
  envs.pendingStateChangeCh.get id = some ch

/-- Whether an effect neither dispatches a release nor closes a channel. -/
def isQuiet (e : Effect) : Bool :=
  match e with
  | Effect.sendTaskman _ => false
  | Effect.close _ => false
  | _ => true

/-- A trace that starts no teardown and closes no channel. -/
def Quiet (trace : List Effect) : Prop :=
  trace.all isQuiet = true

/-- A manager that differs from another by the states of its environments only: the
channels are the same, and what was registered still is. -/
def SameChannels (envs envs2 : Manager) : Prop :=
  envs2.nextChan = envs.nextChan ∧
  envs2.pendingStateChangeCh = envs.pendingStateChangeCh ∧
  envs2.pendingTeardownsCh = envs.pendingTeardownsCh ∧
  ∀ id ch, Registered envs id ch → Registered envs2 id ch

/-- What a creation does from the manager `envs` in which it has registered the
environment `id`, with the manager `envs2` and the trace `trace2` for result: changes of
state and quiet effects, and then either nothing more, or one call of
`TeardownEnvironment` on `id` between quiet effects. -/
def Settles (envs : Manager) (id : ID) (envs2 : Manager) (trace2 : List Effect) : Prop :=
  ∃ mid before, SameChannels envs mid ∧ Quiet before ∧
    ((envs2 = mid ∧ trace2 = before) ∨
      ∃ force inp after, Quiet after ∧
        envs2 = (mid.TeardownEnvironment id force inp).envs ∧
        trace2 = before ++ (mid.TeardownEnvironment id force inp).trace ++ after)

/-- Method `Manager.Environment`, the public lookup: it takes the read lock and calls
`environment`. -/
def Manager.Environment (envs : Manager) (environmentId : ID) :
    Run (Option environment.Environment × Option Error) :=
  { envs := envs, trace := [], ret := Ret.returned (envs.environment environmentId) }

end environment

namespace ddsched

/-- The enumeration `ddpb.PartitionState`, of which the plugin tells two values apart. -/
inductive PartitionState where
  | PARTITION_CONFIGURING
  | PARTITION_TERMINATING
  | other (n : Nat)
deriving DecidableEq

/-- The response `*ddpb.PartitionResponse` of the scheduler. -/
structure PartitionResponse where
  PartitionState : PartitionState
deriving DecidableEq

/-- The state of the connection of the client: `connectivity.Ready` or another one. -/
inductive ConnState where
  | Ready
  | other
deriving DecidableEq

/-- The struct `Plugin`, with the field that the callables read: the client, nil or
with the state of its connection. -/
structure Plugin where
  ddSchedClient : Option ConnState
deriving DecidableEq

/-- What a remote call of the client returns: the pair `(response, err)`; the response
is `none` when it is nil. -/
structure RpcResult where
  response : Option PartitionResponse
  err : Option String
deriving DecidableEq

/-- What a callable does, in order: its log lines, the remote call, and the read of
`response.PartitionState`. -/
inductive Step where
  | debug (msg : String)
  | error (msg : String)
  | rpc (method : String) (envId : String)
  | readPartitionState
deriving DecidableEq

/-- How a callable ends: it returns its string, or it panics. -/
inductive Outcome where
  | returned (out : String)
  | panicked
deriving DecidableEq

/-- A call of a callable: its steps and how it ended. -/
structure Call where
  steps : List Step
  outcome : Outcome
deriving DecidableEq

/-- The callable `stack["PartitionInitialize"]` of `ObjectStack`, on the variable stack,
with `unmarshal` for `json.Unmarshal` into a string map and `rpc` for what
`ddSchedClient.PartitionInitialize` returns. -/
def PartitionInitialize (p : Plugin) (varStack : environment.GoMap String String)
    (unmarshal : String → Option (environment.GoMap String String)) (rpc : RpcResult) : Call :=
  let steps := [Step.debug "performing DD scheduler PartitionInitialize"]
  let steps := steps ++
    (if (varStack.get "stfb_host_id_map").isNone then [Step.debug "no DD stfb_host_id_map set"]
     else [])
  let stfbHostIdMapS := (varStack.get "stfb_host_id_map").getD "{}"
  match unmarshal stfbHostIdMapS with
  | none =>
    { steps := steps ++ [Step.error "error processing DD stfb_host_id_map"],
      outcome := Outcome.returned "" }
  | some _ =>
    let steps := steps ++
      (if (varStack.get "stfs_host_id_map").isNone then
        [Step.debug "no DD stfs_host_id_map set"]
       else [])
    let stfsHostIdMapS := (varStack.get "stfs_host_id_map").getD "{}"
    match unmarshal stfsHostIdMapS with
    | none =>
      { steps := steps ++ [Step.error "error processing DD stfs_host_id_map"],
        outcome := Outcome.returned "" }
    | some _ =>
      match varStack.get "environment_id" with
      | none =>
        { steps := steps ++ [Step.error
            "cannot acquire environment ID for DD scheduler PartitionInitialize"],
          outcome := Outcome.returned "" }
      | some envId =>
        match p.ddSchedClient with
        | none =>
          { steps := steps ++ [Step.error "failed to perform DD scheduler PartitionInitialize"],
            outcome := Outcome.returned "" }
        | some connState =>
          if connState ≠ ConnState.Ready then
            { steps := steps ++
                [Step.error "failed to perform DD scheduler PartitionInitialize"],
              outcome := Outcome.returned "" }
          else
            let steps := steps ++ [Step.rpc "PartitionInitialize" envId]
            if rpc.err ≠ none then
              { steps := steps ++
                  [Step.error "failed to perform DD scheduler PartitionInitialize"],
                outcome := Outcome.returned "" }
            else
              let steps := steps ++ [Step.readPartitionState]
              match rpc.response with
              | none => { steps := steps, outcome := Outcome.panicked }
              | some response =>
                if response.PartitionState ≠ PartitionState.PARTITION_CONFIGURING then
                  { steps := steps ++
                      [Step.error "failed to perform DD scheduler PartitionInitialize"],
                    outcome := Outcome.returned "" }
                else { steps := steps, outcome := Outcome.returned "" }

/-- The callable `stack["PartitionTerminate"]` of `ObjectStack`, with `rpc` for what
`ddSchedClient.PartitionTerminate` returns. -/
def PartitionTerminate (p : Plugin) (varStack : environment.GoMap String String)
    (rpc : RpcResult) : Call :=
  let steps := [Step.debug "performing DD scheduler PartitionTerminate"]
  match varStack.get "environment_id" with
  | none =>
    { steps := steps ++ [Step.error
        "cannot acquire environment ID for DD scheduler PartitionTerminate"],
      outcome := Outcome.returned "" }
  | some envId =>
    match p.ddSchedClient with
    | none =>
      { steps := steps ++ [Step.error "failed to perform DD scheduler PartitionTerminate"],
        outcome := Outcome.returned "" }
    | some connState =>
      if connState ≠ ConnState.Ready then
        { steps := steps ++ [Step.error "failed to perform DD scheduler PartitionTerminate"],
          outcome := Outcome.returned "" }
      else
        let steps := steps ++ [Step.rpc "PartitionTerminate" envId]
        let steps := steps ++
          (if rpc.err ≠ none then
            [Step.error "failed to perform DD scheduler PartitionTerminate"]
           else [])
        let steps := steps ++ [Step.readPartitionState]
        match rpc.response with
        | none => { steps := steps, outcome := Outcome.panicked }
        | some response =>
          if response.PartitionState ≠ PartitionState.PARTITION_TERMINATING then
            { steps := steps ++ [Step.error "failed to perform DD scheduler PartitionTerminate"],
              outcome := Outcome.returned "" }
          else { steps := steps, outcome := Outcome.returned "" }

/-- A plugin whose client is connected. -/
def samplePlugin : Plugin where
  ddSchedClient := some ConnState.Ready

/-- A variable stack with the id of the environment. -/
def sampleVarStack : environment.GoMap String String := [("environment_id", "env1")]

/-- A parser for `json.Unmarshal` that accepts the empty object only. -/
def sampleUnmarshal (s : String) : Option (environment.GoMap String String) :=
  if s = "{}" then some [] else none

/-- A remote call that fails: no response, and an error. -/
def sampleRpcFailure : RpcResult where
  response := none
  err := some "rpc error: code = Unavailable"

end ddsched

/-! # Part II: theorems -/

namespace componentcfg

theorem Contains_iff (s : Str) (sep : Char) : Contains s sep = true ↔ sep ∈ s := by
  induction s with
  | nil => simp [Contains]
  | cons c cs ih =>
    by_cases h : c = sep
    · simp [Contains, h]
    · have h2 : ¬ sep = c := fun e => h e.symm
      simp [Contains, h, h2, ih]

theorem Contains_eq_false (s : Str) (sep : Char) (h : sep ∉ s) : Contains s sep = false := by
  cases hc : Contains s sep with
  | false => rfl
  | true => exact absurd ((Contains_iff s sep).1 hc) h

theorem Split_ne_nil (s : Str) (sep : Char) : Split s sep ≠ [] := by
  cases s with
  | nil => simp [Split]
  | cons c cs =>
    unfold Split
    split
    · simp
    · split <;> simp

theorem Split_of_not_mem (s : Str) (sep : Char) (h : sep ∉ s) : Split s sep = [s] := by
  induction s with
  | nil => simp [Split]
  | cons c cs ih =>
    have hc : ¬ c = sep := fun e => h (by simp [e])
    have hcs : sep ∉ cs := fun e => h (by simp [e])
    simp [Split, hc, ih hcs]

theorem Split_append (a b : Str) (sep : Char) (h : sep ∉ a) :
    Split (a ++ sep :: b) sep = a :: Split b sep := by
  induction a with
  | nil => simp [Split]
  | cons c cs ih =>
    have hc : ¬ c = sep := fun e => h (by simp [e])
    have hcs : sep ∉ cs := fun e => h (by simp [e])
    simp [Split, hc, ih hcs]

theorem Replace1_append (a b : Str) (old new : Char) (h : old ∉ a) :
    Replace1 (a ++ old :: b) old new = a ++ new :: b := by
  induction a with
  | nil => simp [Replace1]
  | cons c cs ih =>
    have hc : ¬ c = old := fun e => h (by simp [e])
    have hcs : old ∉ cs := fun e => h (by simp [e])
    simp [Replace1, hc, ih hcs]

theorem mem_charClass (cs : List Char) (x : Str) :
    x ∈ (charClass cs).matches' ↔ ∃ c ∈ cs, x = [c] := by
  induction cs with
  | nil =>
    simp only [charClass, List.foldr_nil, List.not_mem_nil, false_and, exists_false, iff_false]
    intro h
    exact (Language.not_mem_zero x) (by simp at h)
  | cons c cs ih =>
    have e : charClass (c :: cs) = RegularExpression.char c + charClass cs := rfl
    rw [e, RegularExpression.matches'_add, Language.mem_add, ih, RegularExpression.matches'_char]
    constructor
    · rintro (h | ⟨d, hd, rfl⟩)
      · exact ⟨c, by simp, h⟩
      · exact ⟨d, by simp [hd], rfl⟩
    · rintro ⟨d, hd, rfl⟩
      rcases List.mem_cons.1 hd with rfl | hd
      · left; rfl
      · right; exact ⟨d, hd, rfl⟩

theorem mem_star_charClass (cs : List Char) (x : Str) :
    x ∈ (charClass cs).star.matches' ↔ ∀ c ∈ x, c ∈ cs := by
  rw [RegularExpression.matches'_star, Language.mem_kstar]
  constructor
  · rintro ⟨L, rfl, hL⟩
    induction L with
    | nil => simp
    | cons y L ih =>
      intro c hc
      rw [List.flatten_cons, List.mem_append] at hc
      rcases hc with hc | hc
      · obtain ⟨d, hd, rfl⟩ := (mem_charClass cs y).1 (hL y (by simp))
        simp at hc; subst hc; exact hd
      · exact ih (fun z hz => hL z (by simp [hz])) c hc
  · intro h
    refine ⟨x.map fun c => [c], ?_, ?_⟩
    · clear h
      induction x with
      | nil => rfl
      | cons c x ih => simp [← ih]
    · intro y hy
      obtain ⟨c, hc, rfl⟩ := List.mem_map.1 hy
      exact (mem_charClass cs [c]).2 ⟨c, h c hc, rfl⟩

theorem mem_oneOrMore (cs : List Char) (x : Str) :
    x ∈ (oneOrMore (charClass cs)).matches' ↔ Seg cs x := by
  unfold oneOrMore Seg
  rw [RegularExpression.matches'_mul, Language.mem_mul]
  constructor
  · rintro ⟨a, ha, b, hb, rfl⟩
    obtain ⟨c, hc, rfl⟩ := (mem_charClass cs a).1 ha
    refine ⟨by simp, ?_⟩
    intro d hd
    rcases List.mem_cons.1 hd with rfl | hd
    · exact hc
    · exact (mem_star_charClass cs b).1 hb d hd
  · rintro ⟨hne, h⟩
    cases x with
    | nil => exact absurd rfl hne
    | cons c x =>
      exact ⟨[c], (mem_charClass cs [c]).2 ⟨c, h c (by simp), rfl⟩, x,
        (mem_star_charClass cs x).2 (fun d hd => h d (by simp [hd])), rfl⟩

theorem mem_sepSeg (sep : Char) (cs : List Char) (x : Str) :
    x ∈ (RegularExpression.char sep * oneOrMore (charClass cs)).matches' ↔
      ∃ s, Seg cs s ∧ x = sep :: s := by
  rw [RegularExpression.matches'_mul, Language.mem_mul]
  constructor
  · rintro ⟨a, ha, b, hb, rfl⟩
    rw [RegularExpression.matches'_char] at ha
    have ha : a = [sep] := ha
    subst ha
    exact ⟨b, (mem_oneOrMore cs b).1 hb, rfl⟩
  · rintro ⟨s, hs, rfl⟩
    exact ⟨[sep], by rw [RegularExpression.matches'_char]; rfl, s, (mem_oneOrMore cs s).2 hs, rfl⟩

theorem mem_optTs (x : Str) :
    x ∈ (optional (RegularExpression.char '@' * oneOrMore (charClass clsDigit))).matches' ↔
      TsSuffix x := by
  unfold optional TsSuffix
  rw [RegularExpression.matches'_add, Language.mem_add, mem_sepSeg, RegularExpression.matches'_epsilon,
    Language.mem_one]
  exact or_comm

theorem once_matches (r : RegularExpression Char) : (once r).matches' = r.matches' := by
  unfold once
  rw [RegularExpression.matches'_pow, pow_one]

theorem mem_mul_matches (P Q : RegularExpression Char) (x : Str) :
    x ∈ (P * Q).matches' ↔ ∃ a ∈ P.matches', ∃ b ∈ Q.matches', a ++ b = x := by
  rw [RegularExpression.matches'_mul, Language.mem_mul]

theorem mem_char_matches (a : Char) (x : Str) :
    x ∈ (RegularExpression.char a).matches' ↔ x = [a] := by
  rw [RegularExpression.matches'_char]; rfl

theorem inputFullRegex_matches (s : Str) :
    s ∈ inputFullRegex.matches' ↔ KeyShape clsComponent clsRunType clsRole clsRole s := by
  unfold inputFullRegex KeyShape
  constructor
  · intro h
    obtain ⟨x, hx, ts, hts, rfl⟩ := (mem_mul_matches _ _ _).1 h
    obtain ⟨y, hy, e3, he3, rfl⟩ := (mem_mul_matches _ _ _).1 hx
    obtain ⟨z, hz, e2, he2, rfl⟩ := (mem_mul_matches _ _ _).1 hy
    obtain ⟨c, hc, e1, he1, rfl⟩ := (mem_mul_matches _ _ _).1 hz
    rw [once_matches] at he1 he2 he3
    obtain ⟨R, hR, rfl⟩ := (mem_sepSeg _ _ _).1 he1
    obtain ⟨r, hr, rfl⟩ := (mem_sepSeg _ _ _).1 he2
    obtain ⟨e, he, rfl⟩ := (mem_sepSeg _ _ _).1 he3
    exact ⟨c, R, r, e, ts, (mem_oneOrMore _ _).1 hc, hR, hr, he, (mem_optTs _).1 hts, by simp⟩
  · rintro ⟨c, R, r, e, ts, hc, hR, hr, he, hts, rfl⟩
    refine (mem_mul_matches _ _ _).2 ⟨c ++ '/' :: R ++ '/' :: r ++ '/' :: e, ?_, ts,
      (mem_optTs _).2 hts, by simp⟩
    refine (mem_mul_matches _ _ _).2 ⟨c ++ '/' :: R ++ '/' :: r, ?_, '/' :: e, ?_, by simp⟩
    · refine (mem_mul_matches _ _ _).2 ⟨c ++ '/' :: R, ?_, '/' :: r, ?_, by simp⟩
      · refine (mem_mul_matches _ _ _).2 ⟨c, (mem_oneOrMore _ _).2 hc, '/' :: R, ?_, by simp⟩
        rw [once_matches]; exact (mem_sepSeg _ _ _).2 ⟨R, hR, rfl⟩
      · rw [once_matches]; exact (mem_sepSeg _ _ _).2 ⟨r, hr, rfl⟩
    · rw [once_matches]; exact (mem_sepSeg _ _ _).2 ⟨e, he, rfl⟩

theorem specKeyRegex_matches (s : Str) :
    s ∈ specKeyRegex.matches' ↔ KeyShape specWord specUpper specWord specWord s := by
  unfold specKeyRegex KeyShape
  constructor
  · intro h
    obtain ⟨x1, h1, ts, hts, rfl⟩ := (mem_mul_matches _ _ _).1 h
    obtain ⟨x2, h2, e, he, rfl⟩ := (mem_mul_matches _ _ _).1 h1
    obtain ⟨x3, h3, s3, hs3, rfl⟩ := (mem_mul_matches _ _ _).1 h2
    obtain ⟨x4, h4, r, hr, rfl⟩ := (mem_mul_matches _ _ _).1 h3
    obtain ⟨x5, h5, s2, hs2, rfl⟩ := (mem_mul_matches _ _ _).1 h4
    obtain ⟨x6, h6, R, hR, rfl⟩ := (mem_mul_matches _ _ _).1 h5
    obtain ⟨c, hc, s1, hs1, rfl⟩ := (mem_mul_matches _ _ _).1 h6
    rw [mem_char_matches] at hs1 hs2 hs3
    subst hs1 hs2 hs3
    exact ⟨c, R, r, e, ts, (mem_oneOrMore _ _).1 hc, (mem_oneOrMore _ _).1 hR,
      (mem_oneOrMore _ _).1 hr, (mem_oneOrMore _ _).1 he, (mem_optTs _).1 hts, by simp⟩
  · rintro ⟨c, R, r, e, ts, hc, hR, hr, he, hts, rfl⟩
    refine (mem_mul_matches _ _ _).2 ⟨c ++ '/' :: R ++ '/' :: r ++ '/' :: e, ?_, ts,
      (mem_optTs _).2 hts, by simp⟩
    refine (mem_mul_matches _ _ _).2 ⟨c ++ '/' :: R ++ '/' :: r ++ ['/'], ?_, e,
      (mem_oneOrMore _ _).2 he, by simp⟩
    refine (mem_mul_matches _ _ _).2 ⟨c ++ '/' :: R ++ '/' :: r, ?_, ['/'],
      (mem_char_matches _ _).2 rfl, by simp⟩
    refine (mem_mul_matches _ _ _).2 ⟨c ++ '/' :: R ++ ['/'], ?_, r,
      (mem_oneOrMore _ _).2 hr, by simp⟩
    refine (mem_mul_matches _ _ _).2 ⟨c ++ '/' :: R, ?_, ['/'],
      (mem_char_matches _ _).2 rfl, by simp⟩
    refine (mem_mul_matches _ _ _).2 ⟨c ++ ['/'], ?_, R,
      (mem_oneOrMore _ _).2 hR, by simp⟩
    exact (mem_mul_matches _ _ _).2 ⟨c, (mem_oneOrMore _ _).2 hc, ['/'],
      (mem_char_matches _ _).2 rfl, by simp⟩

theorem clsComponent_iff (x : Char) : x ∈ clsComponent ↔ x ∈ specWord := by
  have h1 : ∀ y ∈ clsComponent, y ∈ specWord := by decide
  have h2 : ∀ y ∈ specWord, y ∈ clsComponent := by decide
  exact ⟨h1 x, h2 x⟩

theorem clsRole_iff (x : Char) : x ∈ clsRole ↔ x ∈ specWord := by
  have h1 : ∀ y ∈ clsRole, y ∈ specWord := by decide
  have h2 : ∀ y ∈ specWord, y ∈ clsRole := by decide
  exact ⟨h1 x, h2 x⟩

theorem clsRunType_iff (x : Char) : x ∈ clsRunType ↔ x ∈ specUpper := by
  have h1 : ∀ y ∈ clsRunType, y ∈ specUpper := by decide
  have h2 : ∀ y ∈ specUpper, y ∈ clsRunType := by decide
  exact ⟨h1 x, h2 x⟩

theorem Seg_congr (a b : List Char) (h : ∀ x, x ∈ a ↔ x ∈ b) (s : Str) : Seg a s ↔ Seg b s := by
  unfold Seg
  constructor
  · rintro ⟨h1, h2⟩; exact ⟨h1, fun x hx => (h x).1 (h2 x hx)⟩
  · rintro ⟨h1, h2⟩; exact ⟨h1, fun x hx => (h x).2 (h2 x hx)⟩

theorem KeyShape_code_iff_spec (s : Str) :
    KeyShape clsComponent clsRunType clsRole clsRole s ↔
      KeyShape specWord specUpper specWord specWord s := by
  unfold KeyShape
  simp only [Seg_congr _ _ clsComponent_iff, Seg_congr _ _ clsRole_iff,
    Seg_congr _ _ clsRunType_iff]

theorem inputFullRegex_eq_spec (s : Str) : inputFullRegex.rmatch s = specKeyRegex.rmatch s := by
  rw [Bool.eq_iff_iff, RegularExpression.rmatch_iff_matches', RegularExpression.rmatch_iff_matches',
    inputFullRegex_matches, specKeyRegex_matches, KeyShape_code_iff_spec]

theorem valid_iff (s : Str) :
    IsInputCompEntryTsValid s = true ↔ KeyShape clsComponent clsRunType clsRole clsRole s := by
  unfold IsInputCompEntryTsValid
  rw [RegularExpression.rmatch_iff_matches', inputFullRegex_matches]

theorem slash_not_mem_of_Seg (cls : List Char) (h : '/' ∉ cls) (s : Str) (hs : Seg cls s) :
    '/' ∉ s := fun hm => h (hs.2 _ hm)

theorem at_not_mem_of_Seg (cls : List Char) (h : '@' ∉ cls) (s : Str) (hs : Seg cls s) :
    '@' ∉ s := fun hm => h (hs.2 _ hm)

theorem slash_not_mem_clsComponent : '/' ∉ clsComponent := by decide

theorem slash_not_mem_clsRunType : '/' ∉ clsRunType := by decide

theorem slash_not_mem_clsRole : '/' ∉ clsRole := by decide

theorem slash_not_mem_clsDigit : '/' ∉ clsDigit := by decide

theorem at_not_mem_clsComponent : '@' ∉ clsComponent := by decide

theorem at_not_mem_clsRunType : '@' ∉ clsRunType := by decide

theorem at_not_mem_clsRole : '@' ∉ clsRole := by decide

theorem Split_plainKey (c R r e : Str) (hc : '/' ∉ c) (hR : '/' ∉ R) (hr : '/' ∉ r)
    (he : '/' ∉ e) : Split (plainKey c R r e) '/' = [c, R, r, e] := by
  unfold plainKey
  rw [Split_append _ _ _ hc, Split_append _ _ _ hR, Split_append _ _ _ hr,
    Split_of_not_mem _ _ he]

theorem Split_rawKey (c R r e t : Str) (hc : '/' ∉ c) (hR : '/' ∉ R) (hr : '/' ∉ r)
    (he : '/' ∉ e) (ht : '/' ∉ t) : Split (rawKey c R r e t) '/' = [c, R, r, e, t] := by
  have e1 : rawKey c R r e t = c ++ '/' :: (R ++ '/' :: (r ++ '/' :: (e ++ '/' :: t))) := by
    simp [rawKey, plainKey]
  rw [e1, Split_append _ _ _ hc, Split_append _ _ _ hR, Split_append _ _ _ hr,
    Split_append _ _ _ he, Split_of_not_mem _ _ ht]

theorem at_not_mem_plainKey (c R r e : Str) (hc : '@' ∉ c) (hR : '@' ∉ R) (hr : '@' ∉ r)
    (he : '@' ∉ e) : '@' ∉ plainKey c R r e := by
  unfold plainKey
  simp [hc, hR, hr, he]

theorem valid_plainKey (c R r e : Str) (hc : Seg clsComponent c) (hR : Seg clsRunType R)
    (hr : Seg clsRole r) (he : Seg clsRole e) : IsInputCompEntryTsValid (plainKey c R r e) = true :=
  (valid_iff _).2 ⟨c, R, r, e, [], hc, hR, hr, he, Or.inl rfl, by simp [plainKey]⟩

theorem valid_stampedKey (c R r e t : Str) (hc : Seg clsComponent c) (hR : Seg clsRunType R)
    (hr : Seg clsRole r) (he : Seg clsRole e) (ht : Seg clsDigit t) :
    IsInputCompEntryTsValid (stampedKey c R r e t) = true :=
  (valid_iff _).2 ⟨c, R, r, e, '@' :: t, hc, hR, hr, he, Or.inr ⟨t, ht, rfl⟩,
    by simp [stampedKey, plainKey]⟩

theorem NewQuery_plainKey (pb : RunTypes) (c R r e : Str) (hc : Seg clsComponent c)
    (hR : Seg clsRunType R) (hr : Seg clsRole r) (he : Seg clsRole e) :
    NewQuery pb (plainKey c R r e) = some (parsed pb c R r e []) := by
  have hv := valid_plainKey c R r e hc hR hr he
  have hat : Contains (plainKey c R r e) '@' = false :=
    Contains_eq_false _ _ (at_not_mem_plainKey c R r e
      (at_not_mem_of_Seg _ at_not_mem_clsComponent _ hc)
      (at_not_mem_of_Seg _ at_not_mem_clsRunType _ hR)
      (at_not_mem_of_Seg _ at_not_mem_clsRole _ hr)
      (at_not_mem_of_Seg _ at_not_mem_clsRole _ he))
  have hsl : Contains (plainKey c R r e) SEPARATOR = true :=
    (Contains_iff _ _).2 (by simp [plainKey, SEPARATOR])
  have hsp : Split (plainKey c R r e) SEPARATOR = [c, R, r, e] :=
    Split_plainKey c R r e
      (slash_not_mem_of_Seg _ slash_not_mem_clsComponent _ hc)
      (slash_not_mem_of_Seg _ slash_not_mem_clsRunType _ hR)
      (slash_not_mem_of_Seg _ slash_not_mem_clsRole _ hr)
      (slash_not_mem_of_Seg _ slash_not_mem_clsRole _ he)
  unfold NewQuery parsed
  simp only [hv, hat, hsl, hsp, if_true]
  cases hval : pb.RunType_value R <;> simp [hval]

theorem NewQuery_stampedKey (pb : RunTypes) (c R r e t : Str) (hc : Seg clsComponent c)
    (hR : Seg clsRunType R) (hr : Seg clsRole r) (he : Seg clsRole e) (ht : Seg clsDigit t) :
    NewQuery pb (stampedKey c R r e t) = some (parsed pb c R r e t) := by
  have hv := valid_stampedKey c R r e t hc hR hr he ht
  have hnat : '@' ∉ plainKey c R r e :=
    at_not_mem_plainKey c R r e
      (at_not_mem_of_Seg _ at_not_mem_clsComponent _ hc)
      (at_not_mem_of_Seg _ at_not_mem_clsRunType _ hR)
      (at_not_mem_of_Seg _ at_not_mem_clsRole _ hr)
      (at_not_mem_of_Seg _ at_not_mem_clsRole _ he)
  have hat : Contains (stampedKey c R r e t) '@' = true :=
    (Contains_iff _ _).2 (by simp [stampedKey])
  have hrep : Replace1 (stampedKey c R r e t) '@' SEPARATOR = rawKey c R r e t :=
    Replace1_append _ _ _ _ hnat
  have hsp : Split (rawKey c R r e t) SEPARATOR = [c, R, r, e, t] :=
    Split_rawKey c R r e t
      (slash_not_mem_of_Seg _ slash_not_mem_clsComponent _ hc)
      (slash_not_mem_of_Seg _ slash_not_mem_clsRunType _ hR)
      (slash_not_mem_of_Seg _ slash_not_mem_clsRole _ hr)
      (slash_not_mem_of_Seg _ slash_not_mem_clsRole _ he)
      (slash_not_mem_of_Seg _ slash_not_mem_clsDigit _ ht)
  unfold NewQuery parsed
  simp only [hv, hat, hrep, hsp, if_true]
  cases hval : pb.RunType_value R <;> simp [hval]

/-- A raw key `c/R/r/e/t` is not in the grammar: it has a fifth segment. -/
theorem not_valid_rawKey (c R r e t : Str) (hc : Seg clsComponent c) (hR : Seg clsRunType R)
    (hr : Seg clsRole r) (he : Seg clsRole e) (ht : Seg clsDigit t) :
    IsInputCompEntryTsValid (rawKey c R r e t) = false := by
  cases hv : IsInputCompEntryTsValid (rawKey c R r e t) with
  | false => rfl
  | true =>
    exfalso
    obtain ⟨c2, R2, r2, e2, ts, hc2, hR2, hr2, he2, hts, heq⟩ := (valid_iff _).1 hv
    have h1 : Split (rawKey c R r e t) '/' = [c, R, r, e, t] :=
      Split_rawKey c R r e t
        (slash_not_mem_of_Seg _ slash_not_mem_clsComponent _ hc)
        (slash_not_mem_of_Seg _ slash_not_mem_clsRunType _ hR)
        (slash_not_mem_of_Seg _ slash_not_mem_clsRole _ hr)
        (slash_not_mem_of_Seg _ slash_not_mem_clsRole _ he)
        (slash_not_mem_of_Seg _ slash_not_mem_clsDigit _ ht)
    have hts2 : '/' ∉ e2 ++ ts := by
      have := slash_not_mem_of_Seg _ slash_not_mem_clsRole _ he2
      rcases hts with rfl | ⟨t2, ht2, rfl⟩
      · simpa using this
      · have h3 := slash_not_mem_of_Seg _ slash_not_mem_clsDigit _ ht2
        simp [this, h3]
    have h2 : Split (rawKey c R r e t) '/' = [c2, R2, r2, e2 ++ ts] := by
      rw [heq, Split_append _ _ _ (slash_not_mem_of_Seg _ slash_not_mem_clsComponent _ hc2),
        Split_append _ _ _ (slash_not_mem_of_Seg _ slash_not_mem_clsRunType _ hR2),
        Split_append _ _ _ (slash_not_mem_of_Seg _ slash_not_mem_clsRole _ hr2),
        Split_of_not_mem _ _ hts2]
    rw [h1] at h2
    simp at h2

/-- Decomposition of a valid key into its segments. -/
theorem valid_cases (s : Str) (h : IsInputCompEntryTsValid s = true) :
    ∃ c R r e, Seg clsComponent c ∧ Seg clsRunType R ∧ Seg clsRole r ∧ Seg clsRole e ∧
      (s = plainKey c R r e ∨ ∃ t, Seg clsDigit t ∧ s = stampedKey c R r e t) := by
  obtain ⟨c, R, r, e, ts, hc, hR, hr, he, hts, rfl⟩ := (valid_iff _).1 h
  refine ⟨c, R, r, e, hc, hR, hr, he, ?_⟩
  rcases hts with rfl | ⟨t, ht, rfl⟩
  · left; simp [plainKey]
  · right; exact ⟨t, ht, by simp [stampedKey, plainKey]⟩

theorem sampleRunTypes_inverse (n : Str) (v : Int)
    (h : sampleRunTypes.RunType_value n = some v) : sampleRunTypes.RunType_name v = some n := by
  unfold sampleRunTypes at h ⊢
  simp only at h ⊢
  split_ifs at h with h1 h2 h3 h4 <;> simp at h <;> subst h <;> simp [*]

theorem NewQuery_accepts (pb : RunTypes) (K : Str) (q : Query)
    (h : NewQuery pb K = some (q, none)) :
    ∃ c R r e t v, Seg clsComponent c ∧ Seg clsRunType R ∧ Seg clsRole r ∧ Seg clsRole e ∧
      pb.RunType_value R = some v ∧
      q = { Component := c, Flavor := v, Rolename := r, EntryKey := e, Timestamp := t } ∧
      ((t = [] ∧ K = plainKey c R r e) ∨ (Seg clsDigit t ∧ K = stampedKey c R r e t)) := by
  cases hv : IsInputCompEntryTsValid K with
  | false => simp [NewQuery, hv] at h
  | true =>
    obtain ⟨c, R, r, e, hc, hR, hr, he, hK⟩ := valid_cases K hv
    rcases hK with rfl | ⟨t, ht, rfl⟩
    · rw [NewQuery_plainKey pb c R r e hc hR hr he] at h
      cases hval : pb.RunType_value R with
      | none => simp [parsed, hval] at h
      | some v =>
        simp [parsed, hval] at h
        exact ⟨c, R, r, e, [], v, hc, hR, hr, he, hval, h.symm, Or.inl ⟨rfl, rfl⟩⟩
    · rw [NewQuery_stampedKey pb c R r e t hc hR hr he ht] at h
      cases hval : pb.RunType_value R with
      | none => simp [parsed, hval] at h
      | some v =>
        simp [parsed, hval] at h
        exact ⟨c, R, r, e, t, v, hc, hR, hr, he, hval, h.symm, Or.inr ⟨ht, rfl⟩⟩

theorem Path_plain (pb : RunTypes) (c R r e : Str) (v : Int) (hn : pb.RunType_name v = some R) :
    Query.Path pb { Component := c, Flavor := v, Rolename := r, EntryKey := e, Timestamp := [] }
      = plainKey c R r e := by
  simp [Query.Path, Query.WithoutTimestamp, hn, plainKey, SEPARATOR]

theorem Path_stamped (pb : RunTypes) (c R r e t : Str) (v : Int)
    (hn : pb.RunType_name v = some R) (ht : t ≠ []) :
    Query.Path pb { Component := c, Flavor := v, Rolename := r, EntryKey := e, Timestamp := t }
      = stampedKey c R r e t := by
  have : 0 < t.length := List.length_pos.2 ht
  simp [Query.Path, Query.WithoutTimestamp, hn, plainKey, stampedKey, SEPARATOR, this]

theorem Raw_stamped (pb : RunTypes) (c R r e t : Str) (v : Int)
    (hn : pb.RunType_name v = some R) (ht : t ≠ []) :
    Query.Raw pb { Component := c, Flavor := v, Rolename := r, EntryKey := e, Timestamp := t }
      = rawKey c R r e t := by
  have : 0 < t.length := List.length_pos.2 ht
  simp [Query.Raw, Query.WithoutTimestamp, hn, plainKey, rawKey, SEPARATOR, this]

theorem runTypeSegment_plainKey (c R r e : Str) (hc : Seg clsComponent c)
    (hR : Seg clsRunType R) : runTypeSegment (plainKey c R r e) = some R := by
  unfold runTypeSegment plainKey
  rw [Split_append _ _ _ (slash_not_mem_of_Seg _ slash_not_mem_clsComponent _ hc),
    Split_append _ _ _ (slash_not_mem_of_Seg _ slash_not_mem_clsRunType _ hR)]
  simp

theorem runTypeSegment_stampedKey (c R r e t : Str) (hc : Seg clsComponent c)
    (hR : Seg clsRunType R) : runTypeSegment (stampedKey c R r e t) = some R := by
  have e1 : stampedKey c R r e t = c ++ '/' :: (R ++ '/' :: (r ++ '/' :: (e ++ '@' :: t))) := by
    simp [stampedKey, plainKey]
  unfold runTypeSegment
  rw [e1, Split_append _ _ _ (slash_not_mem_of_Seg _ slash_not_mem_clsComponent _ hc),
    Split_append _ _ _ (slash_not_mem_of_Seg _ slash_not_mem_clsRunType _ hR)]
  simp

/-- On a valid key, `NewQuery` returns the parse of its segments, and the run-type
segment of the key is the `R` of the parse. -/
theorem NewQuery_valid (pb : RunTypes) (K : Str) (h : IsInputCompEntryTsValid K = true) :
    ∃ c R r e t, runTypeSegment K = some R ∧ Seg clsRunType R ∧
      NewQuery pb K = some (parsed pb c R r e t) := by
  obtain ⟨c, R, r, e, hc, hR, hr, he, hK⟩ := valid_cases K h
  rcases hK with rfl | ⟨t, ht, rfl⟩
  · exact ⟨c, R, r, e, [], runTypeSegment_plainKey c R r e hc hR, hR,
      NewQuery_plainKey pb c R r e hc hR hr he⟩
  · exact ⟨c, R, r, e, t, runTypeSegment_stampedKey c R r e t hc hR, hR,
      NewQuery_stampedKey pb c R r e t hc hR hr he ht⟩

theorem NewQuery_invalid (pb : RunTypes) (K : Str) (h : IsInputCompEntryTsValid K = false) :
    NewQuery pb K = some (Query.mk [] pb.RunType_NULL [] [] [], some QueryError.E_BAD_KEY) := by
  simp [NewQuery, h]

theorem parsed_error_iff (pb : RunTypes) (c R r e t : Str) :
    (parsed pb c R r e t).2 = some QueryError.E_BAD_KEY ↔ pb.RunType_value R = none := by
  unfold parsed
  cases pb.RunType_value R <;> simp

/-- C1: for every key `K` that `NewQuery` accepts, with run-type tables that are
inverse of each other, `NewQuery(K).Path()` is `K` itself, and so parsing the canonical
rendering again yields the same query. -/
theorem NewQuery_Path_roundtrip (pb : RunTypes)
    (hinv : ∀ n v, pb.RunType_value n = some v → pb.RunType_name v = some n)
    (K : Str) (q : Query) (h : NewQuery pb K = some (q, none)) :
    q.Path pb = K ∧ NewQuery pb (q.Path pb) = some (q, none) := by
  obtain ⟨c, R, r, e, t, v, hc, hR, hr, he, hv, rfl, hK⟩ := NewQuery_accepts pb K q h
  have hn := hinv R v hv
  have hp : Query.Path pb
      { Component := c, Flavor := v, Rolename := r, EntryKey := e, Timestamp := t } = K := by
    rcases hK with ⟨rfl, rfl⟩ | ⟨ht, rfl⟩
    · exact Path_plain pb c R r e v hn
    · exact Path_stamped pb c R r e t v hn ht.1
  exact ⟨hp, by rw [hp]; exact h⟩

/-- Witness of C1 on the key `readout/PHYSICS/flp/default`. -/
theorem NewQuery_Path_roundtrip_witness :
    NewQuery sampleRunTypes "readout/PHYSICS/flp/default".toList
      = some (Query.mk "readout".toList 1 "flp".toList "default".toList [], none) ∧
    Query.Path sampleRunTypes (Query.mk "readout".toList 1 "flp".toList "default".toList [])
      = "readout/PHYSICS/flp/default".toList ∧
    NewQuery sampleRunTypes
        (Query.Path sampleRunTypes (Query.mk "readout".toList 1 "flp".toList "default".toList []))
      = some (Query.mk "readout".toList 1 "flp".toList "default".toList [], none) :=
  have h : NewQuery sampleRunTypes "readout/PHYSICS/flp/default".toList
      = some (Query.mk "readout".toList 1 "flp".toList "default".toList [], none) :=
    NewQuery_plainKey sampleRunTypes "readout".toList "PHYSICS".toList "flp".toList
      "default".toList (by decide) (by decide) (by decide) (by decide)
  ⟨h, NewQuery_Path_roundtrip sampleRunTypes sampleRunTypes_inverse _ _ h⟩

/-- C2: the raw rendering of an accepted key with a timestamp is rejected. The key
`readout/PHYSICS/flp/default@1700000000` is accepted, its `Raw()` is
`readout/PHYSICS/flp/default/1700000000`, and `NewQuery` answers `E_BAD_KEY` on that
rendering, because the key grammar has no fifth segment. -/
theorem NewQuery_Raw_rejected :
    NewQuery sampleRunTypes "readout/PHYSICS/flp/default@1700000000".toList
      = some (Query.mk "readout".toList 1 "flp".toList "default".toList "1700000000".toList,
          none) ∧
    Query.Raw sampleRunTypes
        (Query.mk "readout".toList 1 "flp".toList "default".toList "1700000000".toList)
      = "readout/PHYSICS/flp/default/1700000000".toList ∧
    NewQuery sampleRunTypes "readout/PHYSICS/flp/default/1700000000".toList
      = some (Query.mk [] 0 [] [] [], some QueryError.E_BAD_KEY) :=
  ⟨NewQuery_stampedKey sampleRunTypes "readout".toList "PHYSICS".toList "flp".toList
      "default".toList "1700000000".toList (by decide) (by decide) (by decide) (by decide)
      (by decide),
    Raw_stamped sampleRunTypes "readout".toList "PHYSICS".toList "flp".toList
      "default".toList "1700000000".toList 1 rfl (by decide),
    NewQuery_invalid sampleRunTypes _
      (not_valid_rawKey "readout".toList "PHYSICS".toList "flp".toList
        "default".toList "1700000000".toList (by decide) (by decide) (by decide) (by decide)
        (by decide))⟩

/-- C3: for segments `c`, `R`, `r`, `e` of the grammar with `R` a known run-type name of
value `v`, `NewQuery` returns no error on `c/R/r/e` and on `c/R/r/e@t`, with
Component `c`, Flavor `v`, Rolename `r`, EntryKey `e` and Timestamp empty, respectively
`t`; and `Raw()` of the latter is `c/R/r/e/t` (the name table giving `R` for `v`). -/
theorem NewQuery_fields (pb : RunTypes) (c R r e : Str) (v : Int)
    (hc : Seg clsComponent c) (hR : Seg clsRunType R) (hr : Seg clsRole r)
    (he : Seg clsRole e) (hv : pb.RunType_value R = some v) :
    NewQuery pb (plainKey c R r e) = some (Query.mk c v r e [], none) ∧
    ∀ t, Seg clsDigit t →
      NewQuery pb (stampedKey c R r e t) = some (Query.mk c v r e t, none) ∧
      (pb.RunType_name v = some R → Query.Raw pb (Query.mk c v r e t) = rawKey c R r e t) := by
  refine ⟨?_, fun t ht => ⟨?_, fun hn => Raw_stamped pb c R r e t v hn ht.1⟩⟩
  · rw [NewQuery_plainKey pb c R r e hc hR hr he]; simp [parsed, hv]
  · rw [NewQuery_stampedKey pb c R r e t hc hR hr he ht]; simp [parsed, hv]

/-- Witness of C3 on `readout/PHYSICS/flp/default` and its timestamp `1700000000`. -/
theorem NewQuery_fields_witness :
    NewQuery sampleRunTypes "readout/PHYSICS/flp/default".toList
      = some (Query.mk "readout".toList 1 "flp".toList "default".toList [], none) ∧
    NewQuery sampleRunTypes "readout/PHYSICS/flp/default@1700000000".toList
      = some (Query.mk "readout".toList 1 "flp".toList "default".toList "1700000000".toList,
          none) ∧
    Query.Raw sampleRunTypes
        (Query.mk "readout".toList 1 "flp".toList "default".toList "1700000000".toList)
      = "readout/PHYSICS/flp/default/1700000000".toList :=
  have h := NewQuery_fields sampleRunTypes "readout".toList "PHYSICS".toList "flp".toList
    "default".toList 1 (by decide) (by decide) (by decide) (by decide) rfl
  ⟨h.1, (h.2 "1700000000".toList (by decide)).1, (h.2 "1700000000".toList (by decide)).2 rfl⟩

theorem not_isLower_of_mem_clsRunType (x : Char) (h : x ∈ clsRunType) : x.isLower = false := by
  have hall : ∀ y ∈ clsRunType, y.isLower = false := by decide
  exact hall x h

/-- C4: `NewQuery` never panics; it fails with `E_BAD_KEY` if and only if the key does
not match the expression of the specification or its run-type segment is not a known
run-type name; the expression of the code accepts exactly the strings of the
specification; and a key whose run-type segment has a lowercase letter is rejected,
as is `readout/physics/flp/default`. -/
theorem NewQuery_E_BAD_KEY_iff (pb : RunTypes) (K : Str) :
    (∃ q err, NewQuery pb K = some (q, err)) ∧
    ((∃ q, NewQuery pb K = some (q, some QueryError.E_BAD_KEY)) ↔
      (specKeyRegex.rmatch K = false ∨
        ∃ R, runTypeSegment K = some R ∧ pb.RunType_value R = none)) ∧
    inputFullRegex.rmatch K = specKeyRegex.rmatch K ∧
    ((∃ R, runTypeSegment K = some R ∧ ∃ x ∈ R, x.isLower = true) →
      NewQuery pb K = some (Query.mk [] pb.RunType_NULL [] [] [], some QueryError.E_BAD_KEY)) ∧
    NewQuery pb "readout/physics/flp/default".toList
      = some (Query.mk [] pb.RunType_NULL [] [] [], some QueryError.E_BAD_KEY) := by
  have lower : ∀ K' : Str, (∃ R, runTypeSegment K' = some R ∧ ∃ x ∈ R, x.isLower = true) →
      NewQuery pb K' = some (Query.mk [] pb.RunType_NULL [] [] [], some QueryError.E_BAD_KEY) := by
    rintro K' ⟨R, hR, x, hx, hlow⟩
    cases hv : IsInputCompEntryTsValid K' with
    | false => exact NewQuery_invalid pb K' hv
    | true =>
      exfalso
      obtain ⟨c, R2, r, e, t, hseg, hR2, -⟩ := NewQuery_valid pb K' hv
      rw [hR] at hseg
      cases hseg
      rw [not_isLower_of_mem_clsRunType x (hR2.2 x hx)] at hlow
      exact Bool.false_ne_true hlow
  refine ⟨?_, ?_, inputFullRegex_eq_spec K, lower K, lower _ ⟨"physics".toList, by decide,
    'p', by decide, by decide⟩⟩
  · cases hv : IsInputCompEntryTsValid K with
    | false => exact ⟨_, _, NewQuery_invalid pb K hv⟩
    | true =>
      obtain ⟨c, R, r, e, t, -, -, h⟩ := NewQuery_valid pb K hv
      exact ⟨_, _, h⟩
  · rw [← inputFullRegex_eq_spec K]
    cases hv : IsInputCompEntryTsValid K with
    | false =>
      have hv2 : inputFullRegex.rmatch K = false := hv
      simp only [hv2, true_or, iff_true]
      exact ⟨_, NewQuery_invalid pb K hv⟩
    | true =>
      have hv2 : inputFullRegex.rmatch K = true := hv
      obtain ⟨c, R, r, e, t, hseg, -, h⟩ := NewQuery_valid pb K hv
      simp only [hv2, Bool.true_eq_false, false_or, h, Option.some.injEq, hseg]
      constructor
      · rintro ⟨q, hq⟩
        have := (parsed_error_iff pb c R r e t).1 (by rw [hq])
        exact ⟨R, rfl, this⟩
      · rintro ⟨R2, rfl, hnone⟩
        have := (parsed_error_iff pb c R r e t).2 hnone
        exact ⟨(parsed pb c R r e t).1, by rw [← this]⟩

/-- Witness of C4 on `readout/physics/flp/default`, whose run-type segment is in
lowercase. -/
theorem NewQuery_E_BAD_KEY_iff_witness :
    runTypeSegment "readout/physics/flp/default".toList = some "physics".toList ∧
    NewQuery sampleRunTypes "readout/physics/flp/default".toList
      = some (Query.mk [] 0 [] [] [], some QueryError.E_BAD_KEY) :=
  ⟨by decide,
    (NewQuery_E_BAD_KEY_iff sampleRunTypes "readout/physics/flp/default".toList).2.2.2.1
      ⟨"physics".toList, by decide, 'p', by decide, by decide⟩⟩

end componentcfg

namespace environment

theorem GoMap.get_set {κ ν : Type} [DecidableEq κ] (m : GoMap κ ν) (k k2 : κ) (v : ν) :
    (GoMap.set m k v).get k2 = if k = k2 then some v else m.get k2 := by
  induction m with
  | nil => simp [GoMap.set, GoMap.get]
  | cons kv rest ih =>
    obtain ⟨k1, v1⟩ := kv
    by_cases h1 : k1 = k
    · subst h1
      by_cases h2 : k1 = k2 <;> simp [GoMap.set, GoMap.get, h2]
    · by_cases h2 : k1 = k2
      · subst h2
        have h3 : ¬ k = k1 := fun e => h1 e.symm
        simp [GoMap.set, GoMap.get, h1, h3]
      · simp [GoMap.set, GoMap.get, h1, h2, ih]

theorem GoMap.get_delete_self {κ ν : Type} [DecidableEq κ] (m : GoMap κ ν) (k : κ) :
    (GoMap.delete m k).get k = none := by
  induction m with
  | nil => simp [GoMap.delete, GoMap.get]
  | cons kv rest ih =>
    obtain ⟨k1, v1⟩ := kv
    by_cases h1 : k1 = k
    · simpa [GoMap.delete, h1] using ih
    · have : (GoMap.delete ((k1, v1) :: rest) k) = (k1, v1) :: GoMap.delete rest k := by
        simp [GoMap.delete, h1]
      rw [this]
      simp [GoMap.get, h1, ih]

theorem GoMap.get_eq_none_of_not_mem {κ ν : Type} [DecidableEq κ] (m : GoMap κ ν) (k : κ)
    (h : k ∉ GoMap.keys m) : m.get k = none := by
  induction m with
  | nil => simp [GoMap.get]
  | cons kv rest ih =>
    obtain ⟨k1, v1⟩ := kv
    simp only [GoMap.keys, List.map_cons, List.mem_cons, not_or] at h
    have h1 : ¬ k1 = k := fun e => h.1 e.symm
    simp only [GoMap.get, h1, if_false]
    exact ih h.2

theorem GoMap.mem_keys_iff {κ ν : Type} [DecidableEq κ] (m : GoMap κ ν) (k : κ) :
    k ∈ GoMap.keys m ↔ ∃ v, m.get k = some v := by
  induction m with
  | nil => simp [GoMap.get, GoMap.keys]
  | cons kv rest ih =>
    obtain ⟨k1, v1⟩ := kv
    by_cases h1 : k1 = k
    · subst h1
      simp [GoMap.get, GoMap.keys]
    · have h2 : ¬ k = k1 := fun e => h1 e.symm
      have ih2 : k ∈ List.map Prod.fst rest ↔ ∃ v, GoMap.get rest k = some v := ih
      simp only [GoMap.keys, List.map_cons, List.mem_cons, h2, false_or, GoMap.get, h1,
        if_false, ih2]

/-- One turn of the loop that splits the user variables. -/
theorem split_step_get (acc : UserVarSplit) (kv : String × String) (k : String) :
    let acc2 : UserVarSplit :=
      if ContainsRune kv.1 TARGET_SEPARATOR_RUNE then
        { acc with workflowUserVars := acc.workflowUserVars.set kv.1 kv.2 }
      else
        { acc with envUserVars := acc.envUserVars.set kv.1 kv.2 }
    acc2.workflowUserVars.get k =
        (if kv.1 = k ∧ ContainsRune kv.1 TARGET_SEPARATOR_RUNE = true then some kv.2
         else acc.workflowUserVars.get k) ∧
    acc2.envUserVars.get k =
        (if kv.1 = k ∧ ContainsRune kv.1 TARGET_SEPARATOR_RUNE = false then some kv.2
         else acc.envUserVars.get k) := by
  intro acc2
  by_cases hc : ContainsRune kv.1 TARGET_SEPARATOR_RUNE = true
  · have e : acc2 = { acc with workflowUserVars := acc.workflowUserVars.set kv.1 kv.2 } := by
      simp [acc2, hc]
    rw [e]
    simp [GoMap.get_set, hc]
  · have hc2 : ContainsRune kv.1 TARGET_SEPARATOR_RUNE = false := by simpa using hc
    have e : acc2 = { acc with envUserVars := acc.envUserVars.set kv.1 kv.2 } := by
      simp [acc2, hc2]
    rw [e]
    simp [GoMap.get_set, hc2]

theorem split_fold_get (M : GoMap String String) (hM : (GoMap.keys M).Nodup)
    (acc : UserVarSplit) (k : String) :
    (M.foldl
      (fun acc kv =>
        if ContainsRune kv.1 TARGET_SEPARATOR_RUNE then
          { acc with workflowUserVars := acc.workflowUserVars.set kv.1 kv.2 }
        else
          { acc with envUserVars := acc.envUserVars.set kv.1 kv.2 })
      acc).workflowUserVars.get k =
        (match M.get k with
         | some v => if ContainsRune k TARGET_SEPARATOR_RUNE = true then some v
                     else acc.workflowUserVars.get k
         | none => acc.workflowUserVars.get k) ∧
    (M.foldl
      (fun acc kv =>
        if ContainsRune kv.1 TARGET_SEPARATOR_RUNE then
          { acc with workflowUserVars := acc.workflowUserVars.set kv.1 kv.2 }
        else
          { acc with envUserVars := acc.envUserVars.set kv.1 kv.2 })
      acc).envUserVars.get k =
        (match M.get k with
         | some v => if ContainsRune k TARGET_SEPARATOR_RUNE = false then some v
                     else acc.envUserVars.get k
         | none => acc.envUserVars.get k) := by
  induction M generalizing acc with
  | nil => simp [GoMap.get]
  | cons kv rest ih =>
    have hnd : (GoMap.keys rest).Nodup := by
      simp only [GoMap.keys, List.map_cons, List.nodup_cons] at hM
      exact hM.2
    have hnot : kv.1 ∉ GoMap.keys rest := by
      simp only [GoMap.keys, List.map_cons, List.nodup_cons] at hM
      exact hM.1
    rw [List.foldl_cons]
    have hstep := split_step_get acc kv k
    simp only at hstep
    have hih := ih hnd
      (if ContainsRune kv.1 TARGET_SEPARATOR_RUNE then
          { acc with workflowUserVars := acc.workflowUserVars.set kv.1 kv.2 }
        else
          { acc with envUserVars := acc.envUserVars.set kv.1 kv.2 })
    rw [hih.1, hih.2, hstep.1, hstep.2]
    obtain ⟨k1, v1⟩ := kv
    by_cases h1 : k1 = k
    · subst h1
      have hr : GoMap.get rest k1 = none := GoMap.get_eq_none_of_not_mem rest k1 hnot
      by_cases hc : ContainsRune k1 TARGET_SEPARATOR_RUNE = true <;> simp [hr, GoMap.get, hc]
    · simp [GoMap.get, h1]

theorem CreateEnvironment_split_get (M : GoMap String String) (hM : (GoMap.keys M).Nodup)
    (k : String) :
    (CreateEnvironment_split M).workflowUserVars.get k =
      (if ContainsRune k TARGET_SEPARATOR_RUNE = true then M.get k else none) ∧
    (CreateEnvironment_split M).envUserVars.get k =
      (if ContainsRune k TARGET_SEPARATOR_RUNE = true then none else M.get k) := by
  have h := split_fold_get M hM { envUserVars := [], workflowUserVars := [] } k
  unfold CreateEnvironment_split
  rw [h.1, h.2]
  cases hg : M.get k with
  | none => simp [GoMap.get]
  | some v =>
    by_cases hc : ContainsRune k TARGET_SEPARATOR_RUNE = true
    · simp [hc, GoMap.get]
    · simp [hc, GoMap.get]

/-- C5: for every user-variable map `M`, the loops at the start of `CreateEnvironment`
and of `CreateAutoEnvironment` compute the same two maps; a pair of `M` is in the
workflow variables exactly when its key contains the target separator `:` and in the
environment variables exactly when it does not; the two maps have disjoint key sets and
their union is `M`. -/
theorem userVars_partition (M : GoMap String String) (hM : (GoMap.keys M).Nodup) :
    CreateAutoEnvironment_split M = CreateEnvironment_split M ∧
    (∀ k v, (CreateEnvironment_split M).workflowUserVars.get k = some v ↔
      (M.get k = some v ∧ ContainsRune k ':' = true)) ∧
    (∀ k v, (CreateEnvironment_split M).envUserVars.get k = some v ↔
      (M.get k = some v ∧ ContainsRune k ':' = false)) ∧
    (∀ k, ¬ (k ∈ GoMap.keys (CreateEnvironment_split M).workflowUserVars ∧
      k ∈ GoMap.keys (CreateEnvironment_split M).envUserVars)) ∧
    (∀ k v, M.get k = some v ↔
      ((CreateEnvironment_split M).workflowUserVars.get k = some v ∨
        (CreateEnvironment_split M).envUserVars.get k = some v)) := by
  have hg := CreateEnvironment_split_get M hM
  have hsep : TARGET_SEPARATOR_RUNE = ':' := rfl
  rw [hsep] at hg
  refine ⟨rfl, ?_, ?_, ?_, ?_⟩
  · intro k v
    rw [(hg k).1]
    by_cases hc : ContainsRune k ':' = true <;> simp [hc]
  · intro k v
    rw [(hg k).2]
    by_cases hc : ContainsRune k ':' = true <;> simp [hc]
  · intro k
    rw [GoMap.mem_keys_iff, GoMap.mem_keys_iff, (hg k).1, (hg k).2]
    by_cases hc : ContainsRune k ':' = true <;> simp [hc]
  · intro k v
    rw [(hg k).1, (hg k).2]
    by_cases hc : ContainsRune k ':' = true <;> simp [hc]

/-- Witness of C5 on a map with one workflow variable and two environment variables. -/
theorem userVars_partition_witness :
    (GoMap.keys [("detector", "TPC"), ("readout.flp:rate", "10"), ("run", "1")]).Nodup ∧
    CreateEnvironment_split [("detector", "TPC"), ("readout.flp:rate", "10"), ("run", "1")]
      = { envUserVars := [("detector", "TPC"), ("run", "1")],
          workflowUserVars := [("readout.flp:rate", "10")] } ∧
    CreateAutoEnvironment_split [("detector", "TPC"), ("readout.flp:rate", "10"), ("run", "1")]
      = CreateEnvironment_split [("detector", "TPC"), ("readout.flp:rate", "10"), ("run", "1")] :=
  ⟨by decide, by decide,
    (userVars_partition [("detector", "TPC"), ("readout.flp:rate", "10"), ("run", "1")]
      (by decide)).1⟩

theorem removeHookFrom_eq (hook : Hook) (n : Nat) (tasks : List TaskRef)
    (hn : n ≤ tasks.length) :
    removeHookFrom hook n tasks =
      some ((tasks.take n).filter (fun t => decide (hook ≠ Hook.task t)) ++ tasks.drop n) := by
  induction n generalizing tasks with
  | zero => simp [removeHookFrom]
  | succ i ih =>
    have hi : i < tasks.length := hn
    have hget : tasks[i]? = some tasks[i] := List.getElem?_eq_getElem hi
    have htake : tasks.take (i + 1) = tasks.take i ++ [tasks[i]] := by
      rw [List.take_succ, hget]; rfl
    unfold removeHookFrom
    simp only [hget]
    by_cases heq : hook = Hook.task tasks[i]
    · have hlen : i ≤ (tasks.eraseIdx i).length := by
        rw [List.length_eraseIdx]
        split <;> omega
      have htk : (tasks.eraseIdx i).take i = tasks.take i := by
        rw [List.eraseIdx_eq_take_drop_succ, List.take_append_of_le_length (by simp; omega)]
        simp
      have hdr : (tasks.eraseIdx i).drop i = tasks.drop (i + 1) := by
        rw [List.eraseIdx_eq_take_drop_succ]
        have hl : (tasks.take i).length = i := by simp; omega
        rw [List.drop_append_of_le_length (by omega)]
        rw [List.drop_of_length_le (by omega)]
        simp
      rw [if_pos heq, ih _ hlen, htk, hdr, htake, List.filter_append]
      simp [heq]
    · have hdr : tasks.drop i = tasks[i] :: tasks.drop (i + 1) := List.drop_eq_getElem_cons hi
      rw [if_neg heq, ih _ (Nat.le_of_lt hi), hdr, htake, List.filter_append]
      simp [heq]

theorem removeHooks_eq (destroyHooks : List Hook) (tasks : List TaskRef) :
    removeHooks destroyHooks tasks =
      some (tasks.filter fun t => decide (Hook.task t ∉ destroyHooks)) := by
  induction destroyHooks generalizing tasks with
  | nil => simp [removeHooks]
  | cons hook rest ih =>
    unfold removeHooks
    rw [removeHookFrom_eq hook tasks.length tasks (Nat.le_refl _)]
    simp only [List.take_length, List.drop_length, List.append_nil]
    rw [ih, List.filter_filter]
    congr 1
    apply List.filter_congr
    intro t _
    by_cases h1 : hook = Hook.task t
    · simp [h1]
    · have h2 : ¬ Hook.task t = hook := fun e => h1 e.symm
      simp [h1, h2]

theorem environment_of_registered (envs : Manager) (environmentId : ID) (env : Environment)
    (hid : environmentId.length ≠ 0) (hreg : envs.m.get environmentId = some env) :
    envs.environment environmentId = (some env, none) := by
  simp [Manager.environment, hid, hreg]

theorem environment_found (envs : Manager) (environmentId : ID) (env : Environment)
    (h : envs.environment environmentId = (some env, none)) :
    envs.m.get environmentId = some env := by
  unfold Manager.environment at h
  split at h
  · simp at h
  · split at h
    · rename_i e he
      simp at h
      rw [he, h]
    · simp at h

/-- C6: for a registered environment whose state is not `STANDBY`,
`TeardownEnvironment(id, false)` returns an error and changes nothing: the manager
(registry, routing maps, environments) is as before, and the call has no effect at all
(no channel closed, no message sent). -/
theorem TeardownEnvironment_refused (envs : Manager) (environmentId : ID) (env : Environment)
    (inp : TeardownInputs) (hreg : envs.m.get environmentId = some env)
    (hstate : env.currentState ≠ "STANDBY") :
    (∃ err, (envs.TeardownEnvironment environmentId false inp).ret
      = Ret.returned (some err)) ∧
    (envs.TeardownEnvironment environmentId false inp).envs = envs ∧
    (envs.TeardownEnvironment environmentId false inp).trace = [] := by
  by_cases hid : environmentId.length = 0
  · have h : envs.environment environmentId = (none, some (Error.invalidId environmentId)) := by
      simp [Manager.environment, hid]
    simp [Manager.TeardownEnvironment, h]
  · have h := environment_of_registered envs environmentId env hid hreg
    simp [Manager.TeardownEnvironment, h, hstate]

theorem TeardownEnvironment_unfold (envs : Manager) (environmentId : ID) (env : Environment)
    (force : Bool) (inp : TeardownInputs)
    (hfound : envs.environment environmentId = (some env, none))
    (hguard : env.currentState = "STANDBY" ∨ force = true) :
    envs.TeardownEnvironment environmentId force inp =
      match (awaitingFirst envs environmentId).awaitTasksReleased envs.nextChan
          inp.firstReleased with
      | none =>
        { envs := awaitingFirst envs environmentId,
          trace := traceToFirst envs env environmentId, ret := Ret.blocked }
      | some (envs3, delivery, incomingEv) =>
        if incomingEv.taskReleaseErrors.length > 0 then
          { envs := envs3,
            trace := traceToFirst envs env environmentId ++ delivery
              ++ logReleaseErrors incomingEv.taskReleaseErrors,
            ret := Ret.returned (some (Error.tasksFailedToRelease
              incomingEv.taskReleaseErrors.length environmentId)) }
        else
          envs3.teardownHooks env environmentId (destroyHooksOf env) inp
            (traceToFirst envs env environmentId ++ delivery) := by
  have hg : ¬ (env.currentState ≠ "STANDBY" ∧ ¬ force = true) := by
    rcases hguard with h | h
    · simp [h]
    · simp [h]
  unfold Manager.TeardownEnvironment
  simp only [hfound, hg, if_false]
  have hrm := removeHooks_eq (destroyHooksOf env) env.workflow.GetTasks
  unfold destroyHooksOf at hrm
  simp only [hrm]
  rfl

theorem teardownHooks_unfold (envs : Manager) (env : Environment) (environmentId : ID)
    (destroyHooks : List Hook) (inp : TeardownInputs) (trace : List Effect) :
    envs.teardownHooks env environmentId destroyHooks inp trace =
      match ({ envs with
          nextChan := envs.nextChan + 1
          pendingTeardownsCh := envs.pendingTeardownsCh.set environmentId envs.nextChan }
            : Manager).awaitTasksReleased envs.nextChan inp.secondReleased with
      | none =>
        { envs := { envs with
            nextChan := envs.nextChan + 1
            pendingTeardownsCh := envs.pendingTeardownsCh.set environmentId envs.nextChan },
          trace := trace ++ traceToSecond envs environmentId destroyHooks inp,
          ret := Ret.blocked }
      | some (envs3, delivery, incomingEv) =>
        if incomingEv.taskReleaseErrors.length > 0 then
          { envs := envs3,
            trace := trace ++ traceToSecond envs environmentId destroyHooks inp ++ delivery
              ++ logReleaseErrors incomingEv.taskReleaseErrors,
            ret := Ret.returned (some (Error.tasksFailedToRelease
              incomingEv.taskReleaseErrors.length environmentId)) }
        else
          { envs := { envs3 with m := envs3.m.delete environmentId },
            trace := trace ++ traceToSecond envs environmentId destroyHooks inp ++ delivery
              ++ [Effect.sendEnvironmentEvent env.id "DONE",
                Effect.unsubscribeFromWfState env.id],
            ret := Ret.returned inp.hooksError } := by
  unfold Manager.teardownHooks traceToSecond
  simp only [List.append_assoc]

/-- What a completed receive tells: the event is the one delivered, the registry is
untouched, and the delivery is followed by the close of the channel. -/
theorem awaitTasksReleased_some (envs envs3 : Manager) (pendingCh : Chan)
    (delivered : Option TasksReleasedEvent) (delivery : List Effect)
    (ev : TasksReleasedEvent)
    (h : envs.awaitTasksReleased pendingCh delivered = some (envs3, delivery, ev)) :
    delivered = some ev ∧ envs3.m = envs.m ∧ envs3.nextChan = envs.nextChan ∧
      envs3.pendingTeardownsCh = envs.pendingTeardownsCh.delete ev.envId ∧
      delivery = [Effect.deliverTasksReleased pendingCh ev, Effect.close pendingCh] := by
  unfold Manager.awaitTasksReleased at h
  cases delivered with
  | none => simp at h
  | some e =>
    simp only at h
    split at h
    · rename_i hget
      simp only [Manager.routeTasksReleased, hget, Option.some.injEq, Prod.mk.injEq] at h
      obtain ⟨h1, h2, h3⟩ := h
      subst h3
      subst h1
      exact ⟨rfl, rfl, rfl, rfl, h2.symm⟩
    · simp at h

theorem awaitTasksReleased_own (envs : Manager) (environmentId : ID) (ch : Chan)
    (ev : TasksReleasedEvent) (hev : ev.envId = environmentId)
    (hch : envs.pendingTeardownsCh.get environmentId = some ch) :
    envs.awaitTasksReleased ch (some ev) =
      some ({ envs with pendingTeardownsCh := envs.pendingTeardownsCh.delete environmentId },
        [Effect.deliverTasksReleased ch ev, Effect.close ch], ev) := by
  subst hev
  simp [Manager.awaitTasksReleased, Manager.routeTasksReleased, hch]

theorem awaitingFirst_get (envs : Manager) (environmentId : ID) :
    (awaitingFirst envs environmentId).pendingTeardownsCh.get environmentId
      = some envs.nextChan := by
  simp [awaitingFirst, GoMap.get_set]

/-- C7 (counterexample): the forced teardown of a registered environment returns with the
environment still in the registry when the first release reports an error. -/
theorem TeardownEnvironment_force_keeps_registered :
    (sampleManager.TeardownEnvironment "env1" true sampleFailedRelease).ret
      = Ret.returned (some (Error.tasksFailedToRelease 1 "env1")) ∧
    ((sampleManager.TeardownEnvironment "env1" true sampleFailedRelease).envs.m.get
      "env1").isSome = true := by
  decide

/-- C7 (amended): when the forced teardown of a registered environment returns, the
event of the first release was delivered; if it reported release errors, the call
returned the "tasks failed to release" error and the registry is as it was; if not, the
event of the second release was delivered too, with the same outcome when it reported
errors; only when neither reported an error is the environment out of the registry. -/
theorem TeardownEnvironment_force_removes (envs : Manager) (environmentId : ID)
    (env : Environment) (inp : TeardownInputs) (res : Option Error)
    (hid : environmentId.length ≠ 0) (hreg : envs.m.get environmentId = some env)
    (hret : (envs.TeardownEnvironment environmentId true inp).ret = Ret.returned res) :
    ((∀ ev, (inp.firstReleased = some ev ∨ inp.secondReleased = some ev) →
        ev.taskReleaseErrors.length = 0) →
      (envs.TeardownEnvironment environmentId true inp).envs.m.get environmentId = none) ∧
    (∃ ev1, inp.firstReleased = some ev1 ∧
      ((0 < ev1.taskReleaseErrors.length ∧
          res = some (Error.tasksFailedToRelease ev1.taskReleaseErrors.length environmentId) ∧
          (envs.TeardownEnvironment environmentId true inp).envs.m = envs.m) ∨
        (ev1.taskReleaseErrors.length = 0 ∧ ∃ ev2, inp.secondReleased = some ev2 ∧
          ((0 < ev2.taskReleaseErrors.length ∧
              res = some (Error.tasksFailedToRelease ev2.taskReleaseErrors.length
                environmentId) ∧
              (envs.TeardownEnvironment environmentId true inp).envs.m = envs.m) ∨
            (ev2.taskReleaseErrors.length = 0 ∧ res = inp.hooksError ∧
              (envs.TeardownEnvironment environmentId true inp).envs.m
                = envs.m.delete environmentId ∧
              (envs.TeardownEnvironment environmentId true inp).envs.m.get environmentId
                = none))))) := by
  have hfound := environment_of_registered envs environmentId env hid hreg
  rw [TeardownEnvironment_unfold envs environmentId env true inp hfound (Or.inr rfl)] at hret ⊢
  cases ha : (awaitingFirst envs environmentId).awaitTasksReleased envs.nextChan
      inp.firstReleased with
  | none => simp [ha] at hret
  | some x =>
    obtain ⟨envs3, delivery, ev⟩ := x
    obtain ⟨h1, h2, h3, h4, h5⟩ := awaitTasksReleased_some _ _ _ _ _ _ ha
    have h2 : envs3.m = envs.m := h2
    simp only [ha] at hret ⊢
    by_cases herr : ev.taskReleaseErrors.length > 0
    · simp only [herr, if_true] at hret ⊢
      simp only [Ret.returned.injEq] at hret
      refine ⟨fun hno => ?_, ev, h1, Or.inl ⟨herr, hret.symm, h2⟩⟩
      have := hno ev (Or.inl h1)
      omega
    · simp only [herr, if_false] at hret ⊢
      rw [teardownHooks_unfold] at hret ⊢
      cases hb : ({ envs3 with
          nextChan := envs3.nextChan + 1
          pendingTeardownsCh := envs3.pendingTeardownsCh.set environmentId envs3.nextChan }
            : Manager).awaitTasksReleased envs3.nextChan inp.secondReleased with
      | none => simp [hb] at hret
      | some y =>
        obtain ⟨envs5, delivery2, ev2⟩ := y
        obtain ⟨k1, k2, k3, k4, k5⟩ := awaitTasksReleased_some _ _ _ _ _ _ hb
        have k2 : envs5.m = envs.m := by rw [k2]; exact h2
        simp only [hb] at hret ⊢
        by_cases herr2 : ev2.taskReleaseErrors.length > 0
        · simp only [herr2, if_true] at hret ⊢
          simp only [Ret.returned.injEq] at hret
          refine ⟨fun hno => ?_, ev, h1, Or.inr ⟨by omega, ev2, k1,
            Or.inl ⟨herr2, hret.symm, k2⟩⟩⟩
          have := hno ev2 (Or.inr k1)
          omega
        · simp only [herr2, if_false] at hret ⊢
          simp only [Ret.returned.injEq] at hret
          refine ⟨fun _ => GoMap.get_delete_self _ _, ev, h1, Or.inr ⟨by omega, ev2, k1,
            Or.inr ⟨by omega, hret.symm, by rw [k2], GoMap.get_delete_self _ _⟩⟩⟩

/-- Witness of C7 (amended): the forced teardown of the running sample environment, with
two clean releases, returns and removes it. -/
theorem TeardownEnvironment_force_removes_witness :
    (sampleManager.TeardownEnvironment "env1" true sampleCleanRelease).ret
      = Ret.returned none ∧
    (sampleManager.TeardownEnvironment "env1" true sampleCleanRelease).envs.m.get "env1"
      = none :=
  have hret : (sampleManager.TeardownEnvironment "env1" true sampleCleanRelease).ret
      = Ret.returned none := by decide
  ⟨hret, (TeardownEnvironment_force_removes sampleManager "env1" sampleEnvironment
    sampleCleanRelease none (by decide) rfl hret).1 (by
      intro ev hev
      rcases hev with h | h <;> simp [sampleCleanRelease] at h <;> subst h <;> rfl)⟩

/-- Witness of C6: the teardown without force of the running sample environment. -/
theorem TeardownEnvironment_refused_witness :
    sampleManager.m.get "env1" = some sampleEnvironment ∧
    sampleEnvironment.currentState ≠ "STANDBY" ∧
    (sampleManager.TeardownEnvironment "env1" false sampleCleanRelease).envs = sampleManager ∧
    (sampleManager.TeardownEnvironment "env1" false sampleCleanRelease).trace = [] :=
  ⟨rfl, by decide,
    (TeardownEnvironment_refused sampleManager "env1" sampleEnvironment sampleCleanRelease
      rfl (by decide)).2⟩

theorem releases_append (a b : List Effect) : releases (a ++ b) = releases a ++ releases b := by
  simp [releases, List.filterMap_append]

theorem teardownPrelude_quiet (envs : Manager) (env : Environment) (environmentId : ID)
    (e : Effect) (he : e ∈ teardownPrelude envs env environmentId) :
    isHookInvocation e = false ∧ releases [e] = [] := by
  unfold teardownPrelude at he
  rcases List.mem_append.1 he with h | h
  · cases hg : envs.pendingStateChangeCh.get environmentId with
    | none => simp [hg] at h
    | some ch =>
      simp [hg] at h
      subst h
      exact ⟨rfl, rfl⟩
  · obtain ⟨c, -, rfl⟩ := List.mem_map.1 h
    exact ⟨rfl, rfl⟩

theorem releases_eq_nil (l : List Effect) (h : ∀ e ∈ l, releases [e] = []) :
    releases l = [] := by
  induction l with
  | nil => rfl
  | cons a l ih =>
    have h1 := h a (by simp)
    have h2 := ih (fun e he => h e (by simp [he]))
    have : releases (a :: l) = releases [a] ++ releases l := releases_append [a] l
    rw [this, h1, h2]; rfl

theorem releases_teardownPrelude (envs : Manager) (env : Environment) (environmentId : ID) :
    releases (teardownPrelude envs env environmentId) = [] :=
  releases_eq_nil _ fun e he => (teardownPrelude_quiet envs env environmentId e he).2

theorem releases_traceToFirst (envs : Manager) (env : Environment) (environmentId : ID) :
    releases (traceToFirst envs env environmentId) =
      [(NewEnvironmentMessage MessageType.ReleaseTasks environmentId (releaseSet env))] := by
  unfold traceToFirst
  rw [releases_append, releases_teardownPrelude]
  rfl

theorem releases_traceToSecond (envs : Manager) (environmentId : ID) (destroyHooks : List Hook)
    (inp : TeardownInputs) :
    releases (traceToSecond envs environmentId destroyHooks inp) =
      [(NewEnvironmentMessage MessageType.ReleaseTasks environmentId (FilterTasks destroyHooks))] := by
  unfold traceToSecond
  cases inp.hooksError <;> simp [releases]

theorem releases_logReleaseErrors (errs : GoMap String String) :
    releases (logReleaseErrors errs) = [] :=
  releases_eq_nil _ fun e he => by
    obtain ⟨x, -, rfl⟩ := List.mem_map.1 he
    rfl

theorem traceToFirst_quiet (envs : Manager) (env : Environment) (environmentId : ID)
    (e : Effect) (he : e ∈ traceToFirst envs env environmentId) :
    isHookInvocation e = false := by
  unfold traceToFirst at he
  rcases List.mem_append.1 he with h | h
  · exact (teardownPrelude_quiet envs env environmentId e h).1
  · simp at h
    rcases h with rfl | rfl <;> rfl

theorem logReleaseErrors_quiet (errs : GoMap String String) (e : Effect)
    (he : e ∈ logReleaseErrors errs) : isHookInvocation e = false := by
  obtain ⟨x, -, rfl⟩ := List.mem_map.1 he
  rfl

/-- C8 (counterexample): with one task release error in the event of the first release,
the forced teardown of the sample environment returns the error for `n = 1` but invokes
neither the call-kind nor the task-kind cleanup hooks, and dispatches only one
release. -/
theorem TeardownEnvironment_no_cleanup_after_failure :
    (sampleManager.TeardownEnvironment "env1" true sampleFailedRelease).ret
      = Ret.returned (some (Error.tasksFailedToRelease 1 "env1")) ∧
    destroyHooksOf sampleEnvironment = [Hook.call 10, Hook.task 3, Hook.task 4] ∧
    Effect.CallAll [10] ∉
      (sampleManager.TeardownEnvironment "env1" true sampleFailedRelease).trace ∧
    Effect.TriggerHooks [3, 4] ∉
      (sampleManager.TeardownEnvironment "env1" true sampleFailedRelease).trace ∧
    releases (sampleManager.TeardownEnvironment "env1" true sampleFailedRelease).trace
      = [{ op := MessageType.ReleaseTasks, envId := "env1", tasks := [1, 2] }] := by
  decide

/-- C8 (amended): when the event of the first release reports `n > 0` task release
errors, `TeardownEnvironment` returns an error that reports `n`, the number of entries
of the error map, and stops there: no cleanup hook is invoked, the only release
dispatched is the first one, and the registry is as it was. -/
theorem TeardownEnvironment_release_failed (envs : Manager) (environmentId : ID)
    (env : Environment) (force : Bool) (inp : TeardownInputs) (ev : TasksReleasedEvent)
    (hfound : envs.environment environmentId = (some env, none))
    (hguard : env.currentState = "STANDBY" ∨ force = true)
    (hfirst : inp.firstReleased = some ev) (hev : ev.envId = environmentId)
    (hn : 0 < ev.taskReleaseErrors.length) :
    (envs.TeardownEnvironment environmentId force inp).ret
      = Ret.returned (some (Error.tasksFailedToRelease ev.taskReleaseErrors.length
          environmentId)) ∧
    (∀ e ∈ (envs.TeardownEnvironment environmentId force inp).trace,
      isHookInvocation e = false) ∧
    releases (envs.TeardownEnvironment environmentId force inp).trace
      = [(NewEnvironmentMessage MessageType.ReleaseTasks environmentId (releaseSet env))] ∧
    (envs.TeardownEnvironment environmentId force inp).envs.m = envs.m := by
  rw [TeardownEnvironment_unfold envs environmentId env force inp hfound hguard, hfirst,
    awaitTasksReleased_own _ environmentId envs.nextChan ev hev
      (awaitingFirst_get envs environmentId)]
  simp only
  rw [if_pos hn]
  refine ⟨rfl, ?_, ?_, rfl⟩
  · intro e he
    rcases List.mem_append.1 he with h | h
    · rcases List.mem_append.1 h with h | h
      · exact traceToFirst_quiet envs env environmentId e h
      · simp at h
        rcases h with rfl | rfl <;> rfl
    · exact logReleaseErrors_quiet _ e h
  · rw [releases_append, releases_append, releases_traceToFirst, releases_logReleaseErrors]
    rfl

/-- Witness of C8 (amended) on the sample environment. -/
theorem TeardownEnvironment_release_failed_witness :
    (sampleManager.TeardownEnvironment "env1" true sampleFailedRelease).ret
      = Ret.returned (some (Error.tasksFailedToRelease 1 "env1")) ∧
    (sampleManager.TeardownEnvironment "env1" true sampleFailedRelease).envs.m
      = sampleManager.m :=
  have h := TeardownEnvironment_release_failed sampleManager "env1" sampleEnvironment true
    sampleFailedRelease { envId := "env1", taskReleaseErrors := [("task1", "not released")] }
    rfl (Or.inr rfl) rfl rfl (by decide)
  ⟨h.1, h.2.2.2⟩

/-- C9: in a teardown that is not refused, with `T` the tasks of the workflow and `H`
the `DESTROY` hooks followed by the `after_DESTROY` hooks, the first release message
carries exactly `T` without the elements that occur in `H`, in their original order; if
cleanup hooks are invoked at all, that message was sent and its `TasksReleased` event
received before the first invocation; a second release message, if any, carries
exactly the task-kind hooks of `H`, and it is sent whenever the first release went
without error. -/
theorem TeardownEnvironment_release_order (envs : Manager) (environmentId : ID)
    (env : Environment) (force : Bool) (inp : TeardownInputs)
    (hfound : envs.environment environmentId = (some env, none))
    (hguard : env.currentState = "STANDBY" ∨ force = true) :
    removeHooks (destroyHooksOf env) env.workflow.GetTasks = some (releaseSet env) ∧
    releaseSet env
      = env.workflow.GetTasks.filter (fun t => decide (Hook.task t ∉ destroyHooksOf env)) ∧
    (releases (envs.TeardownEnvironment environmentId force inp).trace
        = [(NewEnvironmentMessage MessageType.ReleaseTasks environmentId (releaseSet env))] ∨
      releases (envs.TeardownEnvironment environmentId force inp).trace
        = [(NewEnvironmentMessage MessageType.ReleaseTasks environmentId (releaseSet env)),
           (NewEnvironmentMessage MessageType.ReleaseTasks environmentId
             (FilterTasks (destroyHooksOf env)))]) ∧
    ((∃ e ∈ (envs.TeardownEnvironment environmentId force inp).trace,
        isHookInvocation e = true) →
      ∃ ev, inp.firstReleased = some ev ∧
        List.Sublist
          [Effect.sendTaskman (NewEnvironmentMessage MessageType.ReleaseTasks environmentId (releaseSet env)),
            Effect.deliverTasksReleased envs.nextChan ev]
          ((envs.TeardownEnvironment environmentId force inp).trace.takeWhile
            fun e => !isHookInvocation e)) ∧
    (∀ ev, inp.firstReleased = some ev → ev.envId = environmentId →
      ev.taskReleaseErrors.length = 0 →
      releases (envs.TeardownEnvironment environmentId force inp).trace
        = [(NewEnvironmentMessage MessageType.ReleaseTasks environmentId (releaseSet env)),
           (NewEnvironmentMessage MessageType.ReleaseTasks environmentId
             (FilterTasks (destroyHooksOf env)))]) := by
  refine ⟨removeHooks_eq _ _, rfl, ?_⟩
  rw [TeardownEnvironment_unfold envs environmentId env force inp hfound hguard]
  -- the trace of the second half
  have second : ∀ (envs3 : Manager) (delivery : List Effect) (ev : TasksReleasedEvent),
      delivery = [Effect.deliverTasksReleased envs.nextChan ev, Effect.close envs.nextChan] →
      releases (envs3.teardownHooks env environmentId (destroyHooksOf env) inp
          (traceToFirst envs env environmentId ++ delivery)).trace
        = [(NewEnvironmentMessage MessageType.ReleaseTasks environmentId (releaseSet env)),
           (NewEnvironmentMessage MessageType.ReleaseTasks environmentId
             (FilterTasks (destroyHooksOf env)))] ∧
      List.Sublist
        [Effect.sendTaskman (NewEnvironmentMessage MessageType.ReleaseTasks environmentId (releaseSet env)),
          Effect.deliverTasksReleased envs.nextChan ev]
        ((envs3.teardownHooks env environmentId (destroyHooksOf env) inp
          (traceToFirst envs env environmentId ++ delivery)).trace.takeWhile
            fun e => !isHookInvocation e) := by
    intro envs3 delivery ev hd
    subst hd
    have hquiet : ∀ a ∈ traceToFirst envs env environmentId ++
        [Effect.deliverTasksReleased envs.nextChan ev, Effect.close envs.nextChan],
        (!isHookInvocation a) = true := by
      intro a ha
      rcases List.mem_append.1 ha with h | h
      · simp [traceToFirst_quiet envs env environmentId a h]
      · simp at h
        rcases h with rfl | rfl <;> rfl
    have hsub : List.Sublist
        [Effect.sendTaskman (NewEnvironmentMessage MessageType.ReleaseTasks environmentId (releaseSet env)),
          Effect.deliverTasksReleased envs.nextChan ev]
        (traceToFirst envs env environmentId ++
          [Effect.deliverTasksReleased envs.nextChan ev, Effect.close envs.nextChan]) := by
      unfold traceToFirst
      rw [List.append_assoc]
      apply List.Sublist.trans _ (List.sublist_append_right _ _)
      exact List.Sublist.cons _ (List.Sublist.cons₂ _ (List.Sublist.cons₂ _
        (List.Sublist.cons _ List.Sublist.slnil)))
    have htw : ∀ rest : List Effect,
        (traceToFirst envs env environmentId ++
          [Effect.deliverTasksReleased envs.nextChan ev, Effect.close envs.nextChan]
          ++ traceToSecond envs3 environmentId (destroyHooksOf env) inp ++ rest).takeWhile
            (fun e => !isHookInvocation e)
          = traceToFirst envs env environmentId ++
            [Effect.deliverTasksReleased envs.nextChan ev, Effect.close envs.nextChan] := by
      intro rest
      rw [List.append_assoc, List.takeWhile_append_of_pos hquiet]
      simp [traceToSecond, isHookInvocation]
    rw [teardownHooks_unfold]
    split
    · simp only
      have := htw []
      rw [List.append_nil] at this
      refine ⟨?_, by rw [this]; exact hsub⟩
      rw [releases_append, releases_append, releases_traceToFirst, releases_traceToSecond]
      rfl
    · rename_i envs5 delivery2 ev2 hb
      obtain ⟨-, -, -, -, k5⟩ := awaitTasksReleased_some _ _ _ _ _ _ hb
      subst k5
      split
      · simp only
        refine ⟨?_, by rw [List.append_assoc _ _ (logReleaseErrors _), htw]; exact hsub⟩
        rw [releases_append, releases_append, releases_append, releases_append,
          releases_traceToFirst, releases_traceToSecond, releases_logReleaseErrors]
        rfl
      · simp only
        refine ⟨?_, by rw [List.append_assoc _ _ [_, _], htw]; exact hsub⟩
        rw [releases_append, releases_append, releases_append, releases_append,
          releases_traceToFirst, releases_traceToSecond]
        rfl
  cases ha : (awaitingFirst envs environmentId).awaitTasksReleased envs.nextChan
      inp.firstReleased with
  | none =>
    simp only
    refine ⟨Or.inl (releases_traceToFirst envs env environmentId), ?_, ?_⟩
    · rintro ⟨e, he, hinv⟩
      rw [traceToFirst_quiet envs env environmentId e he] at hinv
      exact absurd hinv (by decide)
    · intro ev hev hid _
      rw [hev, awaitTasksReleased_own _ environmentId envs.nextChan ev hid
        (awaitingFirst_get envs environmentId)] at ha
      simp at ha
  | some x =>
    obtain ⟨envs3, delivery, ev⟩ := x
    obtain ⟨h1, -, -, -, h5⟩ := awaitTasksReleased_some _ _ _ _ _ _ ha
    simp only
    by_cases herr : ev.taskReleaseErrors.length > 0
    · simp only [herr, if_true]
      have hrel : releases (traceToFirst envs env environmentId ++ delivery
          ++ logReleaseErrors ev.taskReleaseErrors)
          = [(NewEnvironmentMessage MessageType.ReleaseTasks environmentId (releaseSet env))] := by
        rw [releases_append, releases_append, releases_traceToFirst,
          releases_logReleaseErrors, h5]
        rfl
      refine ⟨Or.inl hrel, ?_, ?_⟩
      · rintro ⟨e, he, hinv⟩
        exfalso
        have hq : isHookInvocation e = false := by
          rcases List.mem_append.1 he with h | h
          · rcases List.mem_append.1 h with h | h
            · exact traceToFirst_quiet envs env environmentId e h
            · rw [h5] at h
              simp at h
              rcases h with rfl | rfl <;> rfl
          · exact logReleaseErrors_quiet _ e h
        rw [hq] at hinv
        exact absurd hinv (by decide)
      · intro ev2 hev2 _ hlen
        rw [h1] at hev2
        cases hev2
        omega
    · simp only [herr, if_false]
      have hs := second envs3 delivery ev h5
      exact ⟨Or.inr hs.1, fun _ => ⟨ev, h1, hs.2⟩, fun _ _ _ _ => hs.1⟩

/-- Witness of C9 on the sample environment: tasks `[1, 2, 3, 4]`, hooks
`[call 10, task 3, task 4]`; the releases are `[1, 2]`, then `[3, 4]`. -/
theorem TeardownEnvironment_release_order_witness :
    sampleManager.environment "env1" = (some sampleEnvironment, none) ∧
    releases (sampleManager.TeardownEnvironment "env1" true sampleCleanRelease).trace
      = [{ op := MessageType.ReleaseTasks, envId := "env1", tasks := [1, 2] },
         { op := MessageType.ReleaseTasks, envId := "env1", tasks := [3, 4] }] :=
  ⟨rfl, (TeardownEnvironment_release_order sampleManager "env1" sampleEnvironment true
    sampleCleanRelease rfl (Or.inr rfl)).2.2.2.2
      { envId := "env1", taskReleaseErrors := [] } rfl rfl rfl⟩

/-- Events routed by environment id do nothing when the id is in neither routing map:
the demultiplexer returns, with the manager as it was and no effect. -/
theorem demuxStep_routed_unknown (envs : Manager) :
    (∀ ev : TasksReleasedEvent, envs.pendingTeardownsCh.get ev.envId = none →
      (envs.demuxStep (Event.tasksReleased ev)).envs = envs ∧
      (envs.demuxStep (Event.tasksReleased ev)).trace = [] ∧
      (envs.demuxStep (Event.tasksReleased ev)).ret = Ret.returned ()) ∧
    (∀ ev : TasksStateChangedEvent, envs.pendingStateChangeCh.get ev.envId = none →
      (envs.demuxStep (Event.tasksStateChanged ev)).envs = envs ∧
      (envs.demuxStep (Event.tasksStateChanged ev)).trace = [] ∧
      (envs.demuxStep (Event.tasksStateChanged ev)).ret = Ret.returned ()) := by
  constructor
  · intro ev h
    simp [Manager.demuxStep, Manager.routeTasksReleased, h]
  · intro ev h
    simp [Manager.demuxStep, Manager.routeTasksStateChanged, h]

/-- C10: a `BASIC_TASK_TERMINATED` event of a hook task that the task manager knows, for
an environment id that is in neither the registry nor the routing maps, makes the
demultiplexer panic: the lookup fails, the failure is logged, and `NotifyEvent` is still
called on the nil environment. The events that follow are never handled. -/
theorem demux_panics_on_unregistered_environment :
    (sampleManager.m.get "env0").isNone = true ∧
    (sampleManager.pendingTeardownsCh.get "env0").isNone = true ∧
    (sampleManager.pendingStateChangeCh.get "env0").isNone = true ∧
    sampleManager.taskman.get "task9" = some sampleOrphanTask ∧
    sampleOrphanTask.environmentId = "env0" ∧
    (sampleManager.demuxStep sampleOrphanEvent).ret = Ret.panicked ∧
    (sampleManager.demuxStep sampleOrphanEvent).trace
      = [Effect.log "basic task terminated", Effect.taskSendEvent "task9",
         Effect.SetRuntimeVars "task9",
         Effect.log "cannot find environment for DeviceEvent"] ∧
    (sampleManager.demux
      [sampleOrphanEvent, Event.tasksStateChanged { envId := "env1" }]).ret = Ret.panicked := by
  decide

/-! ## Hook tasks in `handleDeviceEvent` -/

/-- C11 (counterexample): an `END_OF_STREAM` event of a task whose control mode is
`HOOK`, in a running environment, is not forwarded to the environment: the task is
marked safe to stop and the stop check is spawned. -/
theorem handleDeviceEvent_hook_END_OF_STREAM :
    sampleManager.taskman.get "task3" = some sampleHookTask ∧
    sampleHookTask.controlMode = ControlMode.HOOK ∧
    (sampleManager.handleDeviceEvent (some sampleHookEndOfStream)).ret = Ret.returned () ∧
    (sampleManager.handleDeviceEvent (some sampleHookEndOfStream)).trace
      = [Effect.goStopIfSafeToStop "env1"] ∧
    ((sampleManager.handleDeviceEvent (some sampleHookEndOfStream)).envs.taskman.get "task3").map
      (fun t => t.safeToStop) = some true := by
  decide

/-- C11 (amended): for a `BASIC_TASK_TERMINATED` event (a `*event.BasicTaskTerminated`)
of a known task with control mode `HOOK`, a role for parent and a registered
environment, the event is forwarded to that environment and handling stops there,
whatever the state of the environment: the manager is as it was, so the task is not
marked safe to stop, and no stop check is spawned. An `END_OF_STREAM` event is handled
without regard to the control mode: in a running environment the task is marked safe to
stop and the stop check is spawned. -/
theorem handleDeviceEvent_hook (envs : Manager) (evt : DeviceEvent) (t : Task)
    (env : Environment) (ht : envs.taskman.get evt.taskId = some t)
    (hhook : t.controlMode = ControlMode.HOOK)
    (hfound : envs.environment t.environmentId = (some env, none)) :
    (evt.type = DeviceEventType.BASIC_TASK_TERMINATED → evt.isBasicTaskTerminated = true →
      t.parentIsRole = true →
      (envs.handleDeviceEvent (some evt)).ret = Ret.returned () ∧
      (envs.handleDeviceEvent (some evt)).envs = envs ∧
      (envs.handleDeviceEvent (some evt)).trace
        = [Effect.log "basic task terminated", Effect.taskSendEvent evt.taskId,
           Effect.SetRuntimeVars evt.taskId, Effect.NotifyEvent env.id evt]) ∧
    (evt.type = DeviceEventType.END_OF_STREAM → env.currentState = "RUNNING" →
      (envs.handleDeviceEvent (some evt)).ret = Ret.returned () ∧
      (envs.handleDeviceEvent (some evt)).envs.taskman
        = envs.taskman.set evt.taskId { t with safeToStop := true } ∧
      (envs.handleDeviceEvent (some evt)).trace = [Effect.goStopIfSafeToStop env.id]) := by
  constructor
  · intro htype hbtt hrole
    simp [Manager.handleDeviceEvent, htype, hbtt, ht, hrole, hhook, hfound, NotifyEvent,
      logCannotFind]
  · intro htype hrun
    simp [Manager.handleDeviceEvent, Manager.handleEndOfStream, htype, ht, hfound,
      CurrentState, logCannotFind, hrun]

/-- Witness of C11 (amended): the `BASIC_TASK_TERMINATED` event of the hook task `task3`
is forwarded to the running environment `env1`. -/
theorem handleDeviceEvent_hook_witness :
    (sampleManager.handleDeviceEvent (some sampleHookTerminated)).ret = Ret.returned () ∧
    (sampleManager.handleDeviceEvent (some sampleHookTerminated)).envs = sampleManager ∧
    (sampleManager.handleDeviceEvent (some sampleHookTerminated)).trace
      = [Effect.log "basic task terminated", Effect.taskSendEvent "task3",
         Effect.SetRuntimeVars "task3", Effect.NotifyEvent "env1" sampleHookTerminated] :=
  (handleDeviceEvent_hook sampleManager sampleHookTerminated sampleHookTask sampleEnvironment
    rfl rfl rfl).1 rfl rfl rfl

/-! ## The variable `environment_id` -/

/-- When the creation goes well, `CreateEnvironment` registers an environment whose user
variables hold its own id under `environment_id`, whatever the input map holds. -/
theorem CreateEnvironment_environment_id (envs : Manager) (workflowPath : String)
    (userVars : GoMap String String) (inp : CreateInputs) (workflow : Workflow)
    (hnew : inp.newEnvironmentError = none)
    (hload : loadWorkflow workflowPath inp.loaded = Except.ok workflow)
    (hconf : inp.configure.err = none) :
    registeredEnvironmentId (envs.CreateEnvironment workflowPath userVars inp).envs inp.newId
      = some (some inp.newId) := by
  simp [Manager.CreateEnvironment, hnew, hload, hconf, registeredEnvironmentId,
    Manager.setState, Manager.register, newEnvironment, GoMap.get_set]

/-- C12: `CreateEnvironment` sets `environment_id` to the id of the new environment, also
over a value of the input map, but `CreateAutoEnvironment` does not: the environment
`env2` that it registers has no `environment_id` when the input map has none, and keeps
the value of the input map when it has one. -/
theorem CreateAutoEnvironment_no_environment_id :
    registeredEnvironmentId
      (sampleManager.CreateEnvironment "readout" [("environment_id", "other")]
        sampleCreateInputs).envs "env2" = some (some "env2") ∧
    (sampleManager.CreateAutoEnvironment "readout" [] sampleAutoInputs).ret
      = Ret.returned () ∧
    registeredEnvironmentId
      (sampleManager.CreateAutoEnvironment "readout" [] sampleAutoInputs).envs "env2"
      = some none ∧
    registeredEnvironmentId
      (sampleManager.CreateAutoEnvironment "readout" [("environment_id", "other")]
        sampleAutoInputs).envs "env2" = some (some "other") := by
  decide

/-! ## The lookup of an environment -/

/-- C13: the lookup `Environment(id)` changes nothing in the manager and has no effect;
it returns the "invalid id" error and no environment for the empty id, the "no
environment with id" error and no environment for an id that is not in the registry, and
the registered environment with no error otherwise. `TeardownEnvironment` starts with
the same lookup: it returns the error of a failed lookup with the manager as it was, and
goes on with the registered environment otherwise. -/
theorem Environment_lookup (envs : Manager) (environmentId : ID) :
    (envs.Environment environmentId).envs = envs ∧
    (envs.Environment environmentId).trace = [] ∧
    (envs.Environment environmentId).ret = Ret.returned (envs.environment environmentId) ∧
    (environmentId.length = 0 →
      envs.environment environmentId = (none, some (Error.invalidId environmentId))) ∧
    (environmentId.length ≠ 0 → envs.m.get environmentId = none →
      envs.environment environmentId = (none, some (Error.noEnvironment environmentId))) ∧
    (∀ env, environmentId.length ≠ 0 → envs.m.get environmentId = some env →
      envs.environment environmentId = (some env, none)) ∧
    (∀ err force inp, (envs.environment environmentId).2 = some err →
      (envs.TeardownEnvironment environmentId force inp).envs = envs ∧
      (envs.TeardownEnvironment environmentId force inp).trace = [] ∧
      (envs.TeardownEnvironment environmentId force inp).ret = Ret.returned (some err)) ∧
    (∀ env inp, envs.environment environmentId = (some env, none) →
      env.currentState ≠ "STANDBY" →
      (envs.TeardownEnvironment environmentId false inp).ret
        = Ret.returned (some (Error.cannotTeardown env.currentState))) := by
  refine ⟨rfl, rfl, rfl, ?_, ?_, ?_, ?_, ?_⟩
  · intro h
    simp [Manager.environment, h]
  · intro h1 h2
    simp [Manager.environment, h1, h2]
  · intro env h1 h2
    simp [Manager.environment, h1, h2]
  · intro err force inp h
    cases hl : envs.environment environmentId with
    | mk e er =>
      rw [hl] at h
      simp only at h
      subst h
      simp [Manager.TeardownEnvironment, hl]
  · intro env inp h hs
    simp [Manager.TeardownEnvironment, h, hs]

/-- Witness of C13 on the sample manager: the empty id, an unknown id, and the id of the
registered environment. -/
theorem Environment_lookup_witness :
    sampleManager.environment "" = (none, some (Error.invalidId "")) ∧
    sampleManager.environment "env0" = (none, some (Error.noEnvironment "env0")) ∧
    sampleManager.environment "env1" = (some sampleEnvironment, none) ∧
    (sampleManager.TeardownEnvironment "env0" true sampleCleanRelease).ret
      = Ret.returned (some (Error.noEnvironment "env0")) :=
  ⟨(Environment_lookup sampleManager "").2.2.2.1 rfl,
    (Environment_lookup sampleManager "env0").2.2.2.2.1 (by decide) rfl,
    (Environment_lookup sampleManager "env1").2.2.2.2.2.1 sampleEnvironment (by decide) rfl,
    ((Environment_lookup sampleManager "env0").2.2.2.2.2.2.1 (Error.noEnvironment "env0") true
      sampleCleanRelease rfl).2.2⟩

/-! ## The routing of `TasksReleased` events -/

theorem GoMap.get_delete_ne {κ ν : Type} [DecidableEq κ] (m : GoMap κ ν) (k k2 : κ)
    (h : k2 ≠ k) : (GoMap.delete m k).get k2 = m.get k2 := by
  induction m with
  | nil => simp [GoMap.delete, GoMap.get]
  | cons kv rest ih =>
    obtain ⟨k1, v1⟩ := kv
    by_cases h1 : k1 = k
    · subst h1
      have h2 : ¬ k1 = k2 := fun e => h e.symm
      have : GoMap.delete ((k1, v1) :: rest) k1 = GoMap.delete rest k1 := by
        simp [GoMap.delete]
      rw [this, ih]
      simp [GoMap.get, h2]
    · have : GoMap.delete ((k1, v1) :: rest) k = (k1, v1) :: GoMap.delete rest k := by
        simp [GoMap.delete, h1]
      rw [this]
      by_cases h2 : k1 = k2
      · simp [GoMap.get, h2]
      · simp [GoMap.get, h2, ih]

/-- C15: when a `TasksReleased` event for `id` arrives while a teardown channel is
registered for `id`, the demultiplexer delivers that event on the channel, closes the
channel and removes it from the map, and does nothing else: the registry, the state
channels, the tasks and the teardown channels of the other environments are unchanged;
a further `TasksReleased` event for `id` is then dropped, with no effect. -/
theorem demuxStep_TasksReleased (envs : Manager) (ev : TasksReleasedEvent) (ch : Chan)
    (h : envs.pendingTeardownsCh.get ev.envId = some ch) :
    (envs.demuxStep (Event.tasksReleased ev)).ret = Ret.returned () ∧
    (envs.demuxStep (Event.tasksReleased ev)).trace
      = [Effect.deliverTasksReleased ch ev, Effect.close ch] ∧
    (envs.demuxStep (Event.tasksReleased ev)).envs.pendingTeardownsCh
      = envs.pendingTeardownsCh.delete ev.envId ∧
    (envs.demuxStep (Event.tasksReleased ev)).envs.pendingTeardownsCh.get ev.envId = none ∧
    (∀ id, id ≠ ev.envId →
      (envs.demuxStep (Event.tasksReleased ev)).envs.pendingTeardownsCh.get id
        = envs.pendingTeardownsCh.get id) ∧
    (envs.demuxStep (Event.tasksReleased ev)).envs.m = envs.m ∧
    (envs.demuxStep (Event.tasksReleased ev)).envs.pendingStateChangeCh
      = envs.pendingStateChangeCh ∧
    (envs.demuxStep (Event.tasksReleased ev)).envs.taskman = envs.taskman ∧
    (∀ ev2 : TasksReleasedEvent, ev2.envId = ev.envId →
      ((envs.demuxStep (Event.tasksReleased ev)).envs.demuxStep (Event.tasksReleased ev2)).trace
        = [] ∧
      ((envs.demuxStep (Event.tasksReleased ev)).envs.demuxStep (Event.tasksReleased ev2)).envs
        = (envs.demuxStep (Event.tasksReleased ev)).envs ∧
      ((envs.demuxStep (Event.tasksReleased ev)).envs.demuxStep (Event.tasksReleased ev2)).ret
        = Ret.returned ()) := by
  have hstep : envs.demuxStep (Event.tasksReleased ev) =
      { envs := { envs with pendingTeardownsCh := envs.pendingTeardownsCh.delete ev.envId },
        trace := [Effect.deliverTasksReleased ch ev, Effect.close ch],
        ret := Ret.returned () } := by
    simp [Manager.demuxStep, Manager.routeTasksReleased, h]
  rw [hstep]
  refine ⟨rfl, rfl, rfl, GoMap.get_delete_self _ _, ?_, rfl, rfl, rfl, ?_⟩
  · intro id hid
    exact GoMap.get_delete_ne _ _ _ hid
  · intro ev2 h2
    have hnone : (envs.pendingTeardownsCh.delete ev.envId).get ev2.envId = none := by
      rw [h2]; exact GoMap.get_delete_self _ _
    simp [Manager.demuxStep, Manager.routeTasksReleased, hnone]

/-- Witness of C15: the sample manager while the teardown of `env1` waits for its first
release. -/
theorem demuxStep_TasksReleased_witness :
    (awaitingFirst sampleManager "env1").pendingTeardownsCh.get "env1" = some 1 ∧
    ((awaitingFirst sampleManager "env1").demuxStep
      (Event.tasksReleased { envId := "env1", taskReleaseErrors := [] })).trace
      = [Effect.deliverTasksReleased 1 { envId := "env1", taskReleaseErrors := [] },
         Effect.close 1] ∧
    ((awaitingFirst sampleManager "env1").demuxStep
      (Event.tasksReleased { envId := "env1", taskReleaseErrors := [] })).envs.pendingTeardownsCh
      = [] :=
  have h := demuxStep_TasksReleased (awaitingFirst sampleManager "env1")
    { envId := "env1", taskReleaseErrors := [] } 1 rfl
  ⟨rfl, h.2.1, h.2.2.1⟩

/-! ## The invariant of the state channels -/

theorem GoMap.mem_keys_set {κ ν : Type} [DecidableEq κ] (m : GoMap κ ν) (k x : κ) (v : ν) :
    x ∈ GoMap.keys (GoMap.set m k v) ↔ x = k ∨ x ∈ GoMap.keys m := by
  rw [GoMap.mem_keys_iff, GoMap.mem_keys_iff, ]
  simp only [GoMap.get_set]
  by_cases h : k = x
  · subst h; simp
  · have h2 : ¬ x = k := fun e => h e.symm
    simp [h, h2]

theorem GoMap.nodup_keys_set {κ ν : Type} [DecidableEq κ] (m : GoMap κ ν) (k : κ) (v : ν)
    (h : (GoMap.keys m).Nodup) : (GoMap.keys (GoMap.set m k v)).Nodup := by
  induction m with
  | nil => simp [GoMap.set, GoMap.keys]
  | cons kv rest ih =>
    obtain ⟨k1, v1⟩ := kv
    have hk : GoMap.keys ((k1, v1) :: rest) = k1 :: GoMap.keys rest := rfl
    rw [hk, List.nodup_cons] at h
    by_cases h1 : k1 = k
    · subst h1
      have : GoMap.set ((k1, v1) :: rest) k1 v = (k1, v) :: rest := by simp [GoMap.set]
      rw [this]
      have hk2 : GoMap.keys ((k1, v) :: rest) = k1 :: GoMap.keys rest := rfl
      rw [hk2, List.nodup_cons]
      exact h
    · have : GoMap.set ((k1, v1) :: rest) k v = (k1, v1) :: GoMap.set rest k v := by
        simp [GoMap.set, h1]
      rw [this]
      have hk2 : GoMap.keys ((k1, v1) :: GoMap.set rest k v)
          = k1 :: GoMap.keys (GoMap.set rest k v) := rfl
      rw [hk2, List.nodup_cons]
      refine ⟨?_, ih h.2⟩
      rw [GoMap.mem_keys_set]
      rintro (e | e)
      · exact h1 e
      · exact h.1 e

theorem GoMap.nodup_keys_delete {κ ν : Type} [DecidableEq κ] (m : GoMap κ ν) (k : κ)
    (h : (GoMap.keys m).Nodup) : (GoMap.keys (GoMap.delete m k)).Nodup := by
  unfold GoMap.keys GoMap.delete at *
  exact List.Nodup.sublist (List.Sublist.map _ (List.filter_sublist _)) h

theorem tornDown_append (a b : List Effect) : tornDown (a ++ b) = tornDown a ++ tornDown b := by
  simp [tornDown, releases_append]

theorem StateChInv_mono (envs : Manager) (started more : List ID)
    (h : StateChInv envs started) : StateChInv envs (started ++ more) :=
  ⟨h.1, fun id env hreg hnot => h.2 id env hreg (fun hm => hnot (List.mem_append_left _ hm))⟩

theorem Changes_of_eq (envs envs2 : Manager) (id : ID) (hm : envs2.m = envs.m)
    (hch : envs2.pendingStateChangeCh = envs.pendingStateChangeCh) :
    Changes envs envs2 id [] := by
  refine ⟨fun started h => ?_, fun id2 _ => by rw [hch]⟩
  rw [List.append_nil]
  unfold StateChInv at *
  rw [hm, hch]
  exact h

theorem Changes_trans (a b c : Manager) (id : ID) (t1 t2 : List ID)
    (h1 : Changes a b id t1) (h2 : Changes b c id t2) : Changes a c id (t1 ++ t2) := by
  refine ⟨fun started h => ?_, fun id2 hne => ?_⟩
  · rw [← List.append_assoc]
    exact h2.1 _ (h1.1 _ h)
  · rw [h2.2 id2 hne, h1.2 id2 hne]

theorem Changes_register (envs : Manager) (env : Environment) :
    Changes envs (envs.register env) env.id [] := by
  refine ⟨fun started h => ?_, fun id2 hne => ?_⟩
  · rw [List.append_nil]
    refine ⟨GoMap.nodup_keys_set _ _ _ h.1, fun id e hreg hnot => ?_⟩
    simp only [Manager.register, GoMap.get_set] at hreg ⊢
    by_cases hid : env.id = id
    · simp only [hid, if_true, Option.some.injEq] at hreg ⊢
      rw [hreg]
    · simp only [hid, if_false] at hreg ⊢
      exact h.2 id e hreg hnot
  · have : ¬ env.id = id2 := fun e => hne e.symm
    simp [Manager.register, GoMap.get_set, this]

theorem Changes_setState (envs : Manager) (id id0 : ID) (state : String) :
    Changes envs (envs.setState id state) id0 [] := by
  unfold Manager.setState
  cases hg : envs.m.get id with
  | none => exact Changes_of_eq envs envs id0 rfl rfl
  | some env =>
    refine ⟨fun started h => ?_, fun id2 _ => rfl⟩
    rw [List.append_nil]
    refine ⟨h.1, fun id3 e hreg hnot => ?_⟩
    simp only [GoMap.get_set] at hreg
    by_cases hid : id = id3
    · subst hid
      simp only [if_true, Option.some.injEq] at hreg
      have := h.2 id env hg hnot
      rw [← hreg]
      exact this
    · simp only [hid, if_false] at hreg
      exact h.2 id3 e hreg hnot

theorem awaitTasksReleased_stateCh (envs envs3 : Manager) (pendingCh : Chan)
    (delivered : Option TasksReleasedEvent) (delivery : List Effect)
    (ev : TasksReleasedEvent)
    (h : envs.awaitTasksReleased pendingCh delivered = some (envs3, delivery, ev)) :
    envs3.pendingStateChangeCh = envs.pendingStateChangeCh := by
  unfold Manager.awaitTasksReleased at h
  cases delivered with
  | none => simp at h
  | some e =>
    simp only at h
    split at h
    · rename_i hget
      simp only [Manager.routeTasksReleased, hget, Option.some.injEq, Prod.mk.injEq] at h
      rw [← h.1]
    · simp at h

theorem mem_tornDown_traceToFirst (envs : Manager) (env : Environment) (environmentId : ID)
    (rest : List Effect) :
    environmentId ∈ tornDown (traceToFirst envs env environmentId ++ rest) := by
  rw [tornDown_append]
  apply List.mem_append_left
  simp [tornDown, releases_traceToFirst, NewEnvironmentMessage]

/-- What a teardown that is not refused does to the registry and to the state channels:
the entry of the state channel is removed, the registry is as it was or without the
environment, and the release of the environment is dispatched. -/
theorem TeardownEnvironment_frame (envs : Manager) (environmentId : ID) (env : Environment)
    (force : Bool) (inp : TeardownInputs)
    (hfound : envs.environment environmentId = (some env, none))
    (hguard : env.currentState = "STANDBY" ∨ force = true) :
    (envs.TeardownEnvironment environmentId force inp).envs.pendingStateChangeCh
      = envs.pendingStateChangeCh.delete environmentId ∧
    ((envs.TeardownEnvironment environmentId force inp).envs.m = envs.m ∨
      (envs.TeardownEnvironment environmentId force inp).envs.m
        = envs.m.delete environmentId) ∧
    environmentId ∈ tornDown (envs.TeardownEnvironment environmentId force inp).trace := by
  rw [TeardownEnvironment_unfold envs environmentId env force inp hfound hguard]
  cases ha : (awaitingFirst envs environmentId).awaitTasksReleased envs.nextChan
      inp.firstReleased with
  | none =>
    simp only
    refine ⟨rfl, Or.inl rfl, ?_⟩
    have := mem_tornDown_traceToFirst envs env environmentId []
    rwa [List.append_nil] at this
  | some x =>
    obtain ⟨envs3, delivery, ev⟩ := x
    obtain ⟨-, h2, -, -, -⟩ := awaitTasksReleased_some _ _ _ _ _ _ ha
    have h2 : envs3.m = envs.m := h2
    have h3 : envs3.pendingStateChangeCh = envs.pendingStateChangeCh.delete environmentId :=
      awaitTasksReleased_stateCh _ _ _ _ _ _ ha
    simp only
    by_cases herr : ev.taskReleaseErrors.length > 0
    · simp only [herr, if_true]
      refine ⟨h3, Or.inl h2, ?_⟩
      rw [List.append_assoc]
      exact mem_tornDown_traceToFirst envs env environmentId _
    · simp only [herr, if_false]
      rw [teardownHooks_unfold]
      cases hb : ({ envs3 with
          nextChan := envs3.nextChan + 1
          pendingTeardownsCh := envs3.pendingTeardownsCh.set environmentId envs3.nextChan }
            : Manager).awaitTasksReleased envs3.nextChan inp.secondReleased with
      | none =>
        simp only
        refine ⟨h3, Or.inl h2, ?_⟩
        rw [List.append_assoc]
        exact mem_tornDown_traceToFirst envs env environmentId _
      | some y =>
        obtain ⟨envs5, delivery2, ev2⟩ := y
        obtain ⟨-, k2, -, -, -⟩ := awaitTasksReleased_some _ _ _ _ _ _ hb
        have k2 : envs5.m = envs.m := by rw [k2]; exact h2
        have k3 : envs5.pendingStateChangeCh
            = envs.pendingStateChangeCh.delete environmentId := by
          rw [awaitTasksReleased_stateCh _ _ _ _ _ _ hb]; exact h3
        simp only
        by_cases herr2 : ev2.taskReleaseErrors.length > 0
        · simp only [herr2, if_true]
          refine ⟨k3, Or.inl k2, ?_⟩
          simp only [List.append_assoc]
          exact mem_tornDown_traceToFirst envs env environmentId _
        · simp only [herr2, if_false]
          refine ⟨k3, Or.inr (by rw [k2]), ?_⟩
          simp only [List.append_assoc]
          exact mem_tornDown_traceToFirst envs env environmentId _

/-- A teardown that fails at the lookup or is refused changes nothing and has no
effect. -/
theorem TeardownEnvironment_untouched (envs : Manager) (environmentId : ID) (force : Bool)
    (inp : TeardownInputs)
    (h : ∀ env, envs.environment environmentId = (some env, none) →
      ¬ (env.currentState = "STANDBY" ∨ force = true)) :
    (envs.TeardownEnvironment environmentId force inp).envs = envs ∧
    (envs.TeardownEnvironment environmentId force inp).trace = [] := by
  cases hl : envs.environment environmentId with
  | mk e er =>
    cases er with
    | some err => simp [Manager.TeardownEnvironment, hl]
    | none =>
      cases e with
      | none => simp [Manager.TeardownEnvironment, hl]
      | some env =>
        have hn := h env hl
        have hg : env.currentState ≠ "STANDBY" ∧ ¬ force = true := by
          constructor
          · exact fun e => hn (Or.inl e)
          · exact fun e => hn (Or.inr e)
        simp [Manager.TeardownEnvironment, hl, hg]

theorem Changes_TeardownEnvironment (envs : Manager) (environmentId : ID) (force : Bool)
    (inp : TeardownInputs) :
    Changes envs (envs.TeardownEnvironment environmentId force inp).envs environmentId
      (tornDown (envs.TeardownEnvironment environmentId force inp).trace) := by
  by_cases hcase : ∃ env, envs.environment environmentId = (some env, none) ∧
      (env.currentState = "STANDBY" ∨ force = true)
  · obtain ⟨env, hfound, hguard⟩ := hcase
    obtain ⟨hch, hm, htorn⟩ := TeardownEnvironment_frame envs environmentId env force inp
      hfound hguard
    refine ⟨fun started h => ⟨?_, fun id e hreg hnot => ?_⟩, fun id2 hne => ?_⟩
    · rw [hch]; exact GoMap.nodup_keys_delete _ _ h.1
    · have hne : id ≠ environmentId := by
        rintro rfl
        exact hnot (List.mem_append_right _ htorn)
      have hreg2 : envs.m.get id = some e := by
        rcases hm with hm | hm
        · rw [hm] at hreg; exact hreg
        · rw [hm, GoMap.get_delete_ne _ _ _ hne] at hreg; exact hreg
      rw [hch, GoMap.get_delete_ne _ _ _ hne]
      exact h.2 id e hreg2 (fun hs => hnot (List.mem_append_left _ hs))
    · rw [hch, GoMap.get_delete_ne _ _ _ hne]
  · have hun := TeardownEnvironment_untouched envs environmentId force inp
      (fun env hf hg => hcase ⟨env, hf, hg⟩)
    rw [hun.1, hun.2]
    exact Changes_of_eq envs envs environmentId rfl rfl

theorem tornDown_nil : tornDown [] = [] := rfl

theorem tornDown_cons (e : Effect) (l : List Effect) :
    tornDown (e :: l) =
      (match e with
        | Effect.sendTaskman msg => [msg.envId]
        | _ => []) ++ tornDown l := by
  cases e <;> simp [tornDown, releases]

theorem tornDown_logKillError (err : Option String) : tornDown (logKillError err) = [] := by
  unfold logKillError
  split <;> rfl

theorem tornDown_autoDeferred (id : ID) : tornDown (autoDeferred id) = [] := rfl

theorem tornDown_ite (c : Prop) [Decidable c] (id : ID) :
    tornDown (if c then [Effect.sendEnvironmentError id] else []) = [] := by
  split <;> rfl

/-- The registration of the new environment by a creation, up to the outcome of the
`CONFIGURE` transition. -/
theorem Changes_registered (envs : Manager) (env : Environment) (state : String) :
    Changes envs
      ((({ envs with nextChan := envs.nextChan + 1 } : Manager).register env).setState env.id
        state) env.id [] :=
  Changes_trans _ _ _ _ [] []
    (Changes_trans _ _ _ _ [] []
      (Changes_of_eq envs { envs with nextChan := envs.nextChan + 1 } env.id rfl rfl)
      (Changes_register _ env))
    (Changes_setState _ env.id env.id state)

theorem Changes_CreateEnvironment (envs : Manager) (workflowPath : String)
    (userVars : GoMap String String) (inp : CreateInputs) :
    Changes envs (envs.CreateEnvironment workflowPath userVars inp).envs inp.newId
      (tornDown (envs.CreateEnvironment workflowPath userVars inp).trace) := by
  unfold Manager.CreateEnvironment
  simp only
  cases inp.newEnvironmentError with
  | some err => exact Changes_of_eq _ _ _ rfl rfl
  | none =>
    simp only
    cases loadWorkflow workflowPath inp.loaded with
    | error cause => exact Changes_of_eq _ _ _ rfl rfl
    | ok workflow =>
      simp only
      have hreg := Changes_registered envs
        { newEnvironment (CreateEnvironment_split userVars).envUserVars inp.newId
            envs.nextChan with
          UserVars := (newEnvironment (CreateEnvironment_split userVars).envUserVars inp.newId
            envs.nextChan).UserVars.set "environment_id" inp.newId
          workflow := workflow } inp.configure.state
      cases inp.configure.err with
      | none => exact hreg
      | some err =>
        simp only
        have htorn := Changes_TeardownEnvironment
          ((({ envs with nextChan := envs.nextChan + 1 } : Manager).register
            { newEnvironment (CreateEnvironment_split userVars).envUserVars inp.newId
                envs.nextChan with
              UserVars := (newEnvironment (CreateEnvironment_split userVars).envUserVars
                inp.newId envs.nextChan).UserVars.set "environment_id" inp.newId
              workflow := workflow }).setState inp.newId inp.configure.state)
          inp.newId true inp.teardown
        have hall := Changes_trans _ _ _ _ _ _ hreg htorn
        split
        · simp only [tornDown_append, tornDown_cons, tornDown_nil, tornDown_logKillError,
            List.append_nil, List.nil_append]
          exact hall
        · simp only [tornDown_append, tornDown_cons, tornDown_nil, List.append_nil,
            List.nil_append]
          exact hall
        · simp only [tornDown_append, tornDown_cons, tornDown_nil, List.append_nil,
            List.nil_append]
          exact hall

theorem Changes_nil_append (a b : Manager) (id : ID) (torn : List ID)
    (h : Changes a b id ([] ++ torn)) : Changes a b id torn := by
  simpa using h

theorem Changes_append_nil (a b : Manager) (id : ID) (torn : List ID)
    (h : Changes a b id (torn ++ [])) : Changes a b id torn := by
  simpa using h

theorem Changes_autoLoop (env : Environment) (inp : CreateAutoInputs) (polled : List String)
    (base envs : Manager) (trace : List Effect) (hq : tornDown trace = [])
    (h0 : Changes base envs env.id []) :
    Changes base (envs.autoLoop env inp polled trace).envs env.id
      (tornDown (envs.autoLoop env inp polled trace).trace) := by
  induction polled generalizing envs with
  | nil =>
    simp only [Manager.autoLoop, hq]
    exact h0
  | cons envState rest ih =>
    unfold Manager.autoLoop
    simp only
    have h1 : Changes base (envs.setState env.id envState) env.id [] :=
      Changes_nil_append _ _ _ _
        (Changes_trans _ _ _ _ _ _ h0 (Changes_setState envs env.id env.id envState))
    split
    · have h2 : Changes base ((envs.setState env.id envState).setState env.id inp.reset.state)
          env.id [] :=
        Changes_nil_append _ _ _ _ (Changes_trans _ _ _ _ _ _ h1
          (Changes_setState (envs.setState env.id envState) env.id env.id inp.reset.state))
      cases inp.reset.err with
      | some e =>
        simp only [tornDown_append, tornDown_cons, tornDown_nil, tornDown_autoDeferred, hq,
          List.append_nil]
        exact h2
      | none =>
        simp only
        have h3 := Changes_nil_append _ _ _ _ (Changes_trans _ _ _ _ _ _ h2
          (Changes_TeardownEnvironment
            ((envs.setState env.id envState).setState env.id inp.reset.state) env.id false
            inp.finalTeardown))
        split
        · simp only [tornDown_append, tornDown_cons, tornDown_nil, tornDown_autoDeferred, hq,
            List.append_nil, List.nil_append]
          exact h3
        · simp only [tornDown_append, tornDown_cons, tornDown_nil, tornDown_autoDeferred, hq,
            List.append_nil, List.nil_append]
          rw [tornDown_ite, List.append_nil]
          exact h3
        · simp only [tornDown_append, tornDown_cons, tornDown_nil, hq, List.append_nil,
            List.nil_append]
          exact h3
        · simp only [tornDown_append, tornDown_cons, tornDown_nil, hq, List.append_nil,
            List.nil_append]
          exact h3
    · split
      · simp only [tornDown_append, tornDown_autoDeferred, hq, List.append_nil]
        exact h1
      · exact ih (envs.setState env.id envState) h1

theorem Changes_CreateAutoEnvironment (envs : Manager) (workflowPath : String)
    (userVars : GoMap String String) (inp : CreateAutoInputs) :
    Changes envs (envs.CreateAutoEnvironment workflowPath userVars inp).envs inp.create.newId
      (tornDown (envs.CreateAutoEnvironment workflowPath userVars inp).trace) := by
  unfold Manager.CreateAutoEnvironment
  simp only
  cases inp.create.newEnvironmentError with
  | some err => exact Changes_of_eq _ _ _ rfl rfl
  | none =>
    simp only
    cases loadWorkflow workflowPath inp.create.loaded with
    | error cause => exact Changes_of_eq _ _ _ rfl rfl
    | ok workflow =>
      simp only
      have hreg := Changes_registered envs
        { newEnvironment (CreateAutoEnvironment_split userVars).envUserVars inp.create.newId
            envs.nextChan with workflow := workflow } inp.create.configure.state
      cases inp.create.configure.err with
      | some err =>
        simp only
        have htorn := Changes_TeardownEnvironment
          ((({ envs with nextChan := envs.nextChan + 1 } : Manager).register
            { newEnvironment (CreateAutoEnvironment_split userVars).envUserVars
                inp.create.newId envs.nextChan with workflow := workflow }).setState
              inp.create.newId inp.create.configure.state)
          inp.create.newId true inp.create.teardown
        have hall := Changes_trans _ _ _ _ _ _ hreg htorn
        split
        · simp only [tornDown_append, tornDown_cons, tornDown_nil, tornDown_logKillError,
            List.append_nil, List.nil_append]
          rw [tornDown_ite, List.append_nil]
          exact hall
        · simp only [tornDown_append, tornDown_cons, tornDown_nil, List.append_nil,
            List.nil_append]
          exact hall
        · simp only [tornDown_append, tornDown_cons, tornDown_nil, List.append_nil,
            List.nil_append]
          exact hall
      | none =>
        simp only
        split
        · exact hreg
        · have hstart := Changes_nil_append _ _ _ _ (Changes_trans _ _ _ _ _ _ hreg
            (Changes_setState
              ((({ envs with nextChan := envs.nextChan + 1 } : Manager).register
                { newEnvironment (CreateAutoEnvironment_split userVars).envUserVars
                    inp.create.newId envs.nextChan with workflow := workflow }).setState
                  inp.create.newId inp.create.configure.state)
              inp.create.newId inp.create.newId inp.start.state))
          cases inp.start.err with
          | some e => exact hstart
          | none => exact Changes_autoLoop _ inp inp.polled envs _ _ rfl hstart

theorem handleEndOfStream_frame (envs : Manager) (evt : DeviceEvent) (trace : List Effect) :
    (envs.handleEndOfStream evt trace).envs.m = envs.m ∧
    (envs.handleEndOfStream evt trace).envs.pendingStateChangeCh = envs.pendingStateChangeCh ∧
    (∀ ch, Effect.close ch ∈ (envs.handleEndOfStream evt trace).trace →
      Effect.close ch ∈ trace) := by
  unfold Manager.handleEndOfStream logCannotFind
  cases envs.taskman.get evt.taskId with
  | none => simp
  | some t =>
    simp only
    cases (envs.environment t.environmentId).1 with
    | none =>
      simp only [CurrentState]
      refine ⟨by trivial, by trivial, fun ch => ?_⟩
      split <;> simp
    | some env =>
      simp only [CurrentState]
      split
      · refine ⟨by trivial, by trivial, fun ch => ?_⟩
        split <;> simp
      · refine ⟨by trivial, by trivial, fun ch => ?_⟩
        split <;> simp

theorem handleDeviceEvent_frame (envs : Manager) (evt : Option DeviceEvent) :
    (envs.handleDeviceEvent evt).envs.m = envs.m ∧
    (envs.handleDeviceEvent evt).envs.pendingStateChangeCh = envs.pendingStateChangeCh ∧
    (∀ ch, Effect.close ch ∉ (envs.handleDeviceEvent evt).trace) := by
  unfold Manager.handleDeviceEvent
  cases evt with
  | none => simp
  | some evt =>
    simp only
    cases evt.type with
    | NULL_DEVICE_EVENT => simp
    | END_OF_STREAM =>
      simp only
      obtain ⟨h1, h2, h3⟩ := handleEndOfStream_frame envs evt []
      exact ⟨h1, h2, fun ch hch => by simpa using h3 ch hch⟩
    | BASIC_TASK_TERMINATED =>
      simp only
      split
      · cases envs.taskman.get evt.taskId with
        | none =>
          simp only
          obtain ⟨h1, h2, h3⟩ := handleEndOfStream_frame envs evt
            ([Effect.log "basic task terminated"] ++ [Effect.log
              "cannot find task for DeviceEvent BASIC_TASK_TERMINATED"])
          exact ⟨h1, h2, fun ch hch => by simpa using h3 ch hch⟩
        | some t =>
          simp only
          split
          · split
            · unfold NotifyEvent logCannotFind
              cases (envs.environment t.environmentId).1 with
              | none =>
                refine ⟨by trivial, by trivial, fun ch => ?_⟩
                simp only
                split <;> simp
              | some env =>
                refine ⟨by trivial, by trivial, fun ch => ?_⟩
                simp only
                split <;> simp
            · obtain ⟨h1, h2, h3⟩ := handleEndOfStream_frame envs evt
                ([Effect.log "basic task terminated"] ++ [Effect.taskSendEvent evt.taskId]
                  ++ [Effect.SetRuntimeVars evt.taskId])
              exact ⟨h1, h2, fun ch hch => by simpa using h3 ch hch⟩
          · obtain ⟨h1, h2, h3⟩ := handleEndOfStream_frame envs evt
              ([Effect.log "basic task terminated"] ++ [Effect.taskSendEvent evt.taskId]
                ++ [Effect.log
                  "DeviceEvent BASIC_TASK_TERMINATED received for task with no parent role"])
            exact ⟨h1, h2, fun ch hch => by simpa using h3 ch hch⟩
      · simp

/-- A turn of the demultiplexer leaves the registry and the state channels as they
were, and the channels it closes are teardown channels. -/
theorem demuxStep_frame (envs : Manager) (ev : Event) :
    (envs.demuxStep ev).envs.m = envs.m ∧
    (envs.demuxStep ev).envs.pendingStateChangeCh = envs.pendingStateChangeCh ∧
    (∀ ch, Effect.close ch ∈ (envs.demuxStep ev).trace →
      ∃ id, envs.pendingTeardownsCh.get id = some ch) := by
  cases ev with
  | device evt =>
    simp only [Manager.demuxStep]
    obtain ⟨h1, h2, h3⟩ := handleDeviceEvent_frame envs evt
    exact ⟨h1, h2, fun ch hch => absurd hch (h3 ch)⟩
  | tasksReleased e =>
    simp only [Manager.demuxStep, Manager.routeTasksReleased]
    cases hg : envs.pendingTeardownsCh.get e.envId with
    | none => simp
    | some c =>
      simp only
      refine ⟨by trivial, by trivial, fun ch hch => ?_⟩
      simp at hch
      exact ⟨e.envId, by rw [hg, hch]⟩
  | tasksStateChanged e =>
    simp only [Manager.demuxStep, Manager.routeTasksStateChanged]
    cases hg : envs.pendingStateChangeCh.get e.envId with
    | none => simp
    | some c => simp
  | other => simp [Manager.demuxStep]

/-! ## The channels as objects -/

theorem GoMap.get_delete_some {κ ν : Type} [DecidableEq κ] (m : GoMap κ ν) (k k2 : κ) (v : ν)
    (h : (GoMap.delete m k).get k2 = some v) : m.get k2 = some v := by
  by_cases hk : k2 = k
  · subst hk
    rw [GoMap.get_delete_self] at h
    simp at h
  · rwa [GoMap.get_delete_ne _ _ _ hk] at h

theorem Later_of_eq (envs envs2 : Manager) (hn : envs.nextChan ≤ envs2.nextChan)
    (hs : envs2.pendingStateChangeCh = envs.pendingStateChangeCh)
    (ht : envs2.pendingTeardownsCh = envs.pendingTeardownsCh) : Later envs envs2 :=
  ⟨hn, fun _ _ h => by rw [hs] at h; exact h, fun _ _ h => by rw [ht] at h; exact Or.inl h⟩

theorem Later_trans (a b c : Manager) (h1 : Later a b) (h2 : Later b c) : Later a c := by
  refine ⟨Nat.le_trans h1.1 h2.1, fun id ch h => h1.2.1 id ch (h2.2.1 id ch h),
    fun id ch h => ?_⟩
  rcases h2.2.2 id ch h with hb | ⟨hlo, hhi⟩
  · rcases h1.2.2 id ch hb with ha | ⟨hlo, hhi⟩
    · exact Or.inl ha
    · exact Or.inr ⟨hlo, Nat.lt_of_lt_of_le hhi h2.1⟩
  · exact Or.inr ⟨Nat.le_trans h1.1 hlo, hhi⟩

theorem ChanInv_of_Later (envs envs2 : Manager) (hl : Later envs envs2) (h : ChanInv envs) :
    ChanInv envs2 := by
  obtain ⟨h1, h2, h3, h4⟩ := h
  obtain ⟨hn, hs, ht⟩ := hl
  refine ⟨fun id ch hg => Nat.lt_of_lt_of_le (h1 id ch (hs id ch hg)) hn, fun id ch hg => ?_,
    fun id id2 ch hg hg2 => ?_,
    fun id id2 ch hg hg2 => h4 id id2 ch (hs _ _ hg) (hs _ _ hg2)⟩
  · rcases ht id ch hg with ha | ⟨_, hhi⟩
    · exact Nat.lt_of_lt_of_le (h2 id ch ha) hn
    · exact hhi
  · rcases ht id2 ch hg2 with ha | ⟨hlo, _⟩
    · exact h3 id id2 ch (hs _ _ hg) ha
    · exact absurd (h1 id ch (hs _ _ hg)) (Nat.not_lt.2 hlo)

/-- The making of a teardown channel for `id`, with state channels that were there. -/
theorem Later_make (envs : Manager) (id : ID) (stateChs : GoMap ID Chan)
    (hs : ∀ id2 ch, stateChs.get id2 = some ch →
      envs.pendingStateChangeCh.get id2 = some ch) :
    Later envs { envs with
      pendingStateChangeCh := stateChs
      nextChan := envs.nextChan + 1
      pendingTeardownsCh := envs.pendingTeardownsCh.set id envs.nextChan } := by
  refine ⟨Nat.le_succ _, hs, fun id2 ch h => ?_⟩
  simp only [GoMap.get_set] at h
  by_cases hid : id = id2
  · simp only [hid, if_true, Option.some.injEq] at h
    exact Or.inr ⟨by rw [← h], by rw [← h]; exact Nat.lt_succ_self _⟩
  · simp only [hid, if_false] at h
    exact Or.inl h

theorem Later_await (envs envs3 : Manager) (pendingCh : Chan)
    (delivered : Option TasksReleasedEvent) (delivery : List Effect)
    (ev : TasksReleasedEvent)
    (h : envs.awaitTasksReleased pendingCh delivered = some (envs3, delivery, ev)) :
    Later envs envs3 := by
  obtain ⟨-, -, hn, ht, -⟩ := awaitTasksReleased_some _ _ _ _ _ _ h
  have hs := awaitTasksReleased_stateCh _ _ _ _ _ _ h
  refine ⟨by rw [hn], fun id ch hg => by rw [hs] at hg; exact hg, fun id ch hg => ?_⟩
  rw [ht] at hg
  exact Or.inl (GoMap.get_delete_some _ _ _ _ hg)

theorem close_mem_traceToFirst (envs : Manager) (env : Environment) (environmentId : ID)
    (ch : Chan) (h : Effect.close ch ∈ traceToFirst envs env environmentId) :
    envs.pendingStateChangeCh.get environmentId = some ch := by
  unfold traceToFirst teardownPrelude at h
  cases hg : envs.pendingStateChangeCh.get environmentId with
  | none => simp [hg] at h
  | some c =>
    simp [hg] at h
    rw [h]

theorem close_not_mem_traceToSecond (envs : Manager) (environmentId : ID)
    (destroyHooks : List Hook) (inp : TeardownInputs) (ch : Chan) :
    Effect.close ch ∉ traceToSecond envs environmentId destroyHooks inp := by
  unfold traceToSecond
  split <;> simp

theorem close_not_mem_logReleaseErrors (errors : GoMap String String) (ch : Chan) :
    Effect.close ch ∉ logReleaseErrors errors := by
  simp [logReleaseErrors]

/-- What a teardown that is not refused does to the channels: the manager afterwards is
a later one, the trace starts with the effects up to the first release, and a channel
that it closes is the state channel of its environment or one that it made itself. -/
theorem TeardownEnvironment_channels (envs : Manager) (environmentId : ID)
    (env : Environment) (force : Bool) (inp : TeardownInputs)
    (hfound : envs.environment environmentId = (some env, none))
    (hguard : env.currentState = "STANDBY" ∨ force = true) :
    Later envs (envs.TeardownEnvironment environmentId force inp).envs ∧
    (∃ rest, (envs.TeardownEnvironment environmentId force inp).trace
      = traceToFirst envs env environmentId ++ rest) ∧
    (∀ ch, Effect.close ch ∈ (envs.TeardownEnvironment environmentId force inp).trace →
      envs.pendingStateChangeCh.get environmentId = some ch ∨ envs.nextChan ≤ ch) := by
  have hfirst : Later envs (awaitingFirst envs environmentId) :=
    Later_make envs environmentId _ (fun id2 ch h => GoMap.get_delete_some _ _ _ _ h)
  have hpre : ∀ ch, Effect.close ch ∈ traceToFirst envs env environmentId →
      envs.pendingStateChangeCh.get environmentId = some ch ∨ envs.nextChan ≤ ch :=
    fun ch h => Or.inl (close_mem_traceToFirst envs env environmentId ch h)
  rw [TeardownEnvironment_unfold envs environmentId env force inp hfound hguard]
  cases ha : (awaitingFirst envs environmentId).awaitTasksReleased envs.nextChan
      inp.firstReleased with
  | none =>
    simp only
    exact ⟨hfirst, ⟨[], by rw [List.append_nil]⟩, hpre⟩
  | some x =>
    obtain ⟨envs3, delivery, ev⟩ := x
    obtain ⟨-, -, hn3, -, hd⟩ := awaitTasksReleased_some _ _ _ _ _ _ ha
    have hn3 : envs3.nextChan = envs.nextChan + 1 := hn3
    have hl3 : Later envs envs3 := Later_trans _ _ _ hfirst (Later_await _ _ _ _ _ _ ha)
    have hdel : ∀ ch, Effect.close ch ∈ delivery → envs.nextChan ≤ ch := by
      intro ch hch
      rw [hd] at hch
      simp at hch
      rw [hch]
    simp only
    by_cases herr : ev.taskReleaseErrors.length > 0
    · simp only [herr, if_true]
      refine ⟨hl3, ⟨delivery ++ logReleaseErrors ev.taskReleaseErrors,
        by simp only [List.append_assoc]⟩, fun ch hch => ?_⟩
      simp only [List.mem_append] at hch
      rcases hch with (hch | hch) | hch
      · exact hpre ch hch
      · exact Or.inr (hdel ch hch)
      · exact absurd hch (close_not_mem_logReleaseErrors _ ch)
    · simp only [herr, if_false]
      rw [teardownHooks_unfold]
      have hsecond : Later envs3 ({ envs3 with
          nextChan := envs3.nextChan + 1
          pendingTeardownsCh := envs3.pendingTeardownsCh.set environmentId envs3.nextChan }
            : Manager) :=
        Later_make envs3 environmentId envs3.pendingStateChangeCh (fun _ _ h => h)
      cases hb : ({ envs3 with
          nextChan := envs3.nextChan + 1
          pendingTeardownsCh := envs3.pendingTeardownsCh.set environmentId envs3.nextChan }
            : Manager).awaitTasksReleased envs3.nextChan inp.secondReleased with
      | none =>
        simp only
        refine ⟨Later_trans _ _ _ hl3 hsecond,
          ⟨delivery ++ traceToSecond envs3 environmentId (destroyHooksOf env) inp,
            by simp only [List.append_assoc]⟩, fun ch hch => ?_⟩
        simp only [List.mem_append] at hch
        rcases hch with (hch | hch) | hch
        · exact hpre ch hch
        · exact Or.inr (hdel ch hch)
        · exact absurd hch (close_not_mem_traceToSecond _ _ _ _ ch)
      | some y =>
        obtain ⟨envs5, delivery2, ev2⟩ := y
        obtain ⟨-, -, -, -, hd2⟩ := awaitTasksReleased_some _ _ _ _ _ _ hb
        have hl5 : Later envs envs5 :=
          Later_trans _ _ _ (Later_trans _ _ _ hl3 hsecond) (Later_await _ _ _ _ _ _ hb)
        have hdel2 : ∀ ch, Effect.close ch ∈ delivery2 → envs.nextChan ≤ ch := by
          intro ch hch
          rw [hd2] at hch
          simp at hch
          rw [hch, hn3]
          exact Nat.le_succ _
        simp only
        by_cases herr2 : ev2.taskReleaseErrors.length > 0
        · simp only [herr2, if_true]
          refine ⟨hl5, ⟨delivery ++ traceToSecond envs3 environmentId (destroyHooksOf env) inp
            ++ delivery2 ++ logReleaseErrors ev2.taskReleaseErrors,
            by simp only [List.append_assoc]⟩, fun ch hch => ?_⟩
          simp only [List.mem_append] at hch
          rcases hch with (((hch | hch) | hch) | hch) | hch
          · exact hpre ch hch
          · exact Or.inr (hdel ch hch)
          · exact absurd hch (close_not_mem_traceToSecond _ _ _ _ ch)
          · exact Or.inr (hdel2 ch hch)
          · exact absurd hch (close_not_mem_logReleaseErrors _ ch)
        · simp only [herr2, if_false]
          refine ⟨Later_trans _ _ _ hl5 (Later_of_eq _ _ (Nat.le_refl _) rfl rfl),
            ⟨delivery ++ traceToSecond envs3 environmentId (destroyHooksOf env) inp
              ++ delivery2 ++ [Effect.sendEnvironmentEvent env.id "DONE",
                Effect.unsubscribeFromWfState env.id],
            by simp only [List.append_assoc]⟩, fun ch hch => ?_⟩
          simp only [List.mem_append] at hch
          rcases hch with (((hch | hch) | hch) | hch) | hch
          · exact hpre ch hch
          · exact Or.inr (hdel ch hch)
          · exact absurd hch (close_not_mem_traceToSecond _ _ _ _ ch)
          · exact Or.inr (hdel2 ch hch)
          · simp at hch

/-- A call of `TeardownEnvironment` either starts the teardown of its environment, or
changes nothing and has no effect. -/
theorem TeardownEnvironment_started_or_untouched (envs : Manager) (environmentId : ID)
    (force : Bool) (inp : TeardownInputs) :
    environmentId ∈ tornDown (envs.TeardownEnvironment environmentId force inp).trace ∨
    ((envs.TeardownEnvironment environmentId force inp).envs = envs ∧
      (envs.TeardownEnvironment environmentId force inp).trace = []) := by
  by_cases hcase : ∃ env, envs.environment environmentId = (some env, none) ∧
      (env.currentState = "STANDBY" ∨ force = true)
  · obtain ⟨env, hfound, hguard⟩ := hcase
    exact Or.inl (TeardownEnvironment_frame envs environmentId env force inp hfound hguard).2.2
  · exact Or.inr (TeardownEnvironment_untouched envs environmentId force inp
      (fun env hfound hguard => hcase ⟨env, hfound, hguard⟩))

theorem Later_TeardownEnvironment (envs : Manager) (environmentId : ID) (force : Bool)
    (inp : TeardownInputs) :
    Later envs (envs.TeardownEnvironment environmentId force inp).envs := by
  by_cases hcase : ∃ env, envs.environment environmentId = (some env, none) ∧
      (env.currentState = "STANDBY" ∨ force = true)
  · obtain ⟨env, hfound, hguard⟩ := hcase
    exact (TeardownEnvironment_channels envs environmentId env force inp hfound hguard).1
  · rw [(TeardownEnvironment_untouched envs environmentId force inp
      (fun env hfound hguard => hcase ⟨env, hfound, hguard⟩)).1]
    exact Later_of_eq _ _ (Nat.le_refl _) rfl rfl

theorem TeardownEnvironment_closes (envs : Manager) (environmentId : ID) (force : Bool)
    (inp : TeardownInputs) (ch : Chan)
    (h : Effect.close ch ∈ (envs.TeardownEnvironment environmentId force inp).trace) :
    envs.pendingStateChangeCh.get environmentId = some ch ∨ envs.nextChan ≤ ch := by
  by_cases hcase : ∃ env, envs.environment environmentId = (some env, none) ∧
      (env.currentState = "STANDBY" ∨ force = true)
  · obtain ⟨env, hfound, hguard⟩ := hcase
    exact (TeardownEnvironment_channels envs environmentId env force inp hfound
      hguard).2.2 ch h
  · rw [(TeardownEnvironment_untouched envs environmentId force inp
      (fun env hfound hguard => hcase ⟨env, hfound, hguard⟩)).2] at h
    simp at h

/-! ## What a creation does after the registration -/

theorem Quiet_append (a b : List Effect) (ha : Quiet a) (hb : Quiet b) : Quiet (a ++ b) := by
  unfold Quiet at *
  rw [List.all_append, ha, hb]
  rfl

theorem Quiet_tornDown (trace : List Effect) (h : Quiet trace) : tornDown trace = [] := by
  induction trace with
  | nil => rfl
  | cons e rest ih =>
    unfold Quiet at h ih
    simp only [List.all_cons, Bool.and_eq_true] at h
    rw [tornDown_cons, ih h.2]
    cases e <;> first | rfl | simp [isQuiet] at h

theorem Quiet_close (trace : List Effect) (h : Quiet trace) (ch : Chan) :
    Effect.close ch ∉ trace := by
  intro hmem
  unfold Quiet at h
  rw [List.all_eq_true] at h
  have := h _ hmem
  simp [isQuiet] at this

theorem Quiet_autoDeferred (id : ID) : Quiet (autoDeferred id) := rfl

theorem Quiet_logKillError (err : Option String) : Quiet (logKillError err) := by
  unfold logKillError
  split <;> rfl

theorem Quiet_ite (c : Prop) [Decidable c] (id : ID) :
    Quiet (if c then [Effect.sendEnvironmentError id] else []) := by
  split <;> rfl

theorem SameChannels_refl (envs : Manager) : SameChannels envs envs :=
  ⟨rfl, rfl, rfl, fun _ _ h => h⟩

theorem SameChannels_trans (a b c : Manager) (h1 : SameChannels a b)
    (h2 : SameChannels b c) : SameChannels a c :=
  ⟨by rw [h2.1, h1.1], by rw [h2.2.1, h1.2.1], by rw [h2.2.2.1, h1.2.2.1],
    fun id ch h => h2.2.2.2 id ch (h1.2.2.2 id ch h)⟩

theorem SameChannels_setState (envs : Manager) (id : ID) (state : String) :
    SameChannels envs (envs.setState id state) := by
  unfold Manager.setState
  cases hg : envs.m.get id with
  | none => exact SameChannels_refl envs
  | some env =>
    refine ⟨rfl, rfl, rfl, fun id2 ch h => ?_⟩
    obtain ⟨⟨e, he, hch⟩, hs⟩ := h
    refine ⟨?_, hs⟩
    simp only [GoMap.get_set]
    by_cases hid : id = id2
    · subst hid
      rw [hg] at he
      simp only [Option.some.injEq] at he
      subst he
      exact ⟨{ env with currentState := state }, by simp, hch⟩
    · exact ⟨e, by simp [hid, he], hch⟩

theorem Later_of_SameChannels (envs envs2 : Manager) (h : SameChannels envs envs2) :
    Later envs envs2 :=
  Later_of_eq _ _ (by rw [h.1]) h.2.1 h.2.2.1

theorem Settles_stay (envs mid : Manager) (id : ID) (before : List Effect)
    (hs : SameChannels envs mid) (hq : Quiet before) : Settles envs id mid before :=
  ⟨mid, before, hs, hq, Or.inl ⟨rfl, rfl⟩⟩

theorem Settles_torn (envs mid envs2 : Manager) (id : ID) (force : Bool)
    (inp : TeardownInputs) (before after trace2 : List Effect)
    (hs : SameChannels envs mid) (hb : Quiet before) (ha : Quiet after)
    (henvs : envs2 = (mid.TeardownEnvironment id force inp).envs)
    (htrace : trace2 = before ++ (mid.TeardownEnvironment id force inp).trace ++ after) :
    Settles envs id envs2 trace2 :=
  ⟨mid, before, hs, hb, Or.inr ⟨force, inp, after, ha, henvs, htrace⟩⟩

/-- What follows from the shape of a creation after the registration: the manager
afterwards is a later one, a channel that is closed is the state channel of the new
environment or was made later, the environment is still registered with its channel
unless its teardown has started, and nothing is closed unless a teardown has started. -/
theorem Settles_props (envs envs2 : Manager) (id : ID) (trace2 : List Effect)
    (h : Settles envs id envs2 trace2) :
    Later envs envs2 ∧
    (∀ ch, Effect.close ch ∈ trace2 →
      envs.pendingStateChangeCh.get id = some ch ∨ envs.nextChan ≤ ch) ∧
    (∀ ch, Registered envs id ch → id ∈ tornDown trace2 ∨ Registered envs2 id ch) ∧
    (tornDown trace2 = [] → ∀ ch, Effect.close ch ∉ trace2) := by
  obtain ⟨mid, before, hs, hb, hcase⟩ := h
  rcases hcase with ⟨henvs, htrace⟩ | ⟨force, inp, after, ha, henvs, htrace⟩
  · subst henvs
    subst htrace
    exact ⟨Later_of_SameChannels _ _ hs, fun ch hch => absurd hch (Quiet_close _ hb ch),
      fun ch hr => Or.inr (hs.2.2.2 id ch hr), fun _ ch => Quiet_close _ hb ch⟩
  · subst henvs
    subst htrace
    refine ⟨Later_trans _ _ _ (Later_of_SameChannels _ _ hs)
      (Later_TeardownEnvironment mid id force inp), fun ch hch => ?_, fun ch hr => ?_,
      fun hnone ch hch => ?_⟩
    · simp only [List.mem_append] at hch
      rcases hch with (hch | hch) | hch
      · exact absurd hch (Quiet_close _ hb ch)
      · have := TeardownEnvironment_closes mid id force inp ch hch
        rw [hs.2.1, hs.1] at this
        exact this
      · exact absurd hch (Quiet_close _ ha ch)
    · rcases TeardownEnvironment_started_or_untouched mid id force inp with hst | hun
      · left
        simp only [tornDown_append, List.mem_append]
        exact Or.inl (Or.inr hst)
      · right
        rw [hun.1]
        exact hs.2.2.2 id ch hr
    · rcases TeardownEnvironment_started_or_untouched mid id force inp with hst | hun
      · have hmem : id ∈ tornDown (before ++ (mid.TeardownEnvironment id force inp).trace
            ++ after) := by
          simp only [tornDown_append, List.mem_append]
          exact Or.inl (Or.inr hst)
        rw [hnone] at hmem
        simp at hmem
      · rw [hun.2] at hch
        simp only [List.mem_append, List.not_mem_nil, or_false] at hch
        rcases hch with hch | hch
        · exact Quiet_close _ hb ch hch
        · exact Quiet_close _ ha ch hch

theorem autoLoop_Settles (env : Environment) (inp : CreateAutoInputs) (polled : List String)
    (base envs : Manager) (trace : List Effect) (hs : SameChannels base envs)
    (hq : Quiet trace) :
    Settles base env.id (envs.autoLoop env inp polled trace).envs
      (envs.autoLoop env inp polled trace).trace := by
  induction polled generalizing envs with
  | nil =>
    simp only [Manager.autoLoop]
    exact Settles_stay _ _ _ _ hs hq
  | cons envState rest ih =>
    unfold Manager.autoLoop
    simp only
    have h1 : SameChannels base (envs.setState env.id envState) :=
      SameChannels_trans _ _ _ hs (SameChannels_setState envs env.id envState)
    split
    · have h2 : SameChannels base
          ((envs.setState env.id envState).setState env.id inp.reset.state) :=
        SameChannels_trans _ _ _ h1 (SameChannels_setState _ env.id inp.reset.state)
      have hq2 : Quiet (trace ++ [Effect.TryTransition env.id "RESET"]) :=
        Quiet_append _ _ hq rfl
      cases inp.reset.err with
      | some e =>
        exact Settles_stay _ _ _ _ h2
          (Quiet_append _ _ (Quiet_append _ _ hq2 rfl) (Quiet_autoDeferred env.id))
      | none =>
        simp only
        split
        · exact Settles_torn _ _ _ _ false inp.finalTeardown _
            ([Effect.sendEnvironmentError env.id] ++ autoDeferred env.id) _ h2 hq2
            (Quiet_append _ _ rfl (Quiet_autoDeferred env.id)) rfl
            (by simp only [List.append_assoc])
        · exact Settles_torn _ _ _ _ false inp.finalTeardown _
            ([Effect.KillTasks env.workflow.GetTasks]
              ++ (if inp.finalKillError ≠ none then [Effect.sendEnvironmentError env.id]
                  else [])
              ++ autoDeferred env.id) _ h2 hq2
            (Quiet_append _ _ (Quiet_append _ _ rfl (Quiet_ite _ _))
              (Quiet_autoDeferred env.id)) rfl
            (by simp only [List.append_assoc])
        · exact Settles_torn _ _ _ _ false inp.finalTeardown _ [] _ h2 hq2 rfl rfl
            (by simp only [List.append_nil])
        · exact Settles_torn _ _ _ _ false inp.finalTeardown _ [] _ h2 hq2 rfl rfl
            (by simp only [List.append_nil])
    · split
      · exact Settles_stay _ _ _ _ h1 (Quiet_append _ _ hq (Quiet_autoDeferred env.id))
      · exact ih (envs.setState env.id envState) h1

/-- The registration of a creation, of an environment whose state channel was just
made: the channels stay distinct objects, and the environment is registered with its
channel. -/
theorem register_props (envs : Manager) (env : Environment)
    (hch : env.stateChangedCh = envs.nextChan) :
    (ChanInv envs →
      ChanInv (({ envs with nextChan := envs.nextChan + 1 } : Manager).register env)) ∧
    Registered (({ envs with nextChan := envs.nextChan + 1 } : Manager).register env) env.id
      envs.nextChan := by
  refine ⟨fun h => ?_, ⟨env, ?_, hch⟩, ?_⟩
  · obtain ⟨h1, h2, h3, h4⟩ := h
    have hget : ∀ id ch,
        ((({ envs with nextChan := envs.nextChan + 1 } : Manager).register
          env).pendingStateChangeCh.get id = some ch) →
        (env.id = id ∧ ch = envs.nextChan) ∨
          (envs.pendingStateChangeCh.get id = some ch ∧ ch < envs.nextChan) := by
      intro id ch hg
      simp only [Manager.register, GoMap.get_set] at hg
      by_cases hid : env.id = id
      · simp only [hid, if_true, Option.some.injEq] at hg
        exact Or.inl ⟨hid, by rw [← hg, hch]⟩
      · simp only [hid, if_false] at hg
        exact Or.inr ⟨hg, h1 id ch hg⟩
    refine ⟨fun id ch hg => ?_, fun id ch hg => ?_, fun id id2 ch hg hg2 => ?_,
      fun id id2 ch hg hg2 => ?_⟩
    · rcases hget id ch hg with ⟨_, hc⟩ | ⟨_, hlt⟩
      · rw [hc]; exact Nat.lt_succ_self _
      · exact Nat.lt_succ_of_lt hlt
    · exact Nat.lt_succ_of_lt (h2 id ch hg)
    · have hg2 : envs.pendingTeardownsCh.get id2 = some ch := hg2
      rcases hget id ch hg with ⟨_, hc⟩ | ⟨hold, _⟩
      · have := h2 id2 ch hg2
        rw [hc] at this
        exact Nat.lt_irrefl _ this
      · exact h3 id id2 ch hold hg2
    · rcases hget id ch hg with ⟨hi, hc⟩ | ⟨hold, hlt⟩
      · rcases hget id2 ch hg2 with ⟨hi2, _⟩ | ⟨_, hlt2⟩
        · rw [← hi, ← hi2]
        · rw [hc] at hlt2
          exact absurd hlt2 (Nat.lt_irrefl _)
      · rcases hget id2 ch hg2 with ⟨_, hc2⟩ | ⟨hold2, _⟩
        · rw [hc2] at hlt
          exact absurd hlt (Nat.lt_irrefl _)
        · exact h4 id id2 ch hold hold2
  · simp [Manager.register, GoMap.get_set]
  · simp [Manager.register, GoMap.get_set, hch]

/-- What a creation that has registered its environment does to the channels. -/
theorem created_props (envs : Manager) (env : Environment) (envs2 : Manager)
    (trace2 : List Effect) (hch : env.stateChangedCh = envs.nextChan)
    (hset : Settles (({ envs with nextChan := envs.nextChan + 1 } : Manager).register env)
      env.id envs2 trace2) :
    (ChanInv envs → ChanInv envs2) ∧
    (∀ ch, Effect.close ch ∈ trace2 → envs.nextChan ≤ ch) ∧
    (tornDown trace2 = [] → ∀ ch, Effect.close ch ∉ trace2) ∧
    (env.id ∈ tornDown trace2 ∨ Registered envs2 env.id envs.nextChan) := by
  obtain ⟨hlater, hcl, hreg, hnone⟩ := Settles_props _ _ _ _ hset
  obtain ⟨hinv, hr⟩ := register_props envs env hch
  refine ⟨fun h => ChanInv_of_Later _ _ hlater (hinv h), fun ch hc => ?_, hnone,
    hreg _ hr⟩
  rcases hcl ch hc with hown | hge
  · rw [hr.2] at hown
    simp only [Option.some.injEq] at hown
    rw [hown]
  · exact Nat.le_trans (Nat.le_succ _) hge

/-- What a creation that ends before the registration does to the channels. -/
theorem notCreated_props (envs envs2 : Manager) (trace2 : List Effect)
    (hn : envs.nextChan ≤ envs2.nextChan)
    (hs : envs2.pendingStateChangeCh = envs.pendingStateChangeCh)
    (ht : envs2.pendingTeardownsCh = envs.pendingTeardownsCh) (hq : Quiet trace2) :
    (ChanInv envs → ChanInv envs2) ∧
    (∀ ch, Effect.close ch ∈ trace2 → envs.nextChan ≤ ch) ∧
    (tornDown trace2 = [] → ∀ ch, Effect.close ch ∉ trace2) :=
  ⟨ChanInv_of_Later _ _ (Later_of_eq _ _ hn hs ht),
    fun ch hc => absurd hc (Quiet_close _ hq ch), fun _ ch => Quiet_close _ hq ch⟩

/-- Once the workflow is loaded, `CreateEnvironment` is the registration of the new
environment, followed by changes of state, quiet effects and at most one call of
`TeardownEnvironment` on the new environment. -/
theorem CreateEnvironment_Settles (envs : Manager) (workflowPath : String)
    (userVars : GoMap String String) (inp : CreateInputs) (workflow : Workflow)
    (hnew : inp.newEnvironmentError = none)
    (hload : loadWorkflow workflowPath inp.loaded = Except.ok workflow) :
    Settles
      (({ envs with nextChan := envs.nextChan + 1 } : Manager).register
        { newEnvironment (CreateEnvironment_split userVars).envUserVars inp.newId
            envs.nextChan with
          UserVars := (newEnvironment (CreateEnvironment_split userVars).envUserVars
            inp.newId envs.nextChan).UserVars.set "environment_id" inp.newId
          workflow := workflow })
      inp.newId
      (envs.CreateEnvironment workflowPath userVars inp).envs
      (envs.CreateEnvironment workflowPath userVars inp).trace := by
  unfold Manager.CreateEnvironment
  simp only [hnew, hload]
  cases inp.configure.err with
  | none =>
    exact Settles_stay _ _ _ _ (SameChannels_setState _ _ _) rfl
  | some err =>
    simp only
    split
    · exact Settles_torn _ _ _ _ true inp.teardown
        [Effect.make envs.nextChan, Effect.TryTransition inp.newId "CONFIGURE",
          Effect.log "environment deployment and configuration failed, cleanup in progress"]
        ([Effect.KillTasks workflow.GetTasks] ++ logKillError inp.killError
          ++ [Effect.log "environment deployment failed, tasks were cleaned up"])
        _ (SameChannels_setState _ _ _) rfl
        (Quiet_append _ _ (Quiet_append _ _ rfl (Quiet_logKillError inp.killError)) rfl)
        rfl (by simp [newEnvironment])
    · exact Settles_torn _ _ _ _ true inp.teardown
        [Effect.make envs.nextChan, Effect.TryTransition inp.newId "CONFIGURE",
          Effect.log "environment deployment and configuration failed, cleanup in progress"]
        [] _ (SameChannels_setState _ _ _) rfl rfl rfl (by simp [newEnvironment])
    · exact Settles_torn _ _ _ _ true inp.teardown
        [Effect.make envs.nextChan, Effect.TryTransition inp.newId "CONFIGURE",
          Effect.log "environment deployment and configuration failed, cleanup in progress"]
        [] _ (SameChannels_setState _ _ _) rfl rfl rfl (by simp [newEnvironment])

theorem CreateEnvironment_channels (envs : Manager) (workflowPath : String)
    (userVars : GoMap String String) (inp : CreateInputs) :
    (ChanInv envs → ChanInv (envs.CreateEnvironment workflowPath userVars inp).envs) ∧
    (∀ ch, Effect.close ch ∈ (envs.CreateEnvironment workflowPath userVars inp).trace →
      envs.nextChan ≤ ch) ∧
    (tornDown (envs.CreateEnvironment workflowPath userVars inp).trace = [] →
      ∀ ch, Effect.close ch ∉ (envs.CreateEnvironment workflowPath userVars inp).trace) ∧
    (inp.newEnvironmentError = none →
      (∃ workflow, loadWorkflow workflowPath inp.loaded = Except.ok workflow) →
      Effect.make envs.nextChan ∈ (envs.CreateEnvironment workflowPath userVars inp).trace ∧
      (inp.newId ∈ tornDown (envs.CreateEnvironment workflowPath userVars inp).trace ∨
        Registered (envs.CreateEnvironment workflowPath userVars inp).envs inp.newId
          envs.nextChan)) ∧
    ((inp.newEnvironmentError ≠ none ∨
        ∃ cause, loadWorkflow workflowPath inp.loaded = Except.error cause) →
      (envs.CreateEnvironment workflowPath userVars inp).envs.m = envs.m ∧
      (envs.CreateEnvironment workflowPath userVars inp).envs.pendingStateChangeCh
        = envs.pendingStateChangeCh) := by
  unfold Manager.CreateEnvironment
  simp only
  cases hnew : inp.newEnvironmentError with
  | some err =>
    obtain ⟨h1, h2, h3⟩ := notCreated_props envs envs [] (Nat.le_refl _) rfl rfl rfl
    exact ⟨h1, h2, h3, fun h => by simp at h, fun _ => ⟨rfl, rfl⟩⟩
  | none =>
    simp only
    cases hload : loadWorkflow workflowPath inp.loaded with
    | error cause =>
      obtain ⟨h1, h2, h3⟩ := notCreated_props envs
        { envs with nextChan := envs.nextChan + 1 }
        [Effect.make (newEnvironment (CreateEnvironment_split userVars).envUserVars inp.newId
          envs.nextChan).stateChangedCh] (Nat.le_succ _) rfl rfl rfl
      exact ⟨h1, h2, h3, fun _ h => by simp at h, fun _ => ⟨rfl, rfl⟩⟩
    | ok workflow =>
      simp only
      have hset := CreateEnvironment_Settles envs workflowPath userVars inp workflow hnew
        hload
      unfold Manager.CreateEnvironment at hset
      simp only [hnew, hload] at hset
      obtain ⟨h1, h2, h3, h4⟩ := created_props envs _ _ _ rfl hset
      refine ⟨h1, h2, h3, fun _ _ => ⟨?_, h4⟩, fun h => ?_⟩
      · cases inp.configure.err with
        | none => simp [newEnvironment]
        | some err =>
          simp only
          split <;> simp [newEnvironment]
      · rcases h with h | ⟨cause, h⟩
        · exact absurd rfl h
        · simp at h

theorem autoLoop_trace_starts (env : Environment) (inp : CreateAutoInputs)
    (polled : List String) (envs : Manager) (trace : List Effect) :
    ∃ rest, (envs.autoLoop env inp polled trace).trace = trace ++ rest := by
  induction polled generalizing envs with
  | nil => exact ⟨[], by simp [Manager.autoLoop]⟩
  | cons envState rest ih =>
    unfold Manager.autoLoop
    simp only
    split
    · cases inp.reset.err with
      | some e => exact ⟨_, by simp only [List.append_assoc]; rfl⟩
      | none =>
        simp only
        split <;> exact ⟨_, by simp only [List.append_assoc]; rfl⟩
    · split
      · exact ⟨_, rfl⟩
      · exact ih _

/-- Once the workflow is loaded, `CreateAutoEnvironment` is the registration of the new
environment, followed by changes of state, quiet effects and at most one call of
`TeardownEnvironment` on the new environment. -/
theorem CreateAutoEnvironment_Settles (envs : Manager) (workflowPath : String)
    (userVars : GoMap String String) (inp : CreateAutoInputs) (workflow : Workflow)
    (hnew : inp.create.newEnvironmentError = none)
    (hload : loadWorkflow workflowPath inp.create.loaded = Except.ok workflow) :
    Settles
      (({ envs with nextChan := envs.nextChan + 1 } : Manager).register
        { newEnvironment (CreateAutoEnvironment_split userVars).envUserVars
            inp.create.newId envs.nextChan with workflow := workflow })
      inp.create.newId
      (envs.CreateAutoEnvironment workflowPath userVars inp).envs
      (envs.CreateAutoEnvironment workflowPath userVars inp).trace := by
  unfold Manager.CreateAutoEnvironment
  simp only [hnew, hload]
  cases inp.create.configure.err with
  | some err =>
    simp only
    split
    · rename_i tornErr _
      exact Settles_torn _ _ _ _ true inp.create.teardown
        [Effect.make envs.nextChan, Effect.addSubscription inp.create.newId,
          Effect.TryTransition inp.create.newId "CONFIGURE",
          Effect.sendEnvironmentError inp.create.newId,
          Effect.log
            "environment deployment and configuration failed, cleanup in progress"]
        ((if tornErr ≠ none then [Effect.sendEnvironmentError inp.create.newId] else [])
          ++ [Effect.KillTasks workflow.GetTasks] ++ logKillError inp.create.killError
          ++ [Effect.log "environment deployment failed, tasks were cleaned up",
            Effect.closeStream inp.create.newId])
        _ (SameChannels_setState _ _ _) rfl
        (Quiet_append _ _ (Quiet_append _ _ (Quiet_append _ _ (Quiet_ite _ _) rfl)
          (Quiet_logKillError inp.create.killError)) rfl)
        rfl (by simp [newEnvironment])
    · exact Settles_torn _ _ _ _ true inp.create.teardown
        [Effect.make envs.nextChan, Effect.addSubscription inp.create.newId,
          Effect.TryTransition inp.create.newId "CONFIGURE",
          Effect.sendEnvironmentError inp.create.newId,
          Effect.log
            "environment deployment and configuration failed, cleanup in progress"]
        [] _ (SameChannels_setState _ _ _) rfl rfl rfl (by simp [newEnvironment])
    · exact Settles_torn _ _ _ _ true inp.create.teardown
        [Effect.make envs.nextChan, Effect.addSubscription inp.create.newId,
          Effect.TryTransition inp.create.newId "CONFIGURE",
          Effect.sendEnvironmentError inp.create.newId,
          Effect.log
            "environment deployment and configuration failed, cleanup in progress"]
        [] _ (SameChannels_setState _ _ _) rfl rfl rfl (by simp [newEnvironment])
  | none =>
    simp only
    split
    · exact Settles_stay _ _ _ _ (SameChannels_setState _ _ _) rfl
    · cases inp.start.err with
      | some e =>
        exact Settles_stay _ _ _ _ (SameChannels_trans _ _ _
          (SameChannels_setState _ _ _) (SameChannels_setState _ _ _)) rfl
      | none =>
        exact autoLoop_Settles _ inp inp.polled _ _ _ (SameChannels_trans _ _ _
          (SameChannels_setState _ _ _) (SameChannels_setState _ _ _)) rfl

theorem CreateAutoEnvironment_channels (envs : Manager) (workflowPath : String)
    (userVars : GoMap String String) (inp : CreateAutoInputs) :
    (ChanInv envs → ChanInv (envs.CreateAutoEnvironment workflowPath userVars inp).envs) ∧
    (∀ ch, Effect.close ch ∈ (envs.CreateAutoEnvironment workflowPath userVars inp).trace →
      envs.nextChan ≤ ch) ∧
    (tornDown (envs.CreateAutoEnvironment workflowPath userVars inp).trace = [] →
      ∀ ch, Effect.close ch ∉ (envs.CreateAutoEnvironment workflowPath userVars inp).trace) ∧
    (inp.create.newEnvironmentError = none →
      (∃ workflow, loadWorkflow workflowPath inp.create.loaded = Except.ok workflow) →
      Effect.make envs.nextChan
        ∈ (envs.CreateAutoEnvironment workflowPath userVars inp).trace ∧
      (inp.create.newId ∈ tornDown (envs.CreateAutoEnvironment workflowPath userVars inp).trace ∨
        Registered (envs.CreateAutoEnvironment workflowPath userVars inp).envs inp.create.newId
          envs.nextChan)) ∧
    ((inp.create.newEnvironmentError ≠ none ∨
        ∃ cause, loadWorkflow workflowPath inp.create.loaded = Except.error cause) →
      (envs.CreateAutoEnvironment workflowPath userVars inp).envs.m = envs.m ∧
      (envs.CreateAutoEnvironment workflowPath userVars inp).envs.pendingStateChangeCh
        = envs.pendingStateChangeCh) := by
  cases hnew : inp.create.newEnvironmentError with
  | some err =>
    unfold Manager.CreateAutoEnvironment
    simp only [hnew]
    obtain ⟨h1, h2, h3⟩ := notCreated_props envs envs
      [Effect.sendEnvironmentError inp.create.newId] (Nat.le_refl _) rfl rfl rfl
    exact ⟨h1, h2, h3, fun h => by simp at h, fun _ => ⟨by trivial, by trivial⟩⟩
  | none =>
    cases hload : loadWorkflow workflowPath inp.create.loaded with
    | error cause =>
      unfold Manager.CreateAutoEnvironment
      simp only [hnew, hload]
      obtain ⟨h1, h2, h3⟩ := notCreated_props envs
        { envs with nextChan := envs.nextChan + 1 }
        ([Effect.make envs.nextChan, Effect.addSubscription inp.create.newId]
          ++ [Effect.sendEnvironmentError inp.create.newId,
            Effect.closeStream inp.create.newId]) (Nat.le_succ _) rfl rfl rfl
      exact ⟨h1, h2, h3, fun _ h => by simp at h, fun _ => ⟨by trivial, by trivial⟩⟩
    | ok workflow =>
      have hset := CreateAutoEnvironment_Settles envs workflowPath userVars inp workflow hnew
        hload
      obtain ⟨h1, h2, h3, h4⟩ := created_props envs _ _ _ rfl hset
      refine ⟨h1, h2, h3, fun _ _ => ⟨?_, h4⟩, fun h => ?_⟩
      · unfold Manager.CreateAutoEnvironment
        simp only [hnew, hload]
        cases inp.create.configure.err with
        | some err =>
          simp only
          split <;> simp [newEnvironment]
        | none =>
          simp only
          split
          · simp [newEnvironment]
          · cases inp.start.err with
            | some e => simp [newEnvironment]
            | none =>
              simp only
              obtain ⟨rest, hrest⟩ := autoLoop_trace_starts
                { newEnvironment (CreateAutoEnvironment_split userVars).envUserVars
                    inp.create.newId envs.nextChan with workflow := workflow }
                inp inp.polled _ _
              rw [hrest]
              simp [newEnvironment]
      · rcases h with h | ⟨cause, h⟩
        · exact absurd rfl h
        · simp at h

theorem handleEndOfStream_channels (envs : Manager) (evt : DeviceEvent)
    (trace : List Effect) :
    (envs.handleEndOfStream evt trace).envs.nextChan = envs.nextChan ∧
    (envs.handleEndOfStream evt trace).envs.pendingTeardownsCh = envs.pendingTeardownsCh := by
  unfold Manager.handleEndOfStream logCannotFind
  cases envs.taskman.get evt.taskId with
  | none => simp
  | some t =>
    simp only
    cases (envs.environment t.environmentId).1 with
    | none =>
      simp only [CurrentState]
      exact ⟨by trivial, by trivial⟩
    | some env =>
      simp only [CurrentState]
      split
      · exact ⟨by trivial, by trivial⟩
      · exact ⟨by trivial, by trivial⟩

theorem handleDeviceEvent_channels (envs : Manager) (evt : Option DeviceEvent) :
    (envs.handleDeviceEvent evt).envs.nextChan = envs.nextChan ∧
    (envs.handleDeviceEvent evt).envs.pendingTeardownsCh = envs.pendingTeardownsCh := by
  unfold Manager.handleDeviceEvent
  cases evt with
  | none => simp
  | some evt =>
    simp only
    cases evt.type with
    | NULL_DEVICE_EVENT => simp
    | END_OF_STREAM => exact handleEndOfStream_channels envs evt []
    | BASIC_TASK_TERMINATED =>
      simp only
      split
      · cases envs.taskman.get evt.taskId with
        | none => exact handleEndOfStream_channels envs evt _
        | some t =>
          simp only
          split
          · split
            · unfold NotifyEvent logCannotFind
              cases (envs.environment t.environmentId).1 with
              | none => exact ⟨by trivial, by trivial⟩
              | some env => exact ⟨by trivial, by trivial⟩
            · exact handleEndOfStream_channels envs evt _
          · exact handleEndOfStream_channels envs evt _
      · simp

theorem Later_demuxStep (envs : Manager) (ev : Event) :
    Later envs (envs.demuxStep ev).envs := by
  cases ev with
  | device evt =>
    simp only [Manager.demuxStep]
    obtain ⟨hn, ht⟩ := handleDeviceEvent_channels envs evt
    exact Later_of_eq _ _ (by rw [hn]) (handleDeviceEvent_frame envs evt).2.1 ht
  | tasksReleased e =>
    simp only [Manager.demuxStep, Manager.routeTasksReleased]
    cases hg : envs.pendingTeardownsCh.get e.envId with
    | none => exact Later_of_eq _ _ (Nat.le_refl _) rfl rfl
    | some c =>
      exact ⟨Nat.le_refl _, fun _ _ h => h,
        fun id ch h => Or.inl (GoMap.get_delete_some _ _ _ _ h)⟩
  | tasksStateChanged e =>
    simp only [Manager.demuxStep, Manager.routeTasksStateChanged]
    cases hg : envs.pendingStateChangeCh.get e.envId with
    | none => exact Later_of_eq _ _ (Nat.le_refl _) rfl rfl
    | some c => exact Later_of_eq _ _ (Nat.le_refl _) rfl rfl
  | other => exact Later_of_eq _ _ (Nat.le_refl _) rfl rfl

/-- C14: the invariant of the state channels over the operations of the manager, each
taken as one step. With `started` the environments on which a teardown has started (a
release was dispatched for them), `StateChInv envs started` holds when every environment
of the registry that is not in `started` has exactly one entry in the map of state
channels, its own `stateChangedCh`; `ChanInv envs` says that the channels of the maps are
distinct objects that `make` gave. Both hold of the manager that `NewEnvManager` returns.
Under both, for every input:
`CreateEnvironment` and `CreateAutoEnvironment` keep both invariants, with the teardowns
that their trace starts added to `started`. Once the workflow is loaded they make the
state channel and run the registration (the registry entry and the channel entry
together) of an environment with the new id and that channel, followed only by changes of
state, effects that close nothing and release nothing, and at most one call of
`TeardownEnvironment` on the new environment; unless the teardown of the new environment
has started, they end with the new environment in the registry and its channel in the
map. When they end before the registration they change neither the registry nor the map.
They leave the entries of the other environments as they were, close no state channel
that was in the map, and close nothing at all unless a teardown has started.
`TeardownEnvironment` keeps both invariants; when it goes ahead it closes the state
channel of its environment first, removes its entry and dispatches the release; when the
lookup fails or the teardown is refused it changes nothing; it leaves the entries of the
other environments as they were and closes none of their channels.
A turn of the demultiplexer keeps both invariants, leaves the registry and the whole map
as they were, and closes teardown channels only, none of which is a state channel. -/
theorem stateChannel_invariant (envs : Manager) (started : List ID)
    (h : StateChInv envs started) (hc : ChanInv envs) :
    (∀ id env, envs.m.get id = some env → id ∉ started →
      envs.pendingStateChangeCh.get id = some env.stateChangedCh ∧
      (GoMap.keys envs.pendingStateChangeCh).count id = 1) ∧
    (∀ workflowPath userVars (inp : CreateInputs),
      StateChInv (envs.CreateEnvironment workflowPath userVars inp).envs
        (started ++ tornDown (envs.CreateEnvironment workflowPath userVars inp).trace) ∧
      ChanInv (envs.CreateEnvironment workflowPath userVars inp).envs ∧
      (inp.newEnvironmentError = none →
        ∀ workflow, loadWorkflow workflowPath inp.loaded = Except.ok workflow →
        Effect.make envs.nextChan ∈ (envs.CreateEnvironment workflowPath userVars inp).trace ∧
        (∃ env, env.id = inp.newId ∧ env.stateChangedCh = envs.nextChan ∧
          env.workflow = workflow ∧
          Settles (({ envs with nextChan := envs.nextChan + 1 } : Manager).register env)
            inp.newId (envs.CreateEnvironment workflowPath userVars inp).envs
            (envs.CreateEnvironment workflowPath userVars inp).trace) ∧
        (inp.newId ∉ tornDown (envs.CreateEnvironment workflowPath userVars inp).trace →
          Registered (envs.CreateEnvironment workflowPath userVars inp).envs inp.newId
            envs.nextChan) ∧
        (inp.configure.err = none →
          tornDown (envs.CreateEnvironment workflowPath userVars inp).trace = [])) ∧
      ((inp.newEnvironmentError ≠ none ∨
          ∃ cause, loadWorkflow workflowPath inp.loaded = Except.error cause) →
        (envs.CreateEnvironment workflowPath userVars inp).envs.m = envs.m ∧
        (envs.CreateEnvironment workflowPath userVars inp).envs.pendingStateChangeCh
          = envs.pendingStateChangeCh) ∧
      (∀ id2, id2 ≠ inp.newId →
        (envs.CreateEnvironment workflowPath userVars inp).envs.pendingStateChangeCh.get id2
          = envs.pendingStateChangeCh.get id2) ∧
      (∀ ch, Effect.close ch ∈ (envs.CreateEnvironment workflowPath userVars inp).trace →
        ∀ id2, envs.pendingStateChangeCh.get id2 ≠ some ch) ∧
      (tornDown (envs.CreateEnvironment workflowPath userVars inp).trace = [] →
        ∀ ch, Effect.close ch ∉ (envs.CreateEnvironment workflowPath userVars inp).trace)) ∧
    (∀ workflowPath userVars (inp : CreateAutoInputs),
      StateChInv (envs.CreateAutoEnvironment workflowPath userVars inp).envs
        (started ++ tornDown (envs.CreateAutoEnvironment workflowPath userVars inp).trace) ∧
      ChanInv (envs.CreateAutoEnvironment workflowPath userVars inp).envs ∧
      (inp.create.newEnvironmentError = none →
        ∀ workflow, loadWorkflow workflowPath inp.create.loaded = Except.ok workflow →
        Effect.make envs.nextChan
          ∈ (envs.CreateAutoEnvironment workflowPath userVars inp).trace ∧
        (∃ env, env.id = inp.create.newId ∧ env.stateChangedCh = envs.nextChan ∧
          env.workflow = workflow ∧
          Settles (({ envs with nextChan := envs.nextChan + 1 } : Manager).register env)
            inp.create.newId (envs.CreateAutoEnvironment workflowPath userVars inp).envs
            (envs.CreateAutoEnvironment workflowPath userVars inp).trace) ∧
        (inp.create.newId
            ∉ tornDown (envs.CreateAutoEnvironment workflowPath userVars inp).trace →
          Registered (envs.CreateAutoEnvironment workflowPath userVars inp).envs
            inp.create.newId envs.nextChan) ∧
        (inp.create.configure.err = none → inp.startIsNil = true →
          tornDown (envs.CreateAutoEnvironment workflowPath userVars inp).trace = [])) ∧
      ((inp.create.newEnvironmentError ≠ none ∨
          ∃ cause, loadWorkflow workflowPath inp.create.loaded = Except.error cause) →
        (envs.CreateAutoEnvironment workflowPath userVars inp).envs.m = envs.m ∧
        (envs.CreateAutoEnvironment workflowPath userVars inp).envs.pendingStateChangeCh
          = envs.pendingStateChangeCh) ∧
      (∀ id2, id2 ≠ inp.create.newId →
        (envs.CreateAutoEnvironment workflowPath userVars inp).envs.pendingStateChangeCh.get id2
          = envs.pendingStateChangeCh.get id2) ∧
      (∀ ch, Effect.close ch ∈ (envs.CreateAutoEnvironment workflowPath userVars inp).trace →
        ∀ id2, envs.pendingStateChangeCh.get id2 ≠ some ch) ∧
      (tornDown (envs.CreateAutoEnvironment workflowPath userVars inp).trace = [] →
        ∀ ch,
          Effect.close ch ∉ (envs.CreateAutoEnvironment workflowPath userVars inp).trace)) ∧
    (∀ environmentId force inp,
      StateChInv (envs.TeardownEnvironment environmentId force inp).envs
        (started ++ tornDown (envs.TeardownEnvironment environmentId force inp).trace) ∧
      ChanInv (envs.TeardownEnvironment environmentId force inp).envs ∧
      (∀ env, envs.environment environmentId = (some env, none) →
        (env.currentState = "STANDBY" ∨ force = true) →
        (envs.TeardownEnvironment environmentId force inp).envs.pendingStateChangeCh.get
            environmentId = none ∧
        environmentId ∈ tornDown (envs.TeardownEnvironment environmentId force inp).trace ∧
        (∀ ch, envs.pendingStateChangeCh.get environmentId = some ch →
          ∃ rest, (envs.TeardownEnvironment environmentId force inp).trace
            = Effect.close ch :: rest) ∧
        (environmentId ∉ started →
          ∃ rest, (envs.TeardownEnvironment environmentId force inp).trace
            = Effect.close env.stateChangedCh :: rest)) ∧
      ((∀ env, envs.environment environmentId = (some env, none) →
          ¬ (env.currentState = "STANDBY" ∨ force = true)) →
        (envs.TeardownEnvironment environmentId force inp).envs = envs ∧
        (envs.TeardownEnvironment environmentId force inp).trace = []) ∧
      (∀ id2, id2 ≠ environmentId →
        (envs.TeardownEnvironment environmentId force inp).envs.pendingStateChangeCh.get id2
          = envs.pendingStateChangeCh.get id2) ∧
      (∀ ch, Effect.close ch ∈ (envs.TeardownEnvironment environmentId force inp).trace →
        ∀ id2, id2 ≠ environmentId → envs.pendingStateChangeCh.get id2 ≠ some ch)) ∧
    (∀ ev,
      StateChInv (envs.demuxStep ev).envs started ∧
      ChanInv (envs.demuxStep ev).envs ∧
      (envs.demuxStep ev).envs.m = envs.m ∧
      (envs.demuxStep ev).envs.pendingStateChangeCh = envs.pendingStateChangeCh ∧
      (∀ ch, Effect.close ch ∈ (envs.demuxStep ev).trace →
        (∃ id, envs.pendingTeardownsCh.get id = some ch) ∧
        ∀ id, envs.pendingStateChangeCh.get id ≠ some ch)) ∧
    (∀ env, (envs.register env).m.get env.id = some env ∧
      (envs.register env).pendingStateChangeCh.get env.id = some env.stateChangedCh) ∧
    (∀ tm, StateChInv (NewEnvManager tm) [] ∧ ChanInv (NewEnvManager tm)) := by
  have hfresh : ∀ ch, envs.nextChan ≤ ch → ∀ id2, envs.pendingStateChangeCh.get id2 ≠ some ch :=
    fun ch hge id2 hg => absurd (hc.1 id2 ch hg) (Nat.not_lt.2 hge)
  refine ⟨fun id env hreg hnot => ?_, fun workflowPath userVars inp => ?_,
    fun workflowPath userVars inp => ?_, fun environmentId force inp => ?_, fun ev => ?_,
    fun env => ?_, fun tm => ?_⟩
  · have hget := h.2 id env hreg hnot
    exact ⟨hget, List.count_eq_one_of_mem h.1 ((GoMap.mem_keys_iff _ _).2 ⟨_, hget⟩)⟩
  · obtain ⟨k1, k2, k3, k4, k5⟩ := CreateEnvironment_channels envs workflowPath userVars inp
    obtain ⟨c1, c2⟩ := Changes_CreateEnvironment envs workflowPath userVars inp
    refine ⟨c1 started h, k1 hc, fun hnew workflow hload =>
      ⟨(k4 hnew ⟨workflow, hload⟩).1,
        ⟨_, rfl, rfl, rfl,
          CreateEnvironment_Settles envs workflowPath userVars inp workflow hnew hload⟩,
        fun hnot => ?_, fun hconf => ?_⟩, k5, c2, fun ch hch => hfresh ch (k2 ch hch), k3⟩
    · rcases (k4 hnew ⟨workflow, hload⟩).2 with hst | hr
      · exact absurd hst hnot
      · exact hr
    · simp [Manager.CreateEnvironment, hnew, hload, hconf, tornDown, releases]
  · obtain ⟨k1, k2, k3, k4, k5⟩ :=
      CreateAutoEnvironment_channels envs workflowPath userVars inp
    obtain ⟨c1, c2⟩ := Changes_CreateAutoEnvironment envs workflowPath userVars inp
    refine ⟨c1 started h, k1 hc, fun hnew workflow hload =>
      ⟨(k4 hnew ⟨workflow, hload⟩).1,
        ⟨_, rfl, rfl, rfl,
          CreateAutoEnvironment_Settles envs workflowPath userVars inp workflow hnew hload⟩,
        fun hnot => ?_, fun hconf hnil => ?_⟩, k5, c2, fun ch hch => hfresh ch (k2 ch hch),
      k3⟩
    · rcases (k4 hnew ⟨workflow, hload⟩).2 with hst | hr
      · exact absurd hst hnot
      · exact hr
    · simp [Manager.CreateAutoEnvironment, hnew, hload, hconf, hnil, tornDown, releases,
        autoDeferred]
  · obtain ⟨c1, c2⟩ := Changes_TeardownEnvironment envs environmentId force inp
    refine ⟨c1 started h,
      ChanInv_of_Later _ _ (Later_TeardownEnvironment envs environmentId force inp) hc,
      fun env hfound hguard => ?_,
      TeardownEnvironment_untouched envs environmentId force inp, c2,
      fun ch hch id2 hne hg => ?_⟩
    · obtain ⟨hch, _, htorn⟩ := TeardownEnvironment_frame envs environmentId env force inp
        hfound hguard
      obtain ⟨_, ⟨rest, hrest⟩, _⟩ := TeardownEnvironment_channels envs environmentId env
        force inp hfound hguard
      have hfirst : ∀ ch, envs.pendingStateChangeCh.get environmentId = some ch →
          ∃ rest, (envs.TeardownEnvironment environmentId force inp).trace
            = Effect.close ch :: rest := by
        intro ch hg
        rw [hrest]
        simp [traceToFirst, teardownPrelude, hg]
      exact ⟨by rw [hch]; exact GoMap.get_delete_self _ _, htorn, hfirst,
        fun hnot => hfirst _ (h.2 environmentId env (environment_found _ _ _ hfound) hnot)⟩
    · rcases TeardownEnvironment_closes envs environmentId force inp ch hch with hown | hge
      · exact hne (hc.2.2.2 id2 environmentId ch hg hown)
      · exact hfresh ch hge id2 hg
  · obtain ⟨hm, hch, hcl⟩ := demuxStep_frame envs ev
    refine ⟨⟨by rw [hch]; exact h.1, fun id env hreg hnot => ?_⟩,
      ChanInv_of_Later _ _ (Later_demuxStep envs ev) hc, hm, hch, fun ch hmem => ?_⟩
    · rw [hm] at hreg
      rw [hch]
      exact h.2 id env hreg hnot
    · obtain ⟨id, hid⟩ := hcl ch hmem
      exact ⟨⟨id, hid⟩, fun id2 hg => hc.2.2.1 id2 id ch hg hid⟩
  · simp [Manager.register, GoMap.get_set]
  · refine ⟨⟨by simp [NewEnvManager, GoMap.keys], fun id env hreg _ => ?_⟩,
      fun id ch hg => ?_, fun id ch hg => ?_, fun id id2 ch hg _ => ?_,
      fun id id2 ch hg _ => ?_⟩
    · simp [NewEnvManager, GoMap.get] at hreg
    · simp [NewEnvManager, GoMap.get] at hg
    · simp [NewEnvManager, GoMap.get] at hg
    · simp [NewEnvManager, GoMap.get] at hg
    · simp [NewEnvManager, GoMap.get] at hg

/-- Witness of C14: on the sample manager, where no teardown has started, the running
environment `env1` has its one state channel; a creation that goes well registers `env2`
with the channel it makes and starts no teardown; a forced teardown of `env1` closes its
state channel first, and the invariant holds afterwards. -/
theorem stateChannel_invariant_witness :
    StateChInv sampleManager [] ∧ ChanInv sampleManager ∧
    (sampleManager.pendingStateChangeCh.get "env1" = some sampleEnvironment.stateChangedCh ∧
      (GoMap.keys sampleManager.pendingStateChangeCh).count "env1" = 1) ∧
    tornDown (sampleManager.CreateEnvironment "readout" [] sampleCreateInputs).trace = [] ∧
    Registered (sampleManager.CreateEnvironment "readout" [] sampleCreateInputs).envs "env2" 1 ∧
    (∃ rest, (sampleManager.TeardownEnvironment "env1" true sampleCleanRelease).trace
      = Effect.close 0 :: rest) ∧
    tornDown (sampleManager.TeardownEnvironment "env1" true sampleCleanRelease).trace
      = ["env1", "env1"] ∧
    StateChInv (sampleManager.TeardownEnvironment "env1" true sampleCleanRelease).envs
      ([] ++ tornDown (sampleManager.TeardownEnvironment "env1" true sampleCleanRelease).trace) := by
  have hinv : StateChInv sampleManager [] := by
    refine ⟨by decide, fun id env hreg _ => ?_⟩
    simp only [sampleManager, GoMap.get] at hreg ⊢
    by_cases hid : "env1" = id
    · simp only [hid, if_true, Option.some.injEq] at hreg ⊢
      rw [← hreg]
      rfl
    · simp [hid] at hreg
  have hget : ∀ id ch, sampleManager.pendingStateChangeCh.get id = some ch →
      id = "env1" ∧ ch = 0 := by
    intro id ch hg
    simp only [sampleManager, GoMap.get] at hg
    by_cases hid : "env1" = id
    · simp only [hid, if_true, Option.some.injEq] at hg
      exact ⟨hid.symm, hg.symm⟩
    · simp [hid] at hg
  have hchan : ChanInv sampleManager := by
    refine ⟨fun id ch hg => ?_, fun id ch hg => ?_, fun id id2 ch _ hg2 => ?_,
      fun id id2 ch hg hg2 => ?_⟩
    · rw [(hget id ch hg).2]
      decide
    · simp [sampleManager, GoMap.get] at hg
    · simp [sampleManager, GoMap.get] at hg2
    · rw [(hget id ch hg).1, (hget id2 ch hg2).1]
  have hcreate := (stateChannel_invariant sampleManager [] hinv hchan).2.1 "readout" []
    sampleCreateInputs
  have hnone : tornDown (sampleManager.CreateEnvironment "readout" []
      sampleCreateInputs).trace = [] :=
    (hcreate.2.2.1 rfl sampleWorkflow rfl).2.2.2 rfl
  exact ⟨hinv, hchan,
    (stateChannel_invariant sampleManager [] hinv hchan).1 "env1" sampleEnvironment rfl
      (by simp),
    hnone,
    (hcreate.2.2.1 rfl sampleWorkflow rfl).2.2.1 (by rw [hnone]; simp),
    (((stateChannel_invariant sampleManager [] hinv hchan).2.2.2.1 "env1" true
      sampleCleanRelease).2.2.1 sampleEnvironment rfl (Or.inr rfl)).2.2.2 (by simp),
    by decide,
    ((stateChannel_invariant sampleManager [] hinv hchan).2.2.2.1 "env1" true
      sampleCleanRelease).1⟩

end environment

namespace ddsched

/-- When the remote call returns an error, `PartitionInitialize` returns without reading
the state of the response. -/
theorem PartitionInitialize_rpc_error (p : Plugin) (varStack : environment.GoMap String String)
    (unmarshal : String → Option (environment.GoMap String String)) (rpc : RpcResult)
    (herr : rpc.err ≠ none) :
    Step.readPartitionState ∉ (PartitionInitialize p varStack unmarshal rpc).steps ∧
    (PartitionInitialize p varStack unmarshal rpc).outcome = Outcome.returned "" := by
  unfold PartitionInitialize
  simp only [herr, ne_eq, not_false_eq_true, if_true]
  constructor
  · repeat' split
    all_goals simp
  · repeat' split
    all_goals simp

/-- C16: when the remote call fails, with no response and an error, `PartitionInitialize`
logs the error and returns without reading the state of the response, but
`PartitionTerminate` logs the error and goes on to read `response.PartitionState`, which
dereferences the missing response. -/
theorem PartitionTerminate_reads_missing_response :
    sampleRpcFailure.response = none ∧ sampleRpcFailure.err ≠ none ∧
    PartitionInitialize samplePlugin sampleVarStack sampleUnmarshal sampleRpcFailure
      = { steps := [Step.debug "performing DD scheduler PartitionInitialize",
            Step.debug "no DD stfb_host_id_map set", Step.debug "no DD stfs_host_id_map set",
            Step.rpc "PartitionInitialize" "env1",
            Step.error "failed to perform DD scheduler PartitionInitialize"],
          outcome := Outcome.returned "" } ∧
    PartitionTerminate samplePlugin sampleVarStack sampleRpcFailure
      = { steps := [Step.debug "performing DD scheduler PartitionTerminate",
            Step.rpc "PartitionTerminate" "env1",
            Step.error "failed to perform DD scheduler PartitionTerminate",
            Step.readPartitionState],
          outcome := Outcome.panicked } := by
  decide

end ddsched
